import Mathlib

/-!
Shallow embedding of the saga-server adventure game engine.

The Go sources are translated as follows:
* Go string-typed enums (`HealthState`, `Mode`, `LevelCompletionState`,
  `EventType`, `EffectType`, `HealthEffect`) are `String` with the source's
  constants, so that zero values ("") and default-case panics are representable.
* Go `float64` weapon damage and the rng draw are `ℚ`; the only operation the
  code performs on them is an order comparison, which agrees with IEEE
  comparison on the values in range.
* Go `int` is `Int`.
* Go maps (`Player.Ammo`, `Engine.MinimapData`, `Fixture.RequiredItems`) are
  association lists updated in place (first matching key).
* Go pointers into the level (current room, current floor, fighting enemy,
  doors) are names; every mutation through a pointer becomes a functional
  update of the first entity with that name, which is the entity the Go
  lookup functions (`GetRoom`, `GetDoor`, `GetEnemy`, `find` loops) return.
* A Go `panic` (including a nil-pointer dereference) is the `halt` outcome:
  it aborts the session and produces no successor state.
* The empty capability structs `Portable` and `Key` are `Bool` presence flags.
-/

/-- Health state constants from world.HealthState. -/
def HealthFine : String := "fine"

def HealthHurt : String := "hurt"

def HealthCrit : String := "critical"

def HealthDead : String := "dead"

/-- Health effect constants from world.HealthEffect. -/
def HealthBoostWeak : String := "weak"

def HealthBoostStrong : String := "strong"

/-- Mode constants from engine.Mode. -/
def Investigation : String := "investigation"

def Combat : String := "combat"

/-- Level completion constants from engine.LevelCompletionState. -/
def LevelCompletionStateInProgress : String := "in_progress"

def LevelCompletionStateComplete : String := "complete"

def LevelCompletionStateFailed : String := "failed"

/-- Event type constants from world.EventType. -/
def EventEnemyKilled : String := "enemy_killed"

def EventPlayerKilled : String := "player_killed"

def EventItemTaken : String := "item_taken"

def EventRoomEntered : String := "room_entered"

/-- Effect type constant from world.EffectType. -/
def EffectEnterCombat : String := "enter_combat"

/-- Engine state change notification constants. -/
def EngineStateChangeLevelComplete : String := "level_complete"

def EngineStateChangeLevelFailed : String := "level_failed"

def EngineStateChangeEnterCombat : String := "enter_combat"

def EngineStateChangeExitCombat : String := "exit_combat"

/-- world.Lock: key lock when keyName nonempty, keypad when code nonempty. -/
structure Lock where
  locked : Bool
  keyName : String
  code : String
deriving DecidableEq, Repr

/-- world.Latch: locks a door from one side only; lockedFrom is a room name. -/
structure Latch where
  locked : Bool
  lockedFrom : String
deriving DecidableEq, Repr

/-- world.Ammo. -/
structure Ammo where
  quantity : Int
deriving DecidableEq, Repr

/-- world.Weapon: damage in [0,1]; it may or may not use ammo. -/
structure Weapon where
  damage : ℚ
  ammo : Option Ammo
deriving DecidableEq, Repr

/-- world.AmmoBox: a box of ammunition for a named weapon. -/
structure AmmoBox where
  weaponName : String
  ammo : Option Ammo
deriving DecidableEq, Repr

/-- world.HealthItem. -/
structure HealthItem where
  healthEffect : String
deriving DecidableEq, Repr

mutual

/-- world.Item: base entity fields plus optional capability components. -/
inductive Item : Type where
  | mk (name description location detail : String)
       (portable key : Bool)
       (weapon : Option Weapon)
       (container : Option Container)
       (concealer : Option Concealer)
       (ammoBox : Option AmmoBox)
       (healthItem : Option HealthItem)
       (fixture : Option Fixture) : Item

/-- world.Container: holds at most one item, remembers searched, optional lock. -/
inductive Container : Type where
  | mk (contains : Option Item) (searched : Bool) (locked : Option Lock) : Container

/-- world.Concealer: hides at most one item until uncovered. -/
inductive Concealer : Type where
  | mk (hidden : Option Item) (uncovered : Bool) : Concealer

/-- world.Fixture: consumes required items, may produce an item. -/
inductive Fixture : Type where
  | mk (requiredItems : List (String × Bool)) (produces : Option Item) : Fixture

end

def Item.name : Item → String
  | .mk n _ _ _ _ _ _ _ _ _ _ _ => n

def Item.description : Item → String
  | .mk _ d _ _ _ _ _ _ _ _ _ _ => d

def Item.location : Item → String
  | .mk _ _ l _ _ _ _ _ _ _ _ _ => l

def Item.detail : Item → String
  | .mk _ _ _ d _ _ _ _ _ _ _ _ => d

def Item.portable : Item → Bool
  | .mk _ _ _ _ p _ _ _ _ _ _ _ => p

def Item.key : Item → Bool
  | .mk _ _ _ _ _ k _ _ _ _ _ _ => k

def Item.weapon : Item → Option Weapon
  | .mk _ _ _ _ _ _ w _ _ _ _ _ => w

def Item.container : Item → Option Container
  | .mk _ _ _ _ _ _ _ c _ _ _ _ => c

def Item.concealer : Item → Option Concealer
  | .mk _ _ _ _ _ _ _ _ c _ _ _ => c

def Item.ammoBox : Item → Option AmmoBox
  | .mk _ _ _ _ _ _ _ _ _ a _ _ => a

def Item.healthItem : Item → Option HealthItem
  | .mk _ _ _ _ _ _ _ _ _ _ h _ => h

def Item.fixture : Item → Option Fixture
  | .mk _ _ _ _ _ _ _ _ _ _ _ f => f

/-- Replace the weapon component (used when a weapon's ammo is zeroed). -/
def Item.setWeapon : Item → Option Weapon → Item
  | .mk n d l dt p k _ c cz ab hi fx, w => .mk n d l dt p k w c cz ab hi fx

/-- Replace the container component. -/
def Item.setContainer : Item → Option Container → Item
  | .mk n d l dt p k w _ cz ab hi fx, c => .mk n d l dt p k w c cz ab hi fx

/-- Replace the concealer component. -/
def Item.setConcealer : Item → Option Concealer → Item
  | .mk n d l dt p k w c _ ab hi fx, cz => .mk n d l dt p k w c cz ab hi fx

/-- Replace the fixture component. -/
def Item.setFixture : Item → Option Fixture → Item
  | .mk n d l dt p k w c cz ab hi _, fx => .mk n d l dt p k w c cz ab hi fx

def Container.contains : Container → Option Item
  | .mk c _ _ => c

def Container.searched : Container → Bool
  | .mk _ s _ => s

def Container.locked : Container → Option Lock
  | .mk _ _ l => l

def Container.setContains : Container → Option Item → Container
  | .mk _ s l, c => .mk c s l

def Container.setSearched : Container → Bool → Container
  | .mk c _ l, s => .mk c s l

def Container.setLocked : Container → Option Lock → Container
  | .mk c s _, l => .mk c s l

def Concealer.hidden : Concealer → Option Item
  | .mk h _ => h

def Concealer.uncovered : Concealer → Bool
  | .mk _ u => u

def Fixture.requiredItems : Fixture → List (String × Bool)
  | .mk r _ => r

def Fixture.produces : Fixture → Option Item
  | .mk _ p => p

def Fixture.setRequiredItems : Fixture → List (String × Bool) → Fixture
  | .mk _ p, r => .mk r p

/-- world.Item capability predicates (nil-pointer presence checks in Go). -/
def Item.IsPortable (it : Item) : Bool := it.portable

def Item.IsKey (it : Item) : Bool := it.key

def Item.IsWeapon (it : Item) : Bool := it.weapon.isSome

def Item.IsContainer (it : Item) : Bool := it.container.isSome

def Item.IsConcealer (it : Item) : Bool := it.concealer.isSome

def Item.IsAmmoBox (it : Item) : Bool := it.ammoBox.isSome

def Item.IsHealthItem (it : Item) : Bool := it.healthItem.isSome

def Item.IsFixture (it : Item) : Bool := it.fixture.isSome

/-- Lock.IsUnlocked (nil lock counts as unlocked). -/
def lockIsUnlocked : Option Lock → Bool
  | none => true
  | some l => !l.locked

/-- Lock.UnlockWithKey: returns the updated lock on success. -/
def Lock.UnlockWithKey (l : Lock) (keyName : String) : Except String Lock :=
  if l.keyName = "" then .error "lock doesnt not take a key"
  else if l.locked = false then .error "already unlocked"
  else if keyName ≠ l.keyName then .error "wrong key"
  else .ok { l with locked := false }

/-- Lock.UnlockWithCode: returns the updated lock on success. -/
def Lock.UnlockWithCode (l : Lock) (code : String) : Except String Lock :=
  if l.code = "" then .error "lock doesnt not take a code"
  else if l.locked = false then .error "already unlocked"
  else if code ≠ l.code then .error "wrong code"
  else .ok { l with locked := false }

def Container.HasKeyLock (c : Container) : Bool :=
  match c.locked with
  | some l => l.keyName ≠ ""
  | none => false

def Container.HasCodeLock (c : Container) : Bool :=
  match c.locked with
  | some l => l.code ≠ ""
  | none => false

def Container.HasLock (c : Container) : Bool := c.HasKeyLock || c.HasCodeLock

def Container.IsLocked (c : Container) : Bool :=
  c.HasLock && (match c.locked with
    | some l => l.locked
    | none => false)

def Container.IsEmpty (c : Container) : Bool := c.contains.isNone

/-- Container.RemoveItem: removes and returns the contained item. -/
def Container.RemoveItem (c : Container) : Except String (Container × Item) :=
  match c.contains with
  | none => .error "container is empty"
  | some it => .ok (c.setContains none, it)

/-- Container.Search: fails when locked; otherwise marks searched and returns
the contained item (without removing it). -/
def Container.Search (c : Container) : Except String (Container × Option Item) :=
  match c.locked with
  | some l =>
      if l.locked then .error "container is locked"
      else .ok (c.setSearched true, c.contains)
  | none => .ok (c.setSearched true, c.contains)

/-- Container.UnlockWithKey. -/
def Container.UnlockWithKey (c : Container) (keyName : String) : Except String Container :=
  match c.locked with
  | none => .error "container has no lock"
  | some l =>
      match l.UnlockWithKey keyName with
      | .error msg => .error msg
      | .ok l2 => .ok (c.setLocked (some l2))

/-- Container.UnlockWithCode. -/
def Container.UnlockWithCode (c : Container) (code : String) : Except String Container :=
  match c.locked with
  | none => .error "container has no lock"
  | some l =>
      match l.UnlockWithCode code with
      | .error msg => .error msg
      | .ok l2 => .ok (c.setLocked (some l2))

/-- Concealer.Reveal: returns the hidden item, clears it, marks uncovered.
The Go version never fails. -/
def Concealer.Reveal (c : Concealer) : Concealer × Option Item :=
  (.mk none true, c.hidden)

/-- Weapon.UsesAmmo. -/
def Weapon.UsesAmmo (w : Weapon) : Bool := w.ammo.isSome

/-- Fixture.IsComplete: all required items applied. -/
def Fixture.IsComplete (f : Fixture) : Bool :=
  f.requiredItems.all (fun p => p.2)

/-- Association list update used for Fixture.RequiredItems (Go map write). -/
def assocSetBool : List (String × Bool) → String → Bool → List (String × Bool)
  | [], w, v => [(w, v)]
  | p :: rest, w, v => if p.1 = w then (w, v) :: rest else p :: assocSetBool rest w v

/-- Fixture.UseItem: requires the item to be in requiredItems; marks it applied;
returns the produced item when the fixture completes. -/
def Fixture.UseItem (f : Fixture) (itemName : String) : Except String (Fixture × Option Item) :=
  if (f.requiredItems.find? (fun p => p.1 == itemName)).isNone then
    .error ("you can\x27t use a " ++ itemName ++ " on this")
  else
    let f2 := f.setRequiredItems (assocSetBool f.requiredItems itemName true)
    if f2.IsComplete then .ok (f2, f2.produces)
    else .ok (f2, none)

/-- world.Item.ValidateInitialState: the capability exclusivity table. -/
def Item.ValidateInitialState (it : Item) : Except String Unit :=
  if it.IsKey && (!it.IsPortable || it.IsContainer || it.IsConcealer || it.IsWeapon) then
    .error "invalid key"
  else if it.IsWeapon && (!it.IsPortable || it.IsContainer || it.IsConcealer || it.IsKey) then
    .error "invalid weapon"
  else if it.IsContainer && (it.IsPortable || it.IsConcealer || it.IsKey || it.IsWeapon) then
    .error "invalid container"
  else if it.IsContainer &&
      (match it.container with
       | some c => (match c.contains with
         | some inner => inner.IsContainer
         | none => false)
       | none => false) then
    .error "container cannot be nested"
  else if it.IsContainer &&
      (match it.container with
       | some c => c.HasLock && !c.IsLocked
       | none => false) then
    .error "container with lock must start in a locked state"
  else if it.IsConcealer && (it.IsPortable || it.IsContainer || it.IsKey || it.IsWeapon) then
    .error "invalid concealer"
  else if it.IsConcealer &&
      (match it.concealer with
       | some c => (match c.hidden with
         | some inner => inner.IsConcealer
         | none => false)
       | none => false) then
    .error "concealers cannot be nested"
  else if it.IsFixture &&
      (it.IsPortable || it.IsContainer || it.IsConcealer || it.IsKey || it.IsWeapon) then
    .error "invalid fixture"
  else .ok ()

/-- world.Door. -/
structure Door where
  name : String
  roomA : String
  roomB : String
  lock : Option Lock
  stairwell : Bool
  latch : Option Latch
  traversed : Bool
  tried : Bool
deriving DecidableEq, Repr

def Door.HasKeyLock (d : Door) : Bool :=
  match d.lock with
  | some l => l.keyName ≠ ""
  | none => false

def Door.HasCodeLock (d : Door) : Bool :=
  match d.lock with
  | some l => l.code ≠ ""
  | none => false

def Door.HasLock (d : Door) : Bool := d.HasKeyLock || d.HasCodeLock

def Door.IsLocked (d : Door) : Bool :=
  d.HasLock && (match d.lock with
    | some l => l.locked
    | none => false)

def Door.IsLatched (d : Door) : Bool :=
  match d.latch with
  | some l => l.locked
  | none => false

/-- Door.CanUnlatch: compares the latch's lockedFrom against a room name.
The Go code dereferences the latch pointer; call sites guard with IsLatched,
so the none branch is unreachable there. -/
def Door.CanUnlatch (d : Door) (roomName : String) : Bool :=
  match d.latch with
  | some l => l.lockedFrom = roomName
  | none => false

/-- Door.Unlatch: sets the latch's locked flag to false. -/
def Door.Unlatch (d : Door) : Door :=
  match d.latch with
  | some l => { d with latch := some { l with locked := false } }
  | none => d

/-- Door.UnlockWithKey. -/
def Door.UnlockWithKey (d : Door) (keyName : String) : Except String Door :=
  match d.lock with
  | none => .error ("the " ++ d.name ++ " has no lock")
  | some l =>
      match l.UnlockWithKey keyName with
      | .error msg => .error msg
      | .ok l2 => .ok { d with lock := some l2 }

/-- Door.UnlockWithCode. -/
def Door.UnlockWithCode (d : Door) (code : String) : Except String Door :=
  match d.lock with
  | none => .error ("the " ++ d.name ++ " has no lock")
  | some l =>
      match l.UnlockWithCode code with
      | .error msg => .error msg
      | .ok l2 => .ok { d with lock := some l2 }

/-- world.Connection: a door as seen from a specific room. -/
structure Connection where
  doorName : String
  location : String
  description : String
deriving DecidableEq, Repr

/-- world.Room. -/
structure Room where
  name : String
  description : String
  initialDescription : String
  connections : List Connection
  items : List Item
  visited : Bool

/-- Room.GetConnection: first connection with the door name. -/
def Room.GetConnection (r : Room) (doorName : String) : Option Connection :=
  r.connections.find? (fun c => c.doorName == doorName)

/-- Room.GetItem: first item with the name. -/
def Room.GetItem (r : Room) (name : String) : Option Item :=
  r.items.find? (fun it => it.name == name)

/-- Removes the first item with the given name; unchanged when absent
(the Go callers discard the not-found error). -/
def removeFirstItem (name : String) : List Item → List Item
  | [] => []
  | it :: rest => if it.name = name then rest else it :: removeFirstItem name rest

/-- Replaces the first item with the given name. -/
def setFirstItem (name : String) (new : Item) : List Item → List Item
  | [] => []
  | it :: rest => if it.name = name then new :: rest else it :: setFirstItem name new rest

/-- world.Enemy. -/
structure Enemy where
  name : String
  description : String
  hp : Int
deriving DecidableEq, Repr

/-- Enemy.InflictDamage: decrements HP. -/
def Enemy.InflictDamage (e : Enemy) : Enemy := { e with hp := e.hp - 1 }

/-- Enemy.IsAlive. -/
def Enemy.IsAlive (e : Enemy) : Bool := e.hp > 0

/-- world.Player. Ammo is a map weapon name → quantity. -/
structure Player where
  inventory : List Item
  health : String
  ammo : List (String × Int)

def Player.IsAlive (p : Player) : Bool := p.health ≠ HealthDead

/-- Player.GetItem: first inventory item with the name. -/
def Player.GetItem (p : Player) (name : String) : Option Item :=
  p.inventory.find? (fun it => it.name == name)

/-- Go map read with zero default. -/
def ammoGet (ammo : List (String × Int)) (w : String) : Int :=
  match ammo.find? (fun q => q.1 == w) with
  | some q => q.2
  | none => 0

/-- Go map write (update first matching key or append). -/
def ammoSet : List (String × Int) → String → Int → List (String × Int)
  | [], w, v => [(w, v)]
  | q :: rest, w, v => if q.1 = w then (w, v) :: rest else q :: ammoSet rest w v

/-- Player.IncreaseHealth: steps the health ladder up; panics otherwise. -/
def Player.IncreaseHealth (p : Player) : Option Player :=
  if p.health = HealthHurt then some { p with health := HealthFine }
  else if p.health = HealthCrit then some { p with health := HealthHurt }
  else none

/-- Player.InflictDamage: steps the health ladder down; panics at dead. -/
def Player.InflictDamage (p : Player) : Option Player :=
  if p.health = HealthFine then some { p with health := HealthHurt }
  else if p.health = HealthHurt then some { p with health := HealthCrit }
  else if p.health = HealthCrit then some { p with health := HealthDead }
  else none

/-- Player.FireWeapon: decrements ammo, fails at zero. -/
def Player.FireWeapon (p : Player) (weaponName : String) : Except String Player :=
  if ammoGet p.ammo weaponName = 0 then
    .error ("the " ++ weaponName ++ " is out of ammo")
  else
    .ok { p with ammo := ammoSet p.ammo weaponName (ammoGet p.ammo weaponName - 1) }

/-- world.Event. -/
structure Event where
  event : String
  enemyName : String
  roomName : String
  itemName : String
deriving DecidableEq, Repr

/-- world.Effect. -/
structure Effect where
  effectType : String
  enemyName : String
deriving DecidableEq, Repr

/-- world.Trigger. -/
structure Trigger where
  event : Event
  effect : Effect
deriving DecidableEq, Repr

/-- world.Floor. -/
structure Floor where
  name : String
  description : String
  rooms : List Room

/-- world.ComboItem. -/
structure ComboItem where
  inputItemAName : String
  inputItemBName : String
  outputItem : Item

/-- world.Level. -/
structure Level where
  name : String
  floors : List Floor
  doors : List Door
  enemies : List Enemy
  triggers : List Trigger
  winCondition : Option Event
  comboItems : List ComboItem

/-- Level.CombineItems: first combo matching the unordered pair of names. -/
def Level.CombineItems (l : Level) (a b : String) : Except String Item :=
  match l.comboItems.find? (fun c =>
      (c.inputItemAName == a && c.inputItemBName == b) ||
      (c.inputItemAName == b && c.inputItemBName == a)) with
  | some c => .ok c.outputItem
  | none => .error ("you can\x27t combine the " ++ a ++ " and " ++ b)

/-- Level.GetEnemy (panics in Go when absent, hence Option here). -/
def Level.GetEnemy? (l : Level) (name : String) : Option Enemy :=
  l.enemies.find? (fun e => e.name == name)

/-- Level.GetFloor. -/
def Level.GetFloor? (l : Level) (name : String) : Option Floor :=
  l.floors.find? (fun f => f.name == name)

/-- Level.GetRoom: looks the room up inside the named floor. -/
def Level.GetRoom? (l : Level) (floorName roomName : String) : Option Room :=
  match l.GetFloor? floorName with
  | none => none
  | some f => f.rooms.find? (fun r => r.name == roomName)

/-- Level.GetDoor. -/
def Level.GetDoor? (l : Level) (name : String) : Option Door :=
  l.doors.find? (fun d => d.name == name)

/-- Modify the first element satisfying the predicate. -/
def modifyFirstBy (p : α → Bool) (f : α → α) : List α → List α
  | [] => []
  | a :: rest => if p a then f a :: rest else a :: modifyFirstBy p f rest

/-- Mutation through the Go room pointer: update the first room with this name
inside the first floor with that name. -/
def Level.modifyRoom (l : Level) (floorName roomName : String) (f : Room → Room) : Level :=
  { l with floors := (modifyFirstBy (fun fl => fl.name == floorName)
      (fun fl => { fl with rooms := modifyFirstBy (fun r => r.name == roomName) f fl.rooms })
      l.floors) }

/-- Mutation through the Go door pointer. -/
def Level.modifyDoor (l : Level) (name : String) (f : Door → Door) : Level :=
  { l with doors := modifyFirstBy (fun d => d.name == name) f l.doors }

/-- Mutation through the Go enemy pointer. -/
def Level.modifyEnemy (l : Level) (name : String) (f : Enemy → Enemy) : Level :=
  { l with enemies := modifyFirstBy (fun e => e.name == name) f l.enemies }

/-- engine.MinimapDoorInfo: tri-state lock knowledge plus hidden flag. -/
structure MinimapDoorInfo where
  locked : Option Bool
  hidden : Bool
deriving DecidableEq, Repr

/-- engine.Engine: all live game state for a single level. The current floor,
current room and fighting enemy are Go pointers into the level; they are
represented by names and resolved with the same first-match lookups. The rng
draw is passed to battle explicitly instead of being stored. -/
structure Engine where
  level : Level
  player : Player
  currentFloorName : String
  currentRoomName : String
  fightingEnemy : Option String
  levelCompletionState : String
  mode : String
  validationDisabled : Bool
  minimapData : List (String × MinimapDoorInfo)

/-- Go map read on MinimapData. -/
def mmLookup (m : List (String × MinimapDoorInfo)) (name : String) : Option MinimapDoorInfo :=
  match m.find? (fun q => q.1 == name) with
  | some q => some q.2
  | none => none

/-- Go map write on MinimapData (first matching key; no-op when absent). -/
def mmModify (m : List (String × MinimapDoorInfo)) (name : String)
    (f : MinimapDoorInfo → MinimapDoorInfo) : List (String × MinimapDoorInfo) :=
  modifyFirstBy (fun q => q.1 == name) (fun q => (q.1, f q.2)) m

/-- The room the engine's CurrentRoom pointer designates. -/
def Engine.currentRoom? (e : Engine) : Option Room :=
  e.level.GetRoom? e.currentFloorName e.currentRoomName

/-- Mutation through the CurrentRoom pointer. -/
def Engine.modifyCurrentRoom (e : Engine) (f : Room → Room) : Engine :=
  { e with level := e.level.modifyRoom e.currentFloorName e.currentRoomName f }

/-- Sets hidden to false for each connection's door; Go dereferences the map
entry, so a connection naming an unknown door is a panic (none). -/
def setHiddenFalseForConnections (m : List (String × MinimapDoorInfo)) :
    List Connection → Option (List (String × MinimapDoorInfo))
  | [] => some m
  | c :: rest =>
      match mmLookup m c.doorName with
      | none => none
      | some _ =>
          setHiddenFalseForConnections (mmModify m c.doorName (fun i => { i with hidden := false })) rest

/-- engine.updateMinimapDataForCurrenRoom. -/
def Engine.updateMinimapDataForCurrenRoom (e : Engine) : Option Engine :=
  match e.currentRoom? with
  | none => none
  | some room =>
      match setHiddenFalseForConnections e.minimapData room.connections with
      | none => none
      | some m => some { e with minimapData := m }

/-- engine.updateMinimapForDoor: records a definitive lock state (no-op when
the door is not on the minimap). -/
def Engine.updateMinimapForDoor (e : Engine) (doorName : String) (locked : Bool) : Engine :=
  { e with minimapData := (mmModify e.minimapData doorName
      (fun _ => { locked := some locked, hidden := false })) }

/-- engine.initializeMinimapData: all doors hidden with unknown lock state,
then the starting room's doors revealed. -/
def Engine.initializeMinimapData (e : Engine) : Option Engine :=
  Engine.updateMinimapDataForCurrenRoom
    { e with minimapData := (e.level.doors.map
        (fun d => (d.name, ({ locked := none, hidden := true } : MinimapDoorInfo)))) }

/-- engine.NewEngine: initial state. Indexing an empty floors or rooms list
panics in Go, hence the Option. -/
def NewEngine (level : Level) : Option Engine :=
  match level.floors with
  | [] => none
  | f0 :: _ =>
      match f0.rooms with
      | [] => none
      | r0 :: _ =>
          match level.GetRoom? f0.name r0.name with
          | none => none
          | some _ =>
              Engine.initializeMinimapData
                { level := level
                  player := { inventory := [], health := HealthFine, ammo := [] }
                  currentFloorName := f0.name
                  currentRoomName := r0.name
                  fightingEnemy := none
                  levelCompletionState := LevelCompletionStateInProgress
                  mode := Investigation
                  validationDisabled := false
                  minimapData := [] }

/-- engine.runEffect: enter_combat sets combat mode and the fighting enemy
(Go panics when the enemy is unknown). Other effect types change nothing. -/
def Engine.runEffect (e : Engine) (effect : Effect) : Option (Engine × Option String) :=
  if effect.effectType = EffectEnterCombat then
    match e.level.GetEnemy? effect.enemyName with
    | none => none
    | some _ =>
        some ({ e with mode := Combat, fightingEnemy := some effect.enemyName },
          some EngineStateChangeEnterCombat)
  else some (e, none)

/-- engine.processTriggers: scans triggers in level order, running the effect
of the first trigger whose event kind and key field match. -/
def Engine.processTriggersFrom (e : Engine) (event : Event) :
    List Trigger → Option (Engine × Option String)
  | [] => some (e, none)
  | t :: rest =>
      if t.event.event = event.event then
        if t.event.event = EventItemTaken then
          if t.event.itemName = event.itemName then e.runEffect t.effect
          else e.processTriggersFrom event rest
        else if t.event.event = EventRoomEntered then
          if t.event.roomName = event.roomName then e.runEffect t.effect
          else e.processTriggersFrom event rest
        else e.processTriggersFrom event rest
      else e.processTriggersFrom event rest

def Engine.processTriggers (e : Engine) (event : Event) : Option (Engine × Option String) :=
  e.processTriggersFrom event e.level.triggers

/-- engine.processWinCondition: switches on the win condition's own event kind
and compares the corresponding key field. -/
def Engine.processWinCondition (e : Engine) (event : Event) : Engine × Option String :=
  match e.level.winCondition with
  | none => (e, none)
  | some wc =>
      if wc.event = EventRoomEntered then
        if wc.roomName = event.roomName then
          ({ e with levelCompletionState := LevelCompletionStateComplete },
           some EngineStateChangeLevelComplete)
        else (e, none)
      else if wc.event = EventEnemyKilled then
        if wc.enemyName = event.enemyName then
          ({ e with levelCompletionState := LevelCompletionStateComplete },
           some EngineStateChangeLevelComplete)
        else (e, none)
      else (e, none)

/-- engine.handleEnemyKilled: back to investigation, clear the fighting enemy. -/
def Engine.handleEnemyKilled (e : Engine) : Engine × Option String :=
  ({ e with mode := Investigation, fightingEnemy := none },
   some EngineStateChangeExitCombat)

/-- engine.handlePlayerKilled: the level is failed. -/
def Engine.handlePlayerKilled (e : Engine) : Engine × Option String :=
  ({ e with levelCompletionState := LevelCompletionStateFailed },
   some EngineStateChangeLevelFailed)

/-- engine.handleEvent. -/
def Engine.handleEvent (e : Engine) (event : Event) : Option (Engine × Option String) :=
  if event.event = EventEnemyKilled then
    let ek := e.handleEnemyKilled
    let wc := ek.1.processWinCondition event
    match wc.2 with
    | some w => some (wc.1, some w)
    | none => some (wc.1, ek.2)
  else if event.event = EventPlayerKilled then
    let pk := e.handlePlayerKilled
    some (pk.1, pk.2)
  else if event.event = EventItemTaken then
    e.processTriggers event
  else if event.event = EventRoomEntered then
    match e.processTriggers event with
    | none => none
    | some (e1, stateChange) =>
        match stateChange with
        | some sc => some (e1, some sc)
        | none =>
            let wc := e1.processWinCondition event
            some (wc.1, wc.2)
  else some (e, none)

/-- Outcome of an engine operation: success with the mutated engine and a
result, a returned error (the engine may have been partially mutated before
the error), or a Go panic aborting the session. -/
inductive Out (α : Type) where
  | ok (e : Engine) (val : α)
  | err (e : Engine) (msg : String)
  | halt

/-- engine.assertValidEngineState holds (its violation panics). -/
def Engine.assertValidOk (e : Engine) : Bool :=
  !(e.mode == Combat && e.fightingEnemy.isNone) &&
  !(e.mode == Investigation && e.fightingEnemy.isSome) &&
  !(!e.player.IsAlive && e.levelCompletionState != LevelCompletionStateFailed)

/-- engine.checkLevelComplete. -/
def Engine.checkLevelComplete (e : Engine) : Option String :=
  if e.levelCompletionState = LevelCompletionStateComplete then some "level is already complete"
  else if e.player.health = HealthDead then some "player is dead"
  else none

/-- Outcome of pre-verb validation. -/
inductive ValidationOut where
  | ok
  | err (msg : String)
  | halt
deriving DecidableEq, Repr

/-- engine.validateEngineState: the assertion panics, checkLevelComplete errs. -/
def Engine.validateEngineState (e : Engine) : ValidationOut :=
  if !e.assertValidOk then .halt
  else
    match e.checkLevelComplete with
    | some msg => .err msg
    | none => .ok

def Engine.ensureInvestigationMode (e : Engine) : Option String :=
  if e.mode ≠ Investigation then some "cannot perform this action in combat mode" else none

def Engine.ensureCombatMode (e : Engine) : Option String :=
  if e.mode ≠ Combat then some "cannot perform this action in investigation mode" else none

def Engine.validateEngineStateForInvestigationActions (e : Engine) : ValidationOut :=
  match e.validateEngineState with
  | .halt => .halt
  | .err m => .err m
  | .ok =>
      match e.ensureInvestigationMode with
      | some m => .err m
      | none => .ok

def Engine.validateEngineStateForCombatActions (e : Engine) : ValidationOut :=
  match e.validateEngineState with
  | .halt => .halt
  | .err m => .err m
  | .ok =>
      match e.ensureCombatMode with
      | some m => .err m
      | none => .ok

/-- engine.ItemInfo. -/
structure ItemInfo where
  name : String
  description : String
  location : String
  isPortable : Bool
  isContainer : Bool
  isConcealer : Bool
  isKey : Bool
  isAmmoBox : Bool
  isWeapon : Bool
  isHealthItem : Bool
  isFixture : Bool
  hasKeyLock : Bool
  hasCodeLock : Bool
  isLocked : Bool
  isSearched : Bool
  contains : String
  isUncovered : Bool
deriving DecidableEq, Repr

/-- engine.createItemInfo. -/
def createItemInfo (item : Item) : ItemInfo :=
  let base : ItemInfo :=
    { name := item.name
      description := item.description
      location := item.location
      isPortable := item.IsPortable
      isContainer := item.IsContainer
      isConcealer := item.IsConcealer
      isKey := item.IsKey
      isAmmoBox := item.IsAmmoBox
      isWeapon := item.IsWeapon
      isHealthItem := item.IsHealthItem
      isFixture := item.IsFixture
      isUncovered := (item.IsConcealer &&
        (match item.concealer with
         | some c => c.uncovered
         | none => false))
      hasKeyLock := false
      hasCodeLock := false
      isLocked := false
      isSearched := false
      contains := "" }
  match item.container with
  | none => base
  | some c =>
      let b2 := { base with hasKeyLock := c.HasKeyLock, hasCodeLock := c.HasCodeLock,
                            isLocked := c.IsLocked }
      if c.searched then
        { b2 with isSearched := true
                  contains := (match c.contains with
                    | some inner => inner.name
                    | none => "") }
      else b2

/-- engine.DoorInfo. -/
structure DoorInfo where
  name : String
  description : String
  location : String
  hasKeyLock : Bool
  hasCodeLock : Bool
  isLocked : Bool
  isStairwell : Bool
  isLatched : Bool
  leadsTo : String
deriving DecidableEq, Repr

/-- engine.createDoorInfo: lock and latch information only once tried; the
destination only once traversed. The room argument is the current room. -/
def createDoorInfo (room : Room) (door : Door) : DoorInfo :=
  let desc := (match room.GetConnection door.name with
    | some c => c.description
    | none => "")
  let base : DoorInfo :=
    { name := door.name, isStairwell := door.stairwell, description := desc
      location := "", hasKeyLock := false, hasCodeLock := false, isLocked := false
      isLatched := false, leadsTo := "" }
  let b2 :=
    if door.tried then
      { base with hasKeyLock := door.HasKeyLock, hasCodeLock := door.HasCodeLock,
                  isLocked := door.IsLocked, isLatched := door.IsLatched }
    else base
  if door.traversed then
    { b2 with leadsTo := if room.name = door.roomA then door.roomB else door.roomA }
  else b2

/-- engine.FloorInfo. -/
structure FloorInfo where
  name : String
  description : String
deriving DecidableEq, Repr

/-- engine.observeResultInternal. -/
structure observeResultInternal where
  roomName : String
  roomDescription : String
  visibleItems : List ItemInfo
  doors : List DoorInfo
deriving DecidableEq, Repr

/-- engine.ItemInspection. -/
structure ItemInspection where
  itemInfo : ItemInfo
  detail : String
deriving DecidableEq, Repr

/-- engine.DoorInspection. -/
structure DoorInspection where
  doorInfo : DoorInfo
deriving DecidableEq, Repr

/-- engine.inspectResultInternal (one of the two pointers is set in Go). -/
inductive inspectResultInternal where
  | item (i : ItemInspection)
  | door (d : DoorInspection)
deriving DecidableEq, Repr

/-- engine.uncoverResultInternal. -/
structure uncoverResultInternal where
  name : String
  revealedItem : ItemInfo
deriving DecidableEq, Repr

/-- engine.unlockResultInternal. -/
structure unlockResultInternal where
  unlocked : Bool
deriving DecidableEq, Repr

/-- engine.searchResultInternal. -/
structure searchResultInternal where
  containerName : String
  containedItemInfo : Option ItemInfo
  unlocked : Bool
deriving DecidableEq, Repr

/-- engine.takeResultInternal. -/
structure takeResultInternal where
  itemInfo : ItemInfo
deriving DecidableEq, Repr

/-- engine.inventoryResultInternal. Ammo pairs come out in association-list
order (the Go map iteration order is unspecified). -/
structure inventoryResultInternal where
  items : List ItemInfo
  ammo : List (String × Int)
deriving DecidableEq, Repr

/-- engine.healResultInternal. -/
structure healResultInternal where
  health : String
deriving DecidableEq, Repr

/-- engine.traverseResultInternal. -/
structure traverseResultInternal where
  enteredRoom : observeResultInternal
  changedFloor : Option FloorInfo
  unlatched : Bool
  unlocked : Bool
deriving DecidableEq, Repr

/-- engine.battleResultInternal. -/
structure battleResultInternal where
  enemyName : String
  wonRound : Bool
  enemyAlive : Bool
  playerAlive : Bool
deriving DecidableEq, Repr

/-- engine.combineResultInternal. -/
structure combineResultInternal where
  craftedItem : ItemInfo
deriving DecidableEq, Repr

/-- engine.useResultInternal. -/
structure useResultInternal where
  fixtureName : String
  usedItemName : String
  producedItem : Option ItemInfo
  isComplete : Bool
deriving DecidableEq, Repr

/-- engine.minimapResultInternal. -/
structure minimapResultInternal where
  doors : List (String × MinimapDoorInfo)
  rooms : List (String × Bool)
  currentRoom : String
deriving DecidableEq, Repr

/-- engine.isItemInInventory. -/
def Engine.isItemInInventory (e : Engine) (itemName : String) : Bool :=
  e.player.inventory.any (fun it => it.name == itemName)

/-- engine.findItemInRoomContainer's scan: the first searched, non-empty
container whose contained item has the name; returns (container, contained). -/
def findContainedIn (name : String) : List Item → Option (Item × Item)
  | [] => none
  | it :: rest =>
      match it.container with
      | some c =>
          if c.searched then
            match c.contains with
            | some inner =>
                if inner.name = name then some (it, inner)
                else findContainedIn name rest
            | none => findContainedIn name rest
          else findContainedIn name rest
      | none => findContainedIn name rest

/-- engine.findDoorByName: connection lookup errs, the subsequent GetDoor
panics when the connection names an unknown door (ok none). -/
def Engine.findDoorByName (e : Engine) (room : Room) (name : String) :
    Except String (Option Door) :=
  match room.GetConnection name with
  | none => .error ("no door named " ++ name ++ " in this room")
  | some conn => .ok (e.level.GetDoor? conn.doorName)

/-- engine.findDoorByLocation. -/
def Engine.findDoorByLocation (e : Engine) (room : Room) (location : String) :
    Except String (Option Door) :=
  match room.connections.find? (fun c => c.location == location) with
  | none => .error ("no door to the " ++ location)
  | some conn => .ok (e.level.GetDoor? conn.doorName)

/-- engine.validateKey: the item must be in inventory and be a key. -/
def Engine.validateKey (e : Engine) (keyName : String) : Except String Unit :=
  match e.player.GetItem keyName with
  | none => .error ("you don\x27t have a " ++ keyName ++ " in your inventory")
  | some k => if k.IsKey then .ok () else .error ("the " ++ keyName ++ " is not a key")

/-- engine.useHealthItem: weak steps the ladder, strong resets to fine, any
other effect panics. -/
def useHealthItem (p : Player) (hi : HealthItem) : Option Player :=
  if hi.healthEffect = HealthBoostWeak then p.IncreaseHealth
  else if hi.healthEffect = HealthBoostStrong then some { p with health := HealthFine }
  else none

/-- The doors loop of observeInternal: Level.GetDoor panics on unknown doors. -/
def doorInfosForConnections (e : Engine) (room : Room) :
    List Connection → Option (List DoorInfo)
  | [] => some []
  | conn :: rest =>
      match e.level.GetDoor? conn.doorName with
      | none => none
      | some door =>
          match doorInfosForConnections e room rest with
          | none => none
          | some infos => some ({ createDoorInfo room door with location := conn.location } :: infos)

/-- engine.observeInternal: room description (initial on first visit),
visible items, doors as seen from the room; marks the room visited. -/
def Engine.observeInternal (e : Engine) : Out observeResultInternal :=
  match e.currentRoom? with
  | none => .halt
  | some room =>
      let roomDescription :=
        if !room.visited && room.initialDescription ≠ "" then room.initialDescription
        else room.description
      match doorInfosForConnections e room room.connections with
      | none => .halt
      | some doorInfos =>
          .ok (e.modifyCurrentRoom (fun r => { r with visited := true }))
            { roomName := room.name
              roomDescription := roomDescription
              visibleItems := room.items.map createItemInfo
              doors := doorInfos }

/-- engine.inspectInternal: a door first, then inventory, then room items,
then items inside searched containers. -/
def Engine.inspectInternal (e : Engine) (name : String) : Out inspectResultInternal :=
  match e.currentRoom? with
  | none => .halt
  | some room =>
      match e.findDoorByName room name with
      | .ok none => .halt
      | .ok (some door) => .ok e (.door ⟨createDoorInfo room door⟩)
      | .error _ =>
          match e.player.GetItem name with
          | some item => .ok e (.item ⟨createItemInfo item, item.detail⟩)
          | none =>
              match room.GetItem name with
              | some item => .ok e (.item ⟨createItemInfo item, item.detail⟩)
              | none =>
                  match findContainedIn name room.items with
                  | some found => .ok e (.item ⟨createItemInfo found.2, found.2.detail⟩)
                  | none => .err e ("you don\x27t see a " ++ name ++ " here")

/-- engine.uncoverInternal: the target must be a room item that is a concealer
not yet uncovered; reveals the hidden item into the room. A concealer whose
hidden pointer is nil makes Go build an ItemInfo from a nil pointer (halt). -/
def Engine.uncoverInternal (e : Engine) (name : String) : Out uncoverResultInternal :=
  match e.currentRoom? with
  | none => .halt
  | some room =>
      match room.GetItem name with
      | none => .err e ("you don\x27t see a " ++ name ++ " here")
      | some concealerItem =>
          match concealerItem.concealer with
          | none => .err e ("the " ++ name ++ " cannot conceal anything")
          | some cz =>
              if cz.uncovered then .err e ("the " ++ name ++ " cannot conceal anything")
              else
                match cz.Reveal.2 with
                | none => .halt
                | some revealedItem =>
                    .ok (e.modifyCurrentRoom (fun r =>
                          { r with items := (setFirstItem name (concealerItem.setConcealer (some cz.Reveal.1)) r.items ++ [revealedItem]) }))
                      { name := name, revealedItem := createItemInfo revealedItem }

/-- engine.unlockInternal: a room item (container) first, then a door
reachable from this room. Code locks take the first argument as the code;
otherwise it must name a key in inventory, consumed after successful use. -/
def Engine.unlockInternal (e : Engine) (keyNameOrCode targetName : String) :
    Out unlockResultInternal :=
  match e.currentRoom? with
  | none => .halt
  | some room =>
      match room.GetItem targetName with
      | some item =>
          match item.container with
          | none => .err e ("the " ++ targetName ++ " is not a container")
          | some c =>
              if c.HasCodeLock then
                match c.UnlockWithCode keyNameOrCode with
                | .error msg => .err e msg
                | .ok c2 =>
                    .ok (e.modifyCurrentRoom (fun r =>
                          { r with items := setFirstItem targetName (item.setContainer (some c2)) r.items }))
                      { unlocked := true }
              else
                match e.validateKey keyNameOrCode with
                | .error msg => .err e msg
                | .ok _ =>
                    match c.UnlockWithKey keyNameOrCode with
                    | .error msg => .err e msg
                    | .ok c2 =>
                        let e2 := e.modifyCurrentRoom (fun r =>
                          { r with items := setFirstItem targetName (item.setContainer (some c2)) r.items })
                        .ok { e2 with player := { e2.player with inventory := removeFirstItem keyNameOrCode e2.player.inventory } }
                          { unlocked := true }
      | none =>
          match e.findDoorByName room targetName with
          | .ok none => .halt
          | .ok (some door) =>
              if door.HasCodeLock then
                match door.UnlockWithCode keyNameOrCode with
                | .error msg => .err e msg
                | .ok d2 =>
                    let e2 := { e with level := e.level.modifyDoor door.name (fun _ => d2) }
                    .ok (e2.updateMinimapForDoor door.name false) { unlocked := true }
              else
                match e.validateKey keyNameOrCode with
                | .error msg => .err e msg
                | .ok _ =>
                    match door.UnlockWithKey keyNameOrCode with
                    | .error msg => .err e msg
                    | .ok d2 =>
                        let e2 := { e with level := e.level.modifyDoor door.name (fun _ => d2) }
                        let e3 := { e2 with player := { e2.player with inventory := removeFirstItem keyNameOrCode e2.player.inventory } }
                        .ok (e3.updateMinimapForDoor door.name false) { unlocked := true }
          | .error _ => .err e ("you don\x27t see a " ++ targetName ++ " here")

/-- The tail of searchInternal: Container.Search then result assembly. -/
def finishSearch (e : Engine) (name : String) (containerItem : Item) (c : Container)
    (unlocked : Bool) : Out searchResultInternal :=
  match c.Search with
  | .error msg => .err e msg
  | .ok res =>
      .ok (e.modifyCurrentRoom (fun r =>
            { r with items := setFirstItem name (containerItem.setContainer (some res.1)) r.items }))
        { containerName := name
          containedItemInfo := res.2.map createItemInfo
          unlocked := unlocked }

/-- engine.searchInternal: the target must be a container in the current room;
a key-locked container auto-unlocks when the key is in inventory (a failure of
that internal unlock panics); then Container.Search runs on the container as
mutated through the pointer. -/
def Engine.searchInternal (e : Engine) (name : String) : Out searchResultInternal :=
  match e.currentRoom? with
  | none => .halt
  | some room =>
      match room.GetItem name with
      | none => .err e ("you don\x27t see a " ++ name ++ " here")
      | some containerItem =>
          match containerItem.container with
          | none => .err e ("the " ++ name ++ " is not a container")
          | some c =>
              if c.IsLocked && c.HasKeyLock &&
                  (match c.locked with
                   | some l => e.isItemInInventory l.keyName
                   | none => false) then
                match c.locked with
                | none => .halt
                | some l =>
                    match e.unlockInternal l.keyName containerItem.name with
                    | .err _ _ => .halt
                    | .halt => .halt
                    | .ok e2 _ =>
                        match e2.currentRoom? with
                        | none => .halt
                        | some room2 =>
                            match room2.GetItem name with
                            | none => .halt
                            | some containerItem2 =>
                                match containerItem2.container with
                                | none => .halt
                                | some c2 => finishSearch e2 name containerItem2 c2 true
              else finishSearch e name containerItem c false

/-- engine.handleAmmoTransfer: an ammo box adds its quantity to the player's
ammo for its weapon name and reports consumed; a weapon that uses ammo
transfers its rounds to the player's ammo keyed by the item name and is
zeroed. Returns the updated player, the (possibly zeroed) item, and whether
the item was an ammo box. -/
def handleAmmoTransfer (p : Player) (item : Item) : Option (Player × Item × Bool) :=
  match item.ammoBox with
  | some ab =>
      match ab.ammo with
      | none => none
      | some a =>
          some ({ p with ammo := ammoSet p.ammo ab.weaponName (ammoGet p.ammo ab.weaponName + a.quantity) },
                item, true)
  | none =>
      match item.weapon with
      | some w =>
          if w.UsesAmmo then
            match w.ammo with
            | none => none
            | some a =>
                some ({ p with ammo := ammoSet p.ammo item.name (ammoGet p.ammo item.name + a.quantity) },
                      item.setWeapon (some { w with ammo := some { quantity := 0 } }), false)
          else some (p, item, false)
      | none => some (p, item, false)

/-- engine.takeInternal: room item (with concealer redirect to uncover and
ammo handling) or the item inside a searched container in the room. -/
def Engine.takeInternal (e : Engine) (name : String) : Out takeResultInternal :=
  match e.currentRoom? with
  | none => .halt
  | some room =>
      match room.GetItem name with
      | some item =>
          if item.IsConcealer &&
              !(match item.concealer with
                | some c => c.uncovered
                | none => false) then
            match e.uncoverInternal name with
            | .err e2 msg => .err e2 msg
            | .halt => .halt
            | .ok e2 r => .ok e2 { itemInfo := r.revealedItem }
          else if !item.IsPortable then
            .err e ("you cannot take the " ++ name)
          else
            match handleAmmoTransfer e.player item with
            | none => .halt
            | some (p2, item2, handled) =>
                if handled && item2.IsAmmoBox then
                  .ok (({ e with player := p2 } : Engine).modifyCurrentRoom
                        (fun r => { r with items := removeFirstItem item2.name r.items }))
                    { itemInfo := createItemInfo item2 }
                else
                  let e3 := ({ e with player := p2 } : Engine).modifyCurrentRoom
                    (fun r => { r with items := removeFirstItem item2.name r.items })
                  .ok { e3 with player := { e3.player with inventory := e3.player.inventory ++ [item2] } }
                    { itemInfo := createItemInfo item2 }
      | none =>
          match findContainedIn name room.items with
          | none => .err e ("you don\x27t see a " ++ name ++ " here")
          | some found =>
              let containing := found.1
              let inner := found.2
              if !inner.IsPortable then .err e ("you cannot take the " ++ name)
              else
                match containing.container with
                | none => .halt
                | some c =>
                    match c.RemoveItem with
                    | .error msg => .err e msg
                    | .ok removed =>
                        let e2 := e.modifyCurrentRoom (fun r =>
                          { r with items := setFirstItem containing.name (containing.setContainer (some removed.1)) r.items })
                        match handleAmmoTransfer e2.player removed.2 with
                        | none => .halt
                        | some (p2, removed2, handled) =>
                            if handled && removed2.IsAmmoBox then
                              .ok { e2 with player := p2 } { itemInfo := createItemInfo removed2 }
                            else
                              .ok { e2 with player := { p2 with inventory := p2.inventory ++ [removed2] } }
                                { itemInfo := createItemInfo removed2 }

/-- engine.inventoryInternal. -/
def Engine.inventoryInternal (e : Engine) : Out inventoryResultInternal :=
  .ok e { items := e.player.inventory.map createItemInfo, ammo := e.player.ammo }

/-- engine.healInternal: the item must be a health item in inventory and the
player must not be at full health; applies the effect and removes the item. -/
def Engine.healInternal (e : Engine) (healthItemName : String) : Out healResultInternal :=
  match e.player.GetItem healthItemName with
  | none => .err e ("you don\x27t have a " ++ healthItemName ++ " in your inventory")
  | some healthItem =>
      match healthItem.healthItem with
      | some hi =>
          if e.player.health = HealthFine then .err e "you are already at full health"
          else
            match useHealthItem e.player hi with
            | none => .halt
            | some p2 =>
                let p3 := { p2 with inventory := removeFirstItem healthItem.name p2.inventory }
                .ok { e with player := p3 } { health := p3.health }
      | none => .err e ("the " ++ healthItemName ++ " is not a health item")

/-- The latch check of traverseInternal: auto-unlatch when the latch's
lockedFrom side is the current room, otherwise the latched error. Returns the
engine, the door as mutated through the pointer, and the unlatched flag. -/
def Engine.traverseLatchStep (e : Engine) (door0 : Door) :
    Except String (Engine × Door × Bool) :=
  if door0.IsLatched then
    if door0.CanUnlatch e.currentRoomName then
      Except.ok ({ e with level := e.level.modifyDoor door0.name (fun _ => door0.Unlatch) },
        door0.Unlatch, true)
    else Except.error "this door is latched from the other side"
  else Except.ok (e, door0, false)

/-- The post-move bookkeeping of traverseInternal: on first traversal mark the
door traversed and reveal the new room's doors on the minimap (a connection to
an unknown door panics inside updateMinimapDataForCurrenRoom). -/
def Engine.traverseMarkAndReveal (e2 : Engine) (door1 : Door) : Option Engine :=
  if !door1.traversed then
    match (({ e2 with
        level := e2.level.modifyDoor door1.name (fun d => { d with traversed := true }) } : Engine)).updateMinimapDataForCurrenRoom with
    | none => none
    | some ex => some (ex.updateMinimapForDoor door1.name false)
  else some e2

def Engine.traverseAfterLocks (e : Engine) (door0 : Door) (unlocked : Bool) :
    Out traverseResultInternal :=
  match e.traverseLatchStep door0 with
  | .error msg => .err e msg
  | .ok (e1, door1, unlatched) =>
      match (if door1.stairwell then
               e1.level.floors.find? (fun fl => fl.rooms.any (fun r =>
                 r.name == (if door1.roomA = e1.currentRoomName then door1.roomB else door1.roomA)))
             else e1.level.GetFloor? e1.currentFloorName) with
      | none => .halt
      | some destFloor =>
          match e1.level.GetRoom? destFloor.name
              (if door1.roomA = e1.currentRoomName then door1.roomB else door1.roomA) with
          | none => .halt
          | some _ =>
              match Engine.traverseMarkAndReveal
                  { e1 with
                    currentRoomName := (if door1.roomA = e1.currentRoomName then door1.roomB else door1.roomA)
                    currentFloorName := destFloor.name } door1 with
              | none => .halt
              | some e4 =>
                  match e4.observeInternal with
                  | .halt => .halt
                  | .err e5 msg => .err e5 msg
                  | .ok e5 obs =>
                      .ok e5 { enteredRoom := obs
                               changedFloor := (if door1.stairwell
                                 then some { name := destFloor.name, description := destFloor.description }
                                 else none)
                               unlatched := unlatched
                               unlocked := unlocked }

/-- engine.traverseInternal: resolves the destination as a door name or a
location, marks the door tried, then locks (with key auto-unlock through
unlockInternal; code locks always error), then the latch and the move.
The Go error string around the destination uses single quotes, dropped here. -/
def Engine.traverseInternal (e0 : Engine) (destination : String) :
    Out traverseResultInternal :=
  match e0.currentRoom? with
  | none => .halt
  | some room =>
      match (match e0.findDoorByName room destination with
             | .ok d => Except.ok d
             | .error _ =>
                 match e0.findDoorByLocation room destination with
                 | .ok d => Except.ok d
                 | .error _ => Except.error
                     ("no door named " ++ destination ++ " or no door to the " ++ destination)) with
      | .error msg => .err e0 msg
      | .ok none => .halt
      | .ok (some door0) =>
          let dname := door0.name
          let e1 := { e0 with level := e0.level.modifyDoor dname (fun d => { d with tried := true }) }
          let door1 := { door0 with tried := true }
          if door1.IsLocked then
            let e2 := e1.updateMinimapForDoor dname true
            if door1.HasKeyLock then
              match door1.lock with
              | none => .halt
              | some lk =>
                  if e2.isItemInInventory lk.keyName then
                    match e2.unlockInternal lk.keyName dname with
                    | .err _ _ => .halt
                    | .halt => .halt
                    | .ok e3 _ =>
                        match e3.level.GetDoor? dname with
                        | none => .halt
                        | some door2 =>
                            if door2.HasCodeLock then
                              .err e3 ("the " ++ dname ++ " is locked, it requires a code")
                            else e3.traverseAfterLocks door2 true
                  else .err e2 ("the " ++ dname ++ " is locked")
            else if door1.HasCodeLock then
              .err e2 ("the " ++ dname ++ " is locked, it requires a code")
            else e2.traverseAfterLocks door1 false
          else e1.traverseAfterLocks door1 false

/-- The round outcome of battleInternal, given the resolved weapon damage.
Go follows the FightingEnemy pointer; resolving the stored name by first
match yields the same enemy. -/
def Engine.battleRound (e : Engine) (enemyName : String) (weaponDamage r : ℚ) :
    Out battleResultInternal :=
  match e.level.GetEnemy? enemyName with
  | none => .halt
  | some enemy =>
      if r < weaponDamage then
        let enemy2 := enemy.InflictDamage
        let e2 := { e with level := e.level.modifyEnemy enemyName Enemy.InflictDamage }
        .ok e2 { enemyName := enemy2.name, wonRound := true,
                 enemyAlive := enemy2.IsAlive, playerAlive := e2.player.IsAlive }
      else
        match e.player.InflictDamage with
        | none => .halt
        | some p2 =>
            .ok { e with player := p2 }
              { enemyName := enemy.name, wonRound := false,
                enemyAlive := enemy.IsAlive, playerAlive := p2.IsAlive }

/-- engine.battleInternal: unarmed names give damage 0.5; otherwise the
weapon must be an inventory item with the Weapon capability, firing ammo when
it uses ammo; the round is won when the rng draw r is below the damage. -/
def Engine.battleInternal (e : Engine) (weaponName : String) (r : ℚ) :
    Out battleResultInternal :=
  match e.fightingEnemy with
  | none => .err e "there is no enemy to fight"
  | some enemyName =>
      if weaponName = "" || weaponName = "fists" || weaponName = "hands" then
        e.battleRound enemyName ((1 : ℚ)/2) r
      else
        match e.player.GetItem weaponName with
        | none => .err e ("you don\x27t have a " ++ weaponName ++ " in your inventory")
        | some weaponItem =>
            match weaponItem.weapon with
            | none => .err e ("the " ++ weaponName ++ " is not a weapon")
            | some w =>
                if w.UsesAmmo then
                  match e.player.FireWeapon weaponName with
                  | .error msg => .err e msg
                  | .ok p2 => Engine.battleRound { e with player := p2 } enemyName w.damage r
                else e.battleRound enemyName w.damage r

/-- engine.combineInternal: both inputs must be in inventory and a combo must
match the unordered pair; then both are removed and the output appended. -/
def Engine.combineInternal (e : Engine) (inputItemAName inputItemBName : String) :
    Out combineResultInternal :=
  match e.player.GetItem inputItemAName with
  | none => .err e ("you don\x27t have a " ++ inputItemAName ++ " in your inventory")
  | some _ =>
      match e.player.GetItem inputItemBName with
      | none => .err e ("you don\x27t have a " ++ inputItemBName ++ " in your inventory")
      | some _ =>
          match e.level.CombineItems inputItemAName inputItemBName with
          | .error msg => .err e msg
          | .ok craftedItem =>
              .ok { e with player := { e.player with inventory :=
                      (removeFirstItem inputItemBName (removeFirstItem inputItemAName e.player.inventory) ++ [craftedItem]) } }
                { craftedItem := createItemInfo craftedItem }

/-- engine.useInternal: the item must be in inventory and the target a fixture
in the current room; uses the item, removes it, and adds any produced item to
the inventory. -/
def Engine.useInternal (e : Engine) (itemName targetName : String) : Out useResultInternal :=
  match e.player.GetItem itemName with
  | none => .err e ("you don\x27t have a " ++ itemName ++ " in your inventory")
  | some _ =>
      match e.currentRoom? with
      | none => .halt
      | some room =>
          match room.GetItem targetName with
          | none => .err e ("fixture " ++ targetName ++ " not found in current room")
          | some targetFixture =>
              match targetFixture.fixture with
              | none => .err e (targetName ++ " is not a fixture")
              | some fx =>
                  match fx.UseItem itemName with
                  | .error msg => .err e msg
                  | .ok used =>
                      let fx2 := used.1
                      let e2 := e.modifyCurrentRoom (fun rm =>
                        { rm with items := setFirstItem targetName (targetFixture.setFixture (some fx2)) rm.items })
                      let e3 := { e2 with player := { e2.player with inventory := removeFirstItem itemName e2.player.inventory } }
                      match used.2 with
                      | some prod =>
                          .ok { e3 with player := { e3.player with inventory := e3.player.inventory ++ [prod] } }
                            { fixtureName := targetName, usedItemName := itemName
                              producedItem := some { createItemInfo prod with location := "inventory" }
                              isComplete := fx2.IsComplete }
                      | none =>
                          .ok e3 { fixtureName := targetName, usedItemName := itemName
                                   producedItem := none, isComplete := fx2.IsComplete }

/-- engine.minimapInternal: all minimap doors plus the current floor's rooms
(hidden when unvisited). -/
def Engine.minimapInternal (e : Engine) : Out minimapResultInternal :=
  match e.level.GetFloor? e.currentFloorName with
  | none => .halt
  | some floor =>
      .ok e { doors := e.minimapData
              rooms := floor.rooms.map (fun r => (r.name, !r.visited))
              currentRoom := e.currentRoomName }

/-- engine.Observe (validation skipped when disabled). -/
def Engine.Observe (e : Engine) : Out observeResultInternal :=
  if !e.validationDisabled then
    match e.validateEngineState with
    | .halt => .halt
    | .err m => .err e m
    | .ok => e.observeInternal
  else e.observeInternal

/-- engine.Inspect. -/
def Engine.Inspect (e : Engine) (name : String) : Out inspectResultInternal :=
  match e.validateEngineStateForInvestigationActions with
  | .halt => .halt
  | .err m => .err e m
  | .ok => e.inspectInternal name

/-- engine.Uncover. -/
def Engine.Uncover (e : Engine) (name : String) : Out uncoverResultInternal :=
  match e.validateEngineStateForInvestigationActions with
  | .halt => .halt
  | .err m => .err e m
  | .ok => e.uncoverInternal name

/-- engine.Unlock. -/
def Engine.Unlock (e : Engine) (keyNameOrCode targetName : String) : Out unlockResultInternal :=
  match e.validateEngineStateForInvestigationActions with
  | .halt => .halt
  | .err m => .err e m
  | .ok => e.unlockInternal keyNameOrCode targetName

/-- engine.Search. -/
def Engine.Search (e : Engine) (name : String) : Out searchResultInternal :=
  match e.validateEngineStateForInvestigationActions with
  | .halt => .halt
  | .err m => .err e m
  | .ok => e.searchInternal name

/-- engine.Take: runs the internal take, then dispatches the item_taken event
(with the result's item name); the notification is the second component. -/
def Engine.Take (e : Engine) (name : String) : Out (takeResultInternal × Option String) :=
  match e.validateEngineStateForInvestigationActions with
  | .halt => .halt
  | .err m => .err e m
  | .ok =>
      match e.takeInternal name with
      | .halt => .halt
      | .err e2 m => .err e2 m
      | .ok e2 r =>
          match e2.handleEvent { event := EventItemTaken, enemyName := "", roomName := "", itemName := r.itemInfo.name } with
          | none => .halt
          | some res => .ok res.1 (r, res.2)

/-- engine.Inventory (validation skipped when disabled). -/
def Engine.Inventory (e : Engine) : Out inventoryResultInternal :=
  if !e.validationDisabled then
    match e.validateEngineState with
    | .halt => .halt
    | .err m => .err e m
    | .ok => e.inventoryInternal
  else e.inventoryInternal

/-- engine.Heal. -/
def Engine.Heal (e : Engine) (name : String) : Out healResultInternal :=
  match e.validateEngineState with
  | .halt => .halt
  | .err m => .err e m
  | .ok => e.healInternal name

/-- engine.Traverse: runs the internal traverse, then dispatches the
room_entered event with the entered room's name. -/
def Engine.Traverse (e : Engine) (destination : String) :
    Out (traverseResultInternal × Option String) :=
  match e.validateEngineStateForInvestigationActions with
  | .halt => .halt
  | .err m => .err e m
  | .ok =>
      match e.traverseInternal destination with
      | .halt => .halt
      | .err e2 m => .err e2 m
      | .ok e2 r =>
          match e2.handleEvent { event := EventRoomEntered, enemyName := "", roomName := r.enteredRoom.roomName, itemName := "" } with
          | none => .halt
          | some res => .ok res.1 (r, res.2)

/-- engine.Battle: runs the internal battle round, then dispatches
enemy_killed and player_killed events as applicable (the later notification
wins). -/
def Engine.Battle (e : Engine) (weaponName : String) (r : ℚ) :
    Out (battleResultInternal × Option String) :=
  match e.validateEngineStateForCombatActions with
  | .halt => .halt
  | .err m => .err e m
  | .ok =>
      match e.battleInternal weaponName r with
      | .halt => .halt
      | .err e2 m => .err e2 m
      | .ok e2 br =>
          match (if !br.enemyAlive then
                   e2.handleEvent { event := EventEnemyKilled, enemyName := br.enemyName, roomName := "", itemName := "" }
                 else some (e2, none)) with
          | none => .halt
          | some (e3, note1) =>
              if !br.playerAlive then
                match e3.handleEvent { event := EventPlayerKilled, enemyName := "", roomName := "", itemName := "" } with
                | none => .halt
                | some (e4, note2) => .ok e4 (br, note2)
              else .ok e3 (br, note1)

/-- engine.Combine. -/
def Engine.Combine (e : Engine) (inputItemAName inputItemBName : String) :
    Out combineResultInternal :=
  match e.validateEngineStateForInvestigationActions with
  | .halt => .halt
  | .err m => .err e m
  | .ok => e.combineInternal inputItemAName inputItemBName

/-- engine.Use. -/
def Engine.Use (e : Engine) (itemName targetName : String) : Out useResultInternal :=
  match e.validateEngineStateForInvestigationActions with
  | .halt => .halt
  | .err m => .err e m
  | .ok => e.useInternal itemName targetName

/-- engine.Minimap (validation skipped when disabled). -/
def Engine.Minimap (e : Engine) : Out minimapResultInternal :=
  if !e.validationDisabled then
    match e.validateEngineState with
    | .halt => .halt
    | .err m => .err e m
    | .ok => e.minimapInternal
  else e.minimapInternal

/-- One verb call; battle carries the value the injected rng draw returns. -/
inductive Verb where
  | observe
  | inspect (name : String)
  | uncover (name : String)
  | unlock (keyNameOrCode targetName : String)
  | search (name : String)
  | take (name : String)
  | inventory
  | heal (name : String)
  | traverse (destination : String)
  | battle (weaponName : String) (r : ℚ)
  | combine (a b : String)
  | use (itemName targetName : String)
  | minimap

/-- A verb call outcome with the result payload erased. -/
inductive VOut where
  | ok (e : Engine)
  | err (e : Engine) (msg : String)
  | halt

def Out.toVOut : Out α → VOut
  | .ok e _ => .ok e
  | .err e m => .err e m
  | .halt => .halt

/-- Dispatch a verb call on the engine. -/
def Engine.applyVerb (e : Engine) : Verb → VOut
  | .observe => e.Observe.toVOut
  | .inspect n => (e.Inspect n).toVOut
  | .uncover n => (e.Uncover n).toVOut
  | .unlock k t => (e.Unlock k t).toVOut
  | .search n => (e.Search n).toVOut
  | .take n => (e.Take n).toVOut
  | .inventory => e.Inventory.toVOut
  | .heal n => (e.Heal n).toVOut
  | .traverse d => (e.Traverse d).toVOut
  | .battle w r => (e.Battle w r).toVOut
  | .combine a b => (e.Combine a b).toVOut
  | .use i t => (e.Use i t).toVOut
  | .minimap => e.Minimap.toVOut

/-- One engine step: some verb call completes (with a result or a returned
error; a panic aborts the session and yields no successor). -/
def Step (e e2 : Engine) : Prop :=
  ∃ v : Verb, e.applyVerb v = .ok e2 ∨ ∃ msg, e.applyVerb v = .err e2 msg

/-- States reachable from a given engine state by verb calls. -/
def ReachableFrom (e0 e : Engine) : Prop := Relation.ReflTransGen Step e0 e

/-! Infrastructure lemmas about the list helpers. -/

theorem find?_modifyFirstBy {p : α → Bool} {f : α → α} {l : List α} {a : α}
    (h : l.find? p = some a) (hf : p (f a) = true) :
    (modifyFirstBy p f l).find? p = some (f a) := by
  induction l with
  | nil => simp at h
  | cons b rest ih =>
      by_cases hb : p b = true
      · simp [List.find?, hb] at h
        subst h
        simp [modifyFirstBy, hb, List.find?, hf]
      · simp [List.find?, hb] at h
        simp [modifyFirstBy, hb, List.find?, ih h]

theorem all_modifyFirstBy {p : α → Bool} {q : α → Bool} {f : α → α} {l : List α}
    (h : l.all q = true) (hf : ∀ a, q a = true → q (f a) = true) :
    (modifyFirstBy p f l).all q = true := by
  induction l with
  | nil => simp [modifyFirstBy]
  | cons b rest ih =>
      simp only [List.all_cons, Bool.and_eq_true] at h
      by_cases hb : p b = true
      · simp [modifyFirstBy, hb, List.all_cons, hf b h.1, h.2]
      · simp [modifyFirstBy, hb, List.all_cons, h.1, ih h.2]

theorem all_removeFirstItem {q : Item → Bool} {l : List Item} {n : String}
    (h : l.all q = true) : (removeFirstItem n l).all q = true := by
  induction l with
  | nil => simp [removeFirstItem]
  | cons b rest ih =>
      simp only [List.all_cons, Bool.and_eq_true] at h
      by_cases hb : b.name = n
      · simpa [removeFirstItem, hb] using h.2
      · simp [removeFirstItem, hb, List.all_cons, h.1, ih h.2]

theorem all_setFirstItem {q : Item → Bool} {l : List Item} {n : String} {new : Item}
    (h : l.all q = true) (hn : q new = true) : (setFirstItem n new l).all q = true := by
  induction l with
  | nil => simp [setFirstItem]
  | cons b rest ih =>
      simp only [List.all_cons, Bool.and_eq_true] at h
      by_cases hb : b.name = n
      · simp [setFirstItem, hb, List.all_cons, hn, h.2]
      · simp [setFirstItem, hb, List.all_cons, h.1, ih h.2]

theorem length_removeFirstItem_of_found {l : List Item} {n : String} {a : Item}
    (h : l.find? (fun it => it.name == n) = some a) :
    (removeFirstItem n l).length + 1 = l.length := by
  induction l with
  | nil => simp at h
  | cons b rest ih =>
      by_cases hb : (b.name == n) = true
      · have hb2 : b.name = n := by simpa using hb
        simp [removeFirstItem, hb2]
      · have hb2 : ¬ b.name = n := by simpa using hb
        simp only [List.find?, hb] at h
        simp [removeFirstItem, hb2, ih h]

theorem find?_removeFirstItem_ne {l : List Item} {n m : String} (hnm : m ≠ n) :
    (removeFirstItem n l).find? (fun it => it.name == m) =
      l.find? (fun it => it.name == m) := by
  induction l with
  | nil => simp [removeFirstItem]
  | cons b rest ih =>
      by_cases hb : b.name = n
      · have hfalse : (n == m) = false := by
          simp only [beq_eq_false_iff_ne, ne_eq]
          exact fun h => hnm h.symm
        simp [removeFirstItem, hb, List.find?_cons, hfalse]
      · by_cases hbm : (b.name == m) = true
        · simp [removeFirstItem, hb, List.find?_cons, hbm]
        · simp [removeFirstItem, hb, List.find?_cons, hbm, ih]

theorem GetRoom?_modifyRoom {l : Level} {fn rn : String} {f : Room → Room} {room : Room}
    (h : l.GetRoom? fn rn = some room) (hname : (f room).name = room.name) :
    (l.modifyRoom fn rn f).GetRoom? fn rn = some (f room) := by
  unfold Level.GetRoom? Level.GetFloor? at h ⊢
  unfold Level.modifyRoom
  cases hfl : l.floors.find? (fun fl => fl.name == fn) with
  | none => simp [hfl] at h
  | some fl =>
      simp only [hfl] at h
      have hfl2 := find?_modifyFirstBy (f := fun fl =>
        { fl with rooms := modifyFirstBy (fun r => r.name == rn) f fl.rooms }) hfl (by
          simpa using List.find?_some hfl)
      simp only [hfl2]
      have hroomname : ((f room).name == rn) = true := by
        rw [hname]
        simpa using List.find?_some h
      exact find?_modifyFirstBy h hroomname

theorem currentRoom?_modifyCurrentRoom {e : Engine} {f : Room → Room} {room : Room}
    (h : e.currentRoom? = some room) (hname : (f room).name = room.name) :
    (e.modifyCurrentRoom f).currentRoom? = some (f room) :=
  GetRoom?_modifyRoom h hname

theorem GetDoor?_modifyDoor {l : Level} {n : String} {f : Door → Door} {d : Door}
    (h : l.GetDoor? n = some d) (hname : (f d).name = d.name) :
    (l.modifyDoor n f).GetDoor? n = some (f d) := by
  unfold Level.GetDoor? at h ⊢
  unfold Level.modifyDoor
  exact find?_modifyFirstBy h (by rw [hname]; simpa using List.find?_some h)

theorem modifyRoom_doors (l : Level) (fn rn : String) (f : Room → Room) :
    (l.modifyRoom fn rn f).doors = l.doors := rfl

theorem modifyRoom_enemies (l : Level) (fn rn : String) (f : Room → Room) :
    (l.modifyRoom fn rn f).enemies = l.enemies := rfl

theorem modifyRoom_triggers (l : Level) (fn rn : String) (f : Room → Room) :
    (l.modifyRoom fn rn f).triggers = l.triggers := rfl

theorem modifyRoom_winCondition (l : Level) (fn rn : String) (f : Room → Room) :
    (l.modifyRoom fn rn f).winCondition = l.winCondition := rfl

theorem modifyRoom_comboItems (l : Level) (fn rn : String) (f : Room → Room) :
    (l.modifyRoom fn rn f).comboItems = l.comboItems := rfl

theorem modifyDoor_floors (l : Level) (n : String) (f : Door → Door) :
    (l.modifyDoor n f).floors = l.floors := rfl

theorem modifyDoor_enemies (l : Level) (n : String) (f : Door → Door) :
    (l.modifyDoor n f).enemies = l.enemies := rfl

theorem modifyDoor_comboItems (l : Level) (n : String) (f : Door → Door) :
    (l.modifyDoor n f).comboItems = l.comboItems := rfl

theorem modifyEnemy_floors (l : Level) (n : String) (f : Enemy → Enemy) :
    (l.modifyEnemy n f).floors = l.floors := rfl

theorem modifyEnemy_comboItems (l : Level) (n : String) (f : Enemy → Enemy) :
    (l.modifyEnemy n f).comboItems = l.comboItems := rfl

/-- The engine fields every internal verb except heal and battle leaves
untouched (the completion state, mode, fighting enemy, player health and the
validation toggle). -/
def SameCore (e e' : Engine) : Prop :=
  e'.mode = e.mode ∧ e'.fightingEnemy = e.fightingEnemy ∧
  e'.levelCompletionState = e.levelCompletionState ∧
  e'.player.health = e.player.health ∧
  e'.validationDisabled = e.validationDisabled

theorem SameCore.refl (e : Engine) : SameCore e e := ⟨rfl, rfl, rfl, rfl, rfl⟩

theorem SameCore.trans {e1 e2 e3 : Engine} (h1 : SameCore e1 e2) (h2 : SameCore e2 e3) :
    SameCore e1 e3 :=
  ⟨h2.1.trans h1.1, h2.2.1.trans h1.2.1, h2.2.2.1.trans h1.2.2.1,
   h2.2.2.2.1.trans h1.2.2.2.1, h2.2.2.2.2.trans h1.2.2.2.2⟩

/-- An outcome predicate: the property holds of the result engine in the ok
and err outcomes (a halt has no successor state). -/
def OutPred (q : Engine → Prop) : Out α → Prop
  | .ok e' _ => q e'
  | .err e' _ => q e'
  | .halt => True

/-- The engine an outcome leaves behind (none after a panic). -/
def Out.engine? : Out α → Option Engine
  | .ok e _ => some e
  | .err e _ => some e
  | .halt => none

theorem Out.engine?_ok {o : Out α} {e : Engine} {v : α} (h : o = .ok e v) :
    o.engine? = some e := by
  subst h
  rfl

theorem Out.engine?_err {o : Out α} {e : Engine} {m : String} (h : o = .err e m) :
    o.engine? = some e := by
  subst h
  rfl

theorem ammoTransfer_player {p : Player} {it : Item} {r : Player × Item × Bool}
    (h : handleAmmoTransfer p it = some r) :
    r.1.health = p.health ∧ r.1.inventory = p.inventory := by
  unfold handleAmmoTransfer at h
  repeat' split at h
  all_goals try exact Option.noConfusion h
  all_goals injection h with h2
  all_goals subst h2
  all_goals simp

/-- SameCore holds between the input engine and the engine of an ok or err
outcome of each internal verb below (a halt has no successor). The lemmas
come in ok/err pairs so they compose through nested calls. -/
theorem observeInternal_core_ok {e e' : Engine} {v : observeResultInternal}
    (h : e.observeInternal = .ok e' v) : SameCore e e' := by
  unfold Engine.observeInternal at h
  try simp only [] at h
  repeat' split at h
  all_goals try exact Out.noConfusion h
  all_goals try cases h
  all_goals simp [SameCore, Engine.modifyCurrentRoom]

theorem observeInternal_core_err {e e' : Engine} {m : String}
    (h : e.observeInternal = .err e' m) : SameCore e e' := by
  unfold Engine.observeInternal at h
  try simp only [] at h
  repeat' split at h
  all_goals exact Out.noConfusion h

theorem inspectInternal_core_ok {e e' : Engine} {n : String} {v : inspectResultInternal}
    (h : e.inspectInternal n = .ok e' v) : SameCore e e' := by
  unfold Engine.inspectInternal at h
  try simp only [] at h
  repeat' split at h
  all_goals try exact Out.noConfusion h
  all_goals try cases h
  all_goals exact SameCore.refl e

theorem inspectInternal_core_err {e e' : Engine} {n : String} {m : String}
    (h : e.inspectInternal n = .err e' m) : SameCore e e' := by
  unfold Engine.inspectInternal at h
  try simp only [] at h
  repeat' split at h
  all_goals try exact Out.noConfusion h
  all_goals try cases h
  all_goals exact SameCore.refl e

theorem uncoverInternal_core_ok {e e' : Engine} {n : String} {v : uncoverResultInternal}
    (h : e.uncoverInternal n = .ok e' v) : SameCore e e' := by
  unfold Engine.uncoverInternal at h
  try simp only [] at h
  repeat' split at h
  all_goals try exact Out.noConfusion h
  all_goals try cases h
  all_goals simp [SameCore, Engine.modifyCurrentRoom]

theorem uncoverInternal_core_err {e e' : Engine} {n : String} {m : String}
    (h : e.uncoverInternal n = .err e' m) : SameCore e e' := by
  unfold Engine.uncoverInternal at h
  try simp only [] at h
  repeat' split at h
  all_goals try exact Out.noConfusion h
  all_goals try cases h
  all_goals exact SameCore.refl e

theorem unlockInternal_core_ok {e e' : Engine} {k t : String} {v : unlockResultInternal}
    (h : e.unlockInternal k t = .ok e' v) : SameCore e e' := by
  unfold Engine.unlockInternal at h
  try simp only [] at h
  repeat' split at h
  all_goals try exact Out.noConfusion h
  all_goals try cases h
  all_goals simp [SameCore, Engine.modifyCurrentRoom, Engine.updateMinimapForDoor]

theorem unlockInternal_core_err {e e' : Engine} {k t : String} {m : String}
    (h : e.unlockInternal k t = .err e' m) : SameCore e e' := by
  unfold Engine.unlockInternal at h
  try simp only [] at h
  repeat' split at h
  all_goals try exact Out.noConfusion h
  all_goals try cases h
  all_goals exact SameCore.refl e

theorem finishSearch_core_ok {e e' : Engine} {n : String} {it : Item} {c : Container}
    {u : Bool} {v : searchResultInternal}
    (h : finishSearch e n it c u = .ok e' v) : SameCore e e' := by
  unfold finishSearch at h
  try simp only [] at h
  repeat' split at h
  all_goals try exact Out.noConfusion h
  all_goals try cases h
  all_goals simp [SameCore, Engine.modifyCurrentRoom]

theorem finishSearch_core_err {e e' : Engine} {n : String} {it : Item} {c : Container}
    {u : Bool} {m : String}
    (h : finishSearch e n it c u = .err e' m) : SameCore e e' := by
  unfold finishSearch at h
  try simp only [] at h
  repeat' split at h
  all_goals try exact Out.noConfusion h
  all_goals try cases h
  all_goals exact SameCore.refl e

theorem searchInternal_core_ok {e e' : Engine} {n : String} {v : searchResultInternal}
    (h : e.searchInternal n = .ok e' v) : SameCore e e' := by
  unfold Engine.searchInternal at h
  try simp only [] at h
  repeat' split at h
  all_goals try exact Out.noConfusion h
  all_goals try cases h
  all_goals first
    | exact SameCore.refl e
    | exact finishSearch_core_ok h
    | exact finishSearch_core_ok (by assumption)
    | exact SameCore.trans (unlockInternal_core_ok (by assumption))
        (finishSearch_core_ok (by assumption))

theorem searchInternal_core_err {e e' : Engine} {n : String} {m : String}
    (h : e.searchInternal n = .err e' m) : SameCore e e' := by
  unfold Engine.searchInternal at h
  try simp only [] at h
  repeat' split at h
  all_goals try exact Out.noConfusion h
  all_goals try cases h
  all_goals first
    | exact SameCore.refl e
    | exact finishSearch_core_err h
    | exact finishSearch_core_err (by assumption)
    | exact SameCore.trans (unlockInternal_core_ok (by assumption))
        (finishSearch_core_err (by assumption))

theorem takeInternal_core_ok {e e' : Engine} {n : String} {v : takeResultInternal}
    (h : e.takeInternal n = .ok e' v) : SameCore e e' := by
  unfold Engine.takeInternal at h
  try simp only [] at h
  repeat' split at h
  all_goals try exact Out.noConfusion h
  all_goals try cases h
  all_goals first
    | exact SameCore.refl e
    | exact uncoverInternal_core_ok (by assumption)
    | (simp [SameCore, Engine.modifyCurrentRoom]
       done)
    | (simp [SameCore, Engine.modifyCurrentRoom]
       exact (ammoTransfer_player (by assumption)).1)

theorem takeInternal_core_err {e e' : Engine} {n : String} {m : String}
    (h : e.takeInternal n = .err e' m) : SameCore e e' := by
  unfold Engine.takeInternal at h
  try simp only [] at h
  repeat' split at h
  all_goals try exact Out.noConfusion h
  all_goals try cases h
  all_goals first
    | exact SameCore.refl e
    | exact uncoverInternal_core_err (by assumption)

theorem inventoryInternal_core_ok {e e' : Engine} {v : inventoryResultInternal}
    (h : e.inventoryInternal = .ok e' v) : SameCore e e' := by
  unfold Engine.inventoryInternal at h
  cases h
  exact SameCore.refl e

theorem minimapInternal_core_ok {e e' : Engine} {v : minimapResultInternal}
    (h : e.minimapInternal = .ok e' v) : SameCore e e' := by
  unfold Engine.minimapInternal at h
  repeat' split at h
  all_goals try exact Out.noConfusion h
  all_goals try cases h
  all_goals exact SameCore.refl e

theorem combineInternal_core_ok {e e' : Engine} {a b : String} {v : combineResultInternal}
    (h : e.combineInternal a b = .ok e' v) : SameCore e e' := by
  unfold Engine.combineInternal at h
  try simp only [] at h
  repeat' split at h
  all_goals try exact Out.noConfusion h
  all_goals try cases h
  all_goals simp [SameCore]

theorem combineInternal_core_err {e e' : Engine} {a b : String} {m : String}
    (h : e.combineInternal a b = .err e' m) : SameCore e e' := by
  unfold Engine.combineInternal at h
  try simp only [] at h
  repeat' split at h
  all_goals try exact Out.noConfusion h
  all_goals try cases h
  all_goals exact SameCore.refl e

theorem useInternal_core_ok {e e' : Engine} {i t : String} {v : useResultInternal}
    (h : e.useInternal i t = .ok e' v) : SameCore e e' := by
  unfold Engine.useInternal at h
  try simp only [] at h
  repeat' split at h
  all_goals try exact Out.noConfusion h
  all_goals try cases h
  all_goals simp [SameCore, Engine.modifyCurrentRoom]

theorem useInternal_core_err {e e' : Engine} {i t : String} {m : String}
    (h : e.useInternal i t = .err e' m) : SameCore e e' := by
  unfold Engine.useInternal at h
  try simp only [] at h
  repeat' split at h
  all_goals try exact Out.noConfusion h
  all_goals try cases h
  all_goals exact SameCore.refl e

theorem updateMMCR_core {e e' : Engine} (h : e.updateMinimapDataForCurrenRoom = some e') :
    SameCore e e' := by
  unfold Engine.updateMinimapDataForCurrenRoom at h
  repeat' split at h
  all_goals try exact Option.noConfusion h
  all_goals injection h with h2
  all_goals subst h2
  all_goals simp [SameCore]

theorem traverseLatchStep_core {e e1 : Engine} {d d1 : Door} {b : Bool}
    (h : e.traverseLatchStep d = .ok (e1, d1, b)) : SameCore e e1 := by
  unfold Engine.traverseLatchStep at h
  repeat' split at h
  all_goals try exact Except.noConfusion h
  all_goals injection h with h2
  all_goals injection h2 with h3 h4
  all_goals first
    | (subst h3; exact SameCore.refl e)
    | (subst h3; simp [SameCore])

theorem traverseMarkAndReveal_core {e2 e4 : Engine} {d : Door}
    (h : e2.traverseMarkAndReveal d = some e4) : SameCore e2 e4 := by
  unfold Engine.traverseMarkAndReveal at h
  repeat' split at h
  all_goals try exact Option.noConfusion h
  all_goals injection h with h2
  all_goals subst h2
  all_goals first
    | exact SameCore.refl e2
    | (have hm := updateMMCR_core (by assumption)
       exact SameCore.trans (SameCore.trans (by simp [SameCore]) hm)
         (by simp [SameCore, Engine.updateMinimapForDoor]))

theorem traverseAfterLocks_core_ok {e e' : Engine} {d : Door} {u : Bool}
    {v : traverseResultInternal}
    (h : e.traverseAfterLocks d u = .ok e' v) : SameCore e e' := by
  unfold Engine.traverseAfterLocks at h
  repeat' split at h
  all_goals try exact Out.noConfusion h
  all_goals try cases h
  all_goals first
    | exact SameCore.refl e
    | (have hl := traverseLatchStep_core (by assumption)
       have hm := traverseMarkAndReveal_core (by assumption)
       have ho := observeInternal_core_ok (by assumption)
       exact SameCore.trans hl (SameCore.trans (by simp [SameCore]) (SameCore.trans hm ho)))

theorem traverseAfterLocks_core_err {e e' : Engine} {d : Door} {u : Bool} {m : String}
    (h : e.traverseAfterLocks d u = .err e' m) : SameCore e e' := by
  unfold Engine.traverseAfterLocks at h
  repeat' split at h
  all_goals try exact Out.noConfusion h
  all_goals try cases h
  all_goals first
    | exact SameCore.refl e
    | (have hl := traverseLatchStep_core (by assumption)
       exact SameCore.trans hl (SameCore.refl _))
    | (have hl := traverseLatchStep_core (by assumption)
       have hm := traverseMarkAndReveal_core (by assumption)
       have ho := observeInternal_core_err (by assumption)
       exact SameCore.trans hl (SameCore.trans (by simp [SameCore]) (SameCore.trans hm ho)))

theorem traverseInternal_core_ok {e e' : Engine} {dst : String} {v : traverseResultInternal}
    (h : e.traverseInternal dst = .ok e' v) : SameCore e e' := by
  unfold Engine.traverseInternal at h
  try simp only [] at h
  repeat' split at h
  all_goals try exact Out.noConfusion h
  all_goals try cases h
  all_goals first
    | exact SameCore.refl e
    | (have hu := unlockInternal_core_ok (by assumption)
       have ha := traverseAfterLocks_core_ok (by assumption)
       refine SameCore.trans (SameCore.trans ?_ hu) ha
       simp [SameCore, Engine.updateMinimapForDoor]
       done)
    | (have ha := traverseAfterLocks_core_ok (by assumption)
       refine SameCore.trans ?_ ha
       simp [SameCore, Engine.updateMinimapForDoor]
       done)

theorem traverseInternal_core_err {e e' : Engine} {dst : String} {m : String}
    (h : e.traverseInternal dst = .err e' m) : SameCore e e' := by
  unfold Engine.traverseInternal at h
  try simp only [] at h
  repeat' split at h
  all_goals try exact Out.noConfusion h
  all_goals try cases h
  all_goals first
    | exact SameCore.refl e
    | (simp [SameCore, Engine.updateMinimapForDoor]
       done)
    | (have hu := unlockInternal_core_ok (by assumption)
       have ha := traverseAfterLocks_core_err (by assumption)
       refine SameCore.trans (SameCore.trans ?_ hu) ha
       simp [SameCore, Engine.updateMinimapForDoor]
       done)
    | (have hu := unlockInternal_core_ok (by assumption)
       refine SameCore.trans (SameCore.trans ?_ hu) (SameCore.refl _)
       simp [SameCore, Engine.updateMinimapForDoor]
       done)
    | (have ha := traverseAfterLocks_core_err (by assumption)
       refine SameCore.trans ?_ ha
       simp [SameCore, Engine.updateMinimapForDoor]
       done)

theorem battleRound_props {e e' : Engine} {en : String} {d r : ℚ} {res : battleResultInternal}
    (h : e.battleRound en d r = .ok e' res) :
    e'.mode = e.mode ∧ e'.fightingEnemy = e.fightingEnemy ∧
    e'.levelCompletionState = e.levelCompletionState ∧
    e'.validationDisabled = e.validationDisabled ∧
    res.playerAlive = e'.player.IsAlive := by
  unfold Engine.battleRound at h
  try simp only [] at h
  repeat' split at h
  all_goals try exact Out.noConfusion h
  all_goals try cases h
  all_goals simp

theorem battleInternal_props {e e' : Engine} {w : String} {r : ℚ} {res : battleResultInternal}
    (h : e.battleInternal w r = .ok e' res) :
    e'.mode = e.mode ∧ e'.fightingEnemy = e.fightingEnemy ∧
    e'.levelCompletionState = e.levelCompletionState ∧
    e'.validationDisabled = e.validationDisabled ∧
    res.playerAlive = e'.player.IsAlive := by
  unfold Engine.battleInternal at h
  try simp only [] at h
  repeat' split at h
  all_goals try exact Out.noConfusion h
  all_goals try cases h
  all_goals first
    | exact battleRound_props h
    | exact battleRound_props (by assumption)
    | (have hb := battleRound_props (e := { e with player := (by assumption : Player) }) (by assumption)
       exact hb)

theorem battleInternal_core_err {e e' : Engine} {w : String} {r : ℚ} {m : String}
    (h : e.battleInternal w r = .err e' m) : SameCore e e' := by
  unfold Engine.battleInternal at h
  try simp only [] at h
  repeat' split at h
  all_goals try exact Out.noConfusion h
  all_goals try cases h
  all_goals first
    | exact SameCore.refl e
    | (unfold Engine.battleRound at h
       repeat' split at h
       all_goals try exact Out.noConfusion h
       all_goals try cases h
       all_goals exact SameCore.refl e)

theorem healInternal_props {e e' : Engine} {n : String} {v : healResultInternal}
    (h : e.healInternal n = .ok e' v) :
    e'.mode = e.mode ∧ e'.fightingEnemy = e.fightingEnemy ∧
    e'.levelCompletionState = e.levelCompletionState ∧
    e'.validationDisabled = e.validationDisabled ∧
    e'.player.health ≠ HealthDead := by
  unfold Engine.healInternal useHealthItem Player.IncreaseHealth at h
  try simp only [] at h
  repeat' split at h
  all_goals try exact Out.noConfusion h
  all_goals try cases h
  all_goals try simp [HealthFine, HealthHurt, HealthDead]
  all_goals rename_i hp2
  all_goals repeat' split at hp2
  all_goals try exact Option.noConfusion hp2
  all_goals injection hp2 with hp3
  all_goals subst hp3
  all_goals simp [HealthFine, HealthHurt, HealthDead]

theorem healInternal_core_err {e e' : Engine} {n : String} {m : String}
    (h : e.healInternal n = .err e' m) : SameCore e e' := by
  unfold Engine.healInternal at h
  try simp only [] at h
  repeat' split at h
  all_goals try exact Out.noConfusion h
  all_goals try cases h
  all_goals exact SameCore.refl e

/-- What an effect run can do: nothing, or enter combat with some enemy. -/
theorem runEffect_props {e e2 : Engine} {eff : Effect} {note : Option String}
    (h : e.runEffect eff = some (e2, note)) :
    e2.player = e.player ∧ e2.level = e.level ∧
    e2.levelCompletionState = e.levelCompletionState ∧
    e2.validationDisabled = e.validationDisabled ∧
    e2.currentRoomName = e.currentRoomName ∧ e2.currentFloorName = e.currentFloorName ∧
    ((e2.mode = e.mode ∧ e2.fightingEnemy = e.fightingEnemy) ∨
      (e2.mode = Combat ∧ e2.fightingEnemy.isSome = true)) := by
  unfold Engine.runEffect at h
  repeat' split at h
  all_goals try exact Option.noConfusion h
  all_goals injection h with h2
  all_goals injection h2 with h3 h4
  all_goals subst h3
  all_goals simp

theorem processTriggersFrom_props {e e2 : Engine} {ev : Event} {note : Option String}
    {ts : List Trigger}
    (h : e.processTriggersFrom ev ts = some (e2, note)) :
    e2.player = e.player ∧ e2.level = e.level ∧
    e2.levelCompletionState = e.levelCompletionState ∧
    e2.validationDisabled = e.validationDisabled ∧
    e2.currentRoomName = e.currentRoomName ∧ e2.currentFloorName = e.currentFloorName ∧
    ((e2.mode = e.mode ∧ e2.fightingEnemy = e.fightingEnemy) ∨
      (e2.mode = Combat ∧ e2.fightingEnemy.isSome = true)) := by
  induction ts with
  | nil =>
      unfold Engine.processTriggersFrom at h
      injection h with h2
      injection h2 with h3 h4
      subst h3
      simp
  | cons t rest ih =>
      unfold Engine.processTriggersFrom at h
      repeat' split at h
      all_goals first
        | exact runEffect_props h
        | exact ih h

theorem processWinCondition_props (e : Engine) (ev : Event) :
    (e.processWinCondition ev).1.player = e.player ∧
    (e.processWinCondition ev).1.level = e.level ∧
    (e.processWinCondition ev).1.mode = e.mode ∧
    (e.processWinCondition ev).1.fightingEnemy = e.fightingEnemy ∧
    (e.processWinCondition ev).1.validationDisabled = e.validationDisabled ∧
    (e.processWinCondition ev).1.currentRoomName = e.currentRoomName ∧
    (e.processWinCondition ev).1.currentFloorName = e.currentFloorName ∧
    ((e.processWinCondition ev).1.levelCompletionState = e.levelCompletionState ∨
      (e.processWinCondition ev).1.levelCompletionState = LevelCompletionStateComplete) := by
  unfold Engine.processWinCondition
  repeat' split
  all_goals simp

/-- What event handling can do to the control state. -/
theorem handleEvent_props {e e2 : Engine} {ev : Event} {note : Option String}
    (h : e.handleEvent ev = some (e2, note)) :
    e2.player = e.player ∧ e2.level = e.level ∧
    e2.validationDisabled = e.validationDisabled ∧
    e2.currentRoomName = e.currentRoomName ∧ e2.currentFloorName = e.currentFloorName ∧
    ((e2.mode = e.mode ∧ e2.fightingEnemy = e.fightingEnemy) ∨
      (e2.mode = Combat ∧ e2.fightingEnemy.isSome = true) ∨
      (e2.mode = Investigation ∧ e2.fightingEnemy = none)) ∧
    (e2.levelCompletionState = e.levelCompletionState ∨
      e2.levelCompletionState = LevelCompletionStateComplete ∨
      (e2.levelCompletionState = LevelCompletionStateFailed ∧ ev.event = EventPlayerKilled)) := by
  unfold Engine.handleEvent at h
  try simp only [] at h
  repeat' split at h
  all_goals try exact Option.noConfusion h
  all_goals try
    (injection h with h2
     injection h2 with h3 h4
     subst h3)
  all_goals first
    | (simp_all
       done)
    | (have hp := processTriggersFrom_props h
       tauto)
    | (have hw := processWinCondition_props e.handleEnemyKilled.1 ev
       exact ⟨hw.1, hw.2.1, hw.2.2.2.2.1, hw.2.2.2.2.2.1, hw.2.2.2.2.2.2.1,
         Or.inr (Or.inr ⟨hw.2.2.1, hw.2.2.2.1⟩),
         hw.2.2.2.2.2.2.2.elim Or.inl (fun hc => Or.inr (Or.inl hc))⟩)
    | exact ⟨rfl, rfl, rfl, rfl, rfl, Or.inl ⟨rfl, rfl⟩, Or.inr (Or.inr ⟨rfl, by assumption⟩)⟩
    | (have hp := processTriggersFrom_props (by assumption)
       tauto)
    | (have hp := processTriggersFrom_props (by assumption)
       obtain ⟨hp1, hp2, hp3, hp4, hp5, hp6, hp7⟩ := hp
       refine ⟨(processWinCondition_props _ ev).1.trans hp1,
         (processWinCondition_props _ ev).2.1.trans hp2,
         (processWinCondition_props _ ev).2.2.2.2.1.trans hp4,
         (processWinCondition_props _ ev).2.2.2.2.2.1.trans hp5,
         (processWinCondition_props _ ev).2.2.2.2.2.2.1.trans hp6, ?_, ?_⟩
       · rcases hp7 with ⟨hm, hf⟩ | ⟨hm, hf⟩
         · exact Or.inl ⟨(processWinCondition_props _ ev).2.2.1.trans hm,
             (processWinCondition_props _ ev).2.2.2.1.trans hf⟩
         · refine Or.inr (Or.inl ⟨(processWinCondition_props _ ev).2.2.1.trans hm, ?_⟩)
           rw [(processWinCondition_props _ ev).2.2.2.1]
           exact hf
       · rcases (processWinCondition_props _ ev).2.2.2.2.2.2.2 with hc | hc
         · exact Or.inl (hc.trans hp3)
         · exact Or.inr (Or.inl hc))

/-- The play invariant: combat mode tracks the fighting enemy, a failed level
tracks a dead player, and verbs never disable validation. -/
def EngineInv (e : Engine) : Prop :=
  (e.mode = Combat ↔ e.fightingEnemy.isSome = true) ∧
  (e.levelCompletionState = LevelCompletionStateFailed ↔ e.player.health = HealthDead) ∧
  e.validationDisabled = false

theorem EngineInv_of_SameCore {e e' : Engine} (h : SameCore e e') (hi : EngineInv e) :
    EngineInv e' := by
  obtain ⟨h1, h2, h3, h4, h5⟩ := h
  exact ⟨by rw [h1, h2]; exact hi.1, by rw [h3, h4]; exact hi.2.1, by rw [h5]; exact hi.2.2⟩

theorem validateEngineState_ok {e : Engine} (h : e.validateEngineState = .ok) :
    e.levelCompletionState ≠ LevelCompletionStateComplete ∧
    e.player.health ≠ HealthDead := by
  unfold Engine.validateEngineState Engine.checkLevelComplete at h
  split at h
  · exact ValidationOut.noConfusion h
  · by_cases h1 : e.levelCompletionState = LevelCompletionStateComplete
    · simp [h1] at h
    · by_cases h2 : e.player.health = HealthDead
      · simp [h1, h2] at h
      · exact ⟨h1, h2⟩

theorem validateInvestigation_ok {e : Engine}
    (h : e.validateEngineStateForInvestigationActions = .ok) :
    e.validateEngineState = .ok ∧ e.mode = Investigation := by
  unfold Engine.validateEngineStateForInvestigationActions Engine.ensureInvestigationMode at h
  repeat' split at h
  all_goals simp_all

theorem validateCombat_ok {e : Engine}
    (h : e.validateEngineStateForCombatActions = .ok) :
    e.validateEngineState = .ok ∧ e.mode = Combat := by
  unfold Engine.validateEngineStateForCombatActions Engine.ensureCombatMode at h
  repeat' split at h
  all_goals simp_all

theorem toVOut_ok {α : Type} {o : Out α} {e' : Engine} (h : o.toVOut = VOut.ok e') :
    ∃ v, o = .ok e' v := by
  cases o with
  | ok e v =>
      injection h with h2
      exact ⟨v, by rw [h2]⟩
  | err e m => exact VOut.noConfusion h
  | halt => exact VOut.noConfusion h

theorem toVOut_err {α : Type} {o : Out α} {e' : Engine} {m : String}
    (h : o.toVOut = VOut.err e' m) : o = .err e' m := by
  cases o with
  | ok e v => exact VOut.noConfusion h
  | err e m2 =>
      injection h with h2 h3
      rw [h2, h3]
  | halt => exact VOut.noConfusion h

/-- Dispatching a player_killed event just fails the level. -/
theorem handleEvent_playerKilled (e : Engine) :
    e.handleEvent { event := EventPlayerKilled, enemyName := "", roomName := "", itemName := "" } =
      some ({ e with levelCompletionState := LevelCompletionStateFailed },
        some EngineStateChangeLevelFailed) := by
  unfold Engine.handleEvent Engine.handlePlayerKilled
  simp [EventPlayerKilled, EventEnemyKilled]

theorem inv_ne_combat : Investigation ≠ Combat := by decide

theorem complete_ne_failed :
    LevelCompletionStateComplete ≠ LevelCompletionStateFailed := by decide

theorem itemTaken_ne_playerKilled : EventItemTaken ≠ EventPlayerKilled := by decide

theorem roomEntered_ne_playerKilled : EventRoomEntered ≠ EventPlayerKilled := by decide

theorem enemyKilled_ne_playerKilled : EventEnemyKilled ≠ EventPlayerKilled := by decide

theorem modeIff_after {e e2 : Engine}
    (hm : (e2.mode = e.mode ∧ e2.fightingEnemy = e.fightingEnemy) ∨
      (e2.mode = Combat ∧ e2.fightingEnemy.isSome = true) ∨
      (e2.mode = Investigation ∧ e2.fightingEnemy = none))
    (hiff : e.mode = Combat ↔ e.fightingEnemy.isSome = true) :
    e2.mode = Combat ↔ e2.fightingEnemy.isSome = true := by
  rcases hm with ⟨h1, h2⟩ | ⟨h1, h2⟩ | ⟨h1, h2⟩
  · rw [h1, h2]; exact hiff
  · exact iff_of_true h1 h2
  · refine iff_of_false (fun hx => ?_) (fun hx => ?_)
    · rw [h1] at hx; exact inv_ne_combat hx
    · rw [h2] at hx; simp at hx

/-- Event dispatch preserves the play invariant when the incoming engine has a
live player, an unfailed level, and the event is not player_killed. -/
theorem EngineInv_afterEvent {e e2 : Engine} {ev : Event} {note : Option String}
    (h : e.handleEvent ev = some (e2, note))
    (hiff : e.mode = Combat ↔ e.fightingEnemy.isSome = true)
    (hvd : e.validationDisabled = false)
    (hnf : e.levelCompletionState ≠ LevelCompletionStateFailed)
    (hnd : e.player.health ≠ HealthDead)
    (hev : ev.event ≠ EventPlayerKilled) :
    EngineInv e2 := by
  obtain ⟨hp, _, hvd2, _, _, hm, hc⟩ := handleEvent_props h
  refine ⟨modeIff_after hm hiff, ?_, hvd2.trans hvd⟩
  have hd2 : e2.player.health ≠ HealthDead := by rw [hp]; exact hnd
  rcases hc with h1 | h1 | ⟨h1, h2⟩
  · rw [h1]; exact iff_of_false hnf hd2
  · rw [h1]; exact iff_of_false complete_ne_failed hd2
  · exact absurd h2 hev

/-- The invariant plus a passed validation give an unfailed level and a live
player. -/
theorem EngineInv_healthy {e : Engine} (hi : EngineInv e)
    (hv : e.validateEngineState = .ok) :
    e.levelCompletionState ≠ LevelCompletionStateFailed ∧
    e.player.health ≠ HealthDead := by
  have h2 := validateEngineState_ok hv
  exact ⟨fun hf => h2.2 (hi.2.1.mp hf), h2.2⟩

/-- Any successful or error-returning verb call preserves the play invariant. -/
theorem step_EngineInv {e e' : Engine} (h : Step e e') (hi : EngineInv e) :
    EngineInv e' := by
  obtain ⟨v, hv⟩ := h
  cases v with
  | observe =>
      rcases hv with h | ⟨m, h⟩
      · obtain ⟨v2, hb⟩ := toVOut_ok h
        unfold Engine.Observe at hb
        split at hb
        · split at hb
          · exact Out.noConfusion hb
          · exact Out.noConfusion hb
          · exact EngineInv_of_SameCore (observeInternal_core_ok hb) hi
        · exact EngineInv_of_SameCore (observeInternal_core_ok hb) hi
      · have hb := toVOut_err h
        unfold Engine.Observe at hb
        split at hb
        · split at hb
          · exact Out.noConfusion hb
          · cases hb; exact hi
          · exact EngineInv_of_SameCore (observeInternal_core_err hb) hi
        · exact EngineInv_of_SameCore (observeInternal_core_err hb) hi
  | inspect n =>
      rcases hv with h | ⟨m, h⟩
      · obtain ⟨v2, hb⟩ := toVOut_ok h
        unfold Engine.Inspect at hb
        split at hb
        · exact Out.noConfusion hb
        · exact Out.noConfusion hb
        · exact EngineInv_of_SameCore (inspectInternal_core_ok hb) hi
      · have hb := toVOut_err h
        unfold Engine.Inspect at hb
        split at hb
        · exact Out.noConfusion hb
        · cases hb; exact hi
        · exact EngineInv_of_SameCore (inspectInternal_core_err hb) hi
  | uncover n =>
      rcases hv with h | ⟨m, h⟩
      · obtain ⟨v2, hb⟩ := toVOut_ok h
        unfold Engine.Uncover at hb
        split at hb
        · exact Out.noConfusion hb
        · exact Out.noConfusion hb
        · exact EngineInv_of_SameCore (uncoverInternal_core_ok hb) hi
      · have hb := toVOut_err h
        unfold Engine.Uncover at hb
        split at hb
        · exact Out.noConfusion hb
        · cases hb; exact hi
        · exact EngineInv_of_SameCore (uncoverInternal_core_err hb) hi
  | unlock k t =>
      rcases hv with h | ⟨m, h⟩
      · obtain ⟨v2, hb⟩ := toVOut_ok h
        unfold Engine.Unlock at hb
        split at hb
        · exact Out.noConfusion hb
        · exact Out.noConfusion hb
        · exact EngineInv_of_SameCore (unlockInternal_core_ok hb) hi
      · have hb := toVOut_err h
        unfold Engine.Unlock at hb
        split at hb
        · exact Out.noConfusion hb
        · cases hb; exact hi
        · exact EngineInv_of_SameCore (unlockInternal_core_err hb) hi
  | search n =>
      rcases hv with h | ⟨m, h⟩
      · obtain ⟨v2, hb⟩ := toVOut_ok h
        unfold Engine.Search at hb
        split at hb
        · exact Out.noConfusion hb
        · exact Out.noConfusion hb
        · exact EngineInv_of_SameCore (searchInternal_core_ok hb) hi
      · have hb := toVOut_err h
        unfold Engine.Search at hb
        split at hb
        · exact Out.noConfusion hb
        · cases hb; exact hi
        · exact EngineInv_of_SameCore (searchInternal_core_err hb) hi
  | take n =>
      rcases hv with h | ⟨m, h⟩
      · obtain ⟨v2, hb⟩ := toVOut_ok h
        unfold Engine.Take at hb
        split at hb
        · exact Out.noConfusion hb
        · exact Out.noConfusion hb
        · next hval =>
          split at hb
          · exact Out.noConfusion hb
          · exact Out.noConfusion hb
          · next e2 tr hti =>
            split at hb
            · exact Out.noConfusion hb
            · next res hev =>
              cases hb
              have hs := takeInternal_core_ok hti
              obtain ⟨hvo, _⟩ := validateInvestigation_ok hval
              have hh := EngineInv_healthy hi hvo
              exact EngineInv_afterEvent hev
                (by rw [hs.1, hs.2.1]; exact hi.1)
                (hs.2.2.2.2.trans hi.2.2)
                (by rw [hs.2.2.1]; exact hh.1)
                (by rw [hs.2.2.2.1]; exact hh.2)
                itemTaken_ne_playerKilled
      · have hb := toVOut_err h
        unfold Engine.Take at hb
        split at hb
        · exact Out.noConfusion hb
        · cases hb; exact hi
        · split at hb
          · exact Out.noConfusion hb
          · next e2 m2 hti =>
            cases hb
            exact EngineInv_of_SameCore (takeInternal_core_err hti) hi
          · split at hb
            · exact Out.noConfusion hb
            · exact Out.noConfusion hb
  | inventory =>
      rcases hv with h | ⟨m, h⟩
      · obtain ⟨v2, hb⟩ := toVOut_ok h
        unfold Engine.Inventory at hb
        split at hb
        · split at hb
          · exact Out.noConfusion hb
          · exact Out.noConfusion hb
          · exact EngineInv_of_SameCore (inventoryInternal_core_ok hb) hi
        · exact EngineInv_of_SameCore (inventoryInternal_core_ok hb) hi
      · have hb := toVOut_err h
        unfold Engine.Inventory at hb
        split at hb
        · split at hb
          · exact Out.noConfusion hb
          · cases hb; exact hi
          · simp [Engine.inventoryInternal] at hb
        · simp [Engine.inventoryInternal] at hb
  | heal n =>
      rcases hv with h | ⟨m, h⟩
      · obtain ⟨v2, hb⟩ := toVOut_ok h
        unfold Engine.Heal at hb
        split at hb
        · exact Out.noConfusion hb
        · exact Out.noConfusion hb
        · next hval =>
          have hp := healInternal_props hb
          have hh := EngineInv_healthy hi hval
          refine ⟨?_, ?_, hp.2.2.2.1.trans hi.2.2⟩
          · rw [hp.1, hp.2.1]; exact hi.1
          · rw [hp.2.2.1]; exact iff_of_false hh.1 hp.2.2.2.2
      · have hb := toVOut_err h
        unfold Engine.Heal at hb
        split at hb
        · exact Out.noConfusion hb
        · cases hb; exact hi
        · exact EngineInv_of_SameCore (healInternal_core_err hb) hi
  | traverse d =>
      rcases hv with h | ⟨m, h⟩
      · obtain ⟨v2, hb⟩ := toVOut_ok h
        unfold Engine.Traverse at hb
        split at hb
        · exact Out.noConfusion hb
        · exact Out.noConfusion hb
        · next hval =>
          split at hb
          · exact Out.noConfusion hb
          · exact Out.noConfusion hb
          · next e2 tr hti =>
            split at hb
            · exact Out.noConfusion hb
            · next res hev =>
              cases hb
              have hs := traverseInternal_core_ok hti
              obtain ⟨hvo, _⟩ := validateInvestigation_ok hval
              have hh := EngineInv_healthy hi hvo
              exact EngineInv_afterEvent hev
                (by rw [hs.1, hs.2.1]; exact hi.1)
                (hs.2.2.2.2.trans hi.2.2)
                (by rw [hs.2.2.1]; exact hh.1)
                (by rw [hs.2.2.2.1]; exact hh.2)
                roomEntered_ne_playerKilled
      · have hb := toVOut_err h
        unfold Engine.Traverse at hb
        split at hb
        · exact Out.noConfusion hb
        · cases hb; exact hi
        · split at hb
          · exact Out.noConfusion hb
          · next e2 m2 hti =>
            cases hb
            exact EngineInv_of_SameCore (traverseInternal_core_err hti) hi
          · split at hb
            · exact Out.noConfusion hb
            · exact Out.noConfusion hb
  | battle w r =>
      rcases hv with h | ⟨m, h⟩
      · obtain ⟨v2, hb⟩ := toVOut_ok h
        unfold Engine.Battle at hb
        split at hb
        · exact Out.noConfusion hb
        · exact Out.noConfusion hb
        · next hval =>
          split at hb
          · exact Out.noConfusion hb
          · exact Out.noConfusion hb
          · next e2 br hbi =>
            obtain ⟨hvo, _⟩ := validateCombat_ok hval
            have hh := EngineInv_healthy hi hvo
            have hbp := battleInternal_props hbi
            have hiff2 : e2.mode = Combat ↔ e2.fightingEnemy.isSome = true := by
              rw [hbp.1, hbp.2.1]; exact hi.1
            have hvd2 : e2.validationDisabled = false := hbp.2.2.2.1.trans hi.2.2
            have hnf2 : e2.levelCompletionState ≠ LevelCompletionStateFailed := by
              rw [hbp.2.2.1]; exact hh.1
            split at hb
            · exact Out.noConfusion hb
            · next e3 note1 hif =>
              have h3 : e3.player = e2.player ∧
                  e3.validationDisabled = e2.validationDisabled ∧
                  (e3.mode = Combat ↔ e3.fightingEnemy.isSome = true) ∧
                  (e3.levelCompletionState = e2.levelCompletionState ∨
                    e3.levelCompletionState = LevelCompletionStateComplete) := by
                split at hif
                · obtain ⟨hp, _, hv3, _, _, hm3, hc3⟩ := handleEvent_props hif
                  refine ⟨hp, hv3, modeIff_after hm3 hiff2, ?_⟩
                  rcases hc3 with h1 | h1 | ⟨h1, h2⟩
                  · exact Or.inl h1
                  · exact Or.inr h1
                  · exact absurd h2 enemyKilled_ne_playerKilled
                · cases hif
                  exact ⟨rfl, rfl, hiff2, Or.inl rfl⟩
              split at hb
              · next hpa =>
                rw [hbp.2.2.2.2] at hpa
                simp [Player.IsAlive] at hpa
                split at hb
                · exact Out.noConfusion hb
                · next e4 note2 hpk =>
                  cases hb
                  rw [handleEvent_playerKilled] at hpk
                  injection hpk with h6
                  injection h6 with h7 h8
                  subst h7
                  refine ⟨h3.2.2.1, ?_, ?_⟩
                  · refine iff_of_true rfl ?_
                    show e3.player.health = HealthDead
                    rw [h3.1]; exact hpa
                  · show e3.validationDisabled = false
                    rw [h3.2.1]; exact hvd2
              · next hpa =>
                cases hb
                rw [hbp.2.2.2.2] at hpa
                simp [Player.IsAlive] at hpa
                refine ⟨h3.2.2.1, ?_, h3.2.1.trans hvd2⟩
                rcases h3.2.2.2 with h1 | h1
                · rw [h1]
                  exact iff_of_false hnf2 (by rw [h3.1]; exact hpa)
                · rw [h1]
                  exact iff_of_false complete_ne_failed (by rw [h3.1]; exact hpa)
      · have hb := toVOut_err h
        unfold Engine.Battle at hb
        split at hb
        · exact Out.noConfusion hb
        · cases hb; exact hi
        · split at hb
          · exact Out.noConfusion hb
          · next e2 m2 hbi =>
            cases hb
            exact EngineInv_of_SameCore (battleInternal_core_err hbi) hi
          · split at hb
            · exact Out.noConfusion hb
            · split at hb
              · split at hb
                · exact Out.noConfusion hb
                · exact Out.noConfusion hb
              · exact Out.noConfusion hb
  | combine a b =>
      rcases hv with h | ⟨m, h⟩
      · obtain ⟨v2, hb⟩ := toVOut_ok h
        unfold Engine.Combine at hb
        split at hb
        · exact Out.noConfusion hb
        · exact Out.noConfusion hb
        · exact EngineInv_of_SameCore (combineInternal_core_ok hb) hi
      · have hb := toVOut_err h
        unfold Engine.Combine at hb
        split at hb
        · exact Out.noConfusion hb
        · cases hb; exact hi
        · exact EngineInv_of_SameCore (combineInternal_core_err hb) hi
  | use i t =>
      rcases hv with h | ⟨m, h⟩
      · obtain ⟨v2, hb⟩ := toVOut_ok h
        unfold Engine.Use at hb
        split at hb
        · exact Out.noConfusion hb
        · exact Out.noConfusion hb
        · exact EngineInv_of_SameCore (useInternal_core_ok hb) hi
      · have hb := toVOut_err h
        unfold Engine.Use at hb
        split at hb
        · exact Out.noConfusion hb
        · cases hb; exact hi
        · exact EngineInv_of_SameCore (useInternal_core_err hb) hi
  | minimap =>
      rcases hv with h | ⟨m, h⟩
      · obtain ⟨v2, hb⟩ := toVOut_ok h
        unfold Engine.Minimap at hb
        split at hb
        · split at hb
          · exact Out.noConfusion hb
          · exact Out.noConfusion hb
          · exact EngineInv_of_SameCore (minimapInternal_core_ok hb) hi
        · exact EngineInv_of_SameCore (minimapInternal_core_ok hb) hi
      · have hb := toVOut_err h
        unfold Engine.Minimap at hb
        split at hb
        · split at hb
          · exact Out.noConfusion hb
          · cases hb; exact hi
          · unfold Engine.minimapInternal at hb
            split at hb
            · exact Out.noConfusion hb
            · exact Out.noConfusion hb
        · unfold Engine.minimapInternal at hb
          split at hb
          · exact Out.noConfusion hb
          · exact Out.noConfusion hb

/-- The invariant holds in the initial state NewEngine builds. -/
theorem NewEngine_EngineInv {lvl : Level} {e0 : Engine} (h : NewEngine lvl = some e0) :
    EngineInv e0 := by
  unfold NewEngine at h
  repeat' split at h
  all_goals try exact Option.noConfusion h
  unfold Engine.initializeMinimapData at h
  obtain ⟨h1, h2, h3, h4, h5⟩ := updateMMCR_core h
  refine ⟨?_, ?_, ?_⟩
  · rw [h1, h2]
    exact iff_of_false inv_ne_combat (by simp)
  · rw [h3, h4]
    refine iff_of_false ?_ ?_
    · show LevelCompletionStateInProgress ≠ LevelCompletionStateFailed
      decide
    · show HealthFine ≠ HealthDead
      decide
  · rw [h5]

/-- On any invariant-satisfying state the validity assertion passes. -/
theorem assertValidOk_of_inv {e : Engine} (hi : EngineInv e) : e.assertValidOk = true := by
  obtain ⟨h1, h2, h3⟩ := hi
  unfold Engine.assertValidOk
  by_cases hm : e.mode = Combat
  · obtain ⟨x, hx⟩ := Option.isSome_iff_exists.mp (h1.mp hm)
    by_cases hd : e.player.health = HealthDead
    · simp [hm, hx, hd, h2.mpr hd, Player.IsAlive, Combat, Investigation]
    · simp [hm, hx, hd, Player.IsAlive, Combat, Investigation]
  · have hfe : e.fightingEnemy = none := by
      cases hfx : e.fightingEnemy with
      | none => rfl
      | some x => exact absurd (h1.mpr (by simp [hfx])) hm
    by_cases hd : e.player.health = HealthDead
    · simp [hfe, hm, hd, h2.mpr hd, Player.IsAlive]
    · simp [hfe, hm, hd, Player.IsAlive]

/-- In a terminal completion state, validation returns an error. -/
theorem validateEngineState_terminal {e : Engine} (hi : EngineInv e)
    (ht : e.levelCompletionState = LevelCompletionStateComplete ∨
      e.levelCompletionState = LevelCompletionStateFailed) :
    ∃ m, e.validateEngineState = ValidationOut.err m := by
  unfold Engine.validateEngineState Engine.checkLevelComplete
  rcases ht with ht | ht
  · exact ⟨"level is already complete", by simp [assertValidOk_of_inv hi, ht]⟩
  · refine ⟨"player is dead", ?_⟩
    have hd := hi.2.1.mp ht
    simp [assertValidOk_of_inv hi, ht, hd, LevelCompletionStateFailed,
      LevelCompletionStateComplete]

/-- Every verb call on an invariant-satisfying terminal state returns an
error and leaves the engine unchanged. -/
theorem applyVerb_terminal {e : Engine} (hi : EngineInv e)
    (ht : e.levelCompletionState = LevelCompletionStateComplete ∨
      e.levelCompletionState = LevelCompletionStateFailed) :
    ∀ v : Verb, ∃ msg, e.applyVerb v = VOut.err e msg := by
  obtain ⟨m, hm⟩ := validateEngineState_terminal hi ht
  have hvi : e.validateEngineStateForInvestigationActions = ValidationOut.err m := by
    unfold Engine.validateEngineStateForInvestigationActions
    rw [hm]
  have hvc : e.validateEngineStateForCombatActions = ValidationOut.err m := by
    unfold Engine.validateEngineStateForCombatActions
    rw [hm]
  intro v
  refine ⟨m, ?_⟩
  cases v
  all_goals simp [Engine.applyVerb, Engine.Observe, Engine.Inspect, Engine.Uncover,
    Engine.Unlock, Engine.Search, Engine.Take, Engine.Inventory, Engine.Heal,
    Engine.Traverse, Engine.Battle, Engine.Combine, Engine.Use, Engine.Minimap,
    hm, hvi, hvc, hi.2.2, Out.toVOut]

/-- The play invariant holds at every state reachable from an invariant state. -/
theorem reachable_EngineInv {e0 e : Engine} (h : ReachableFrom e0 e) (hi : EngineInv e0) :
    EngineInv e := by
  induction h with
  | refl => exact hi
  | tail _ hstep ih => exact step_EngineInv hstep ih

/-- C1: for every reachable engine state (states produced from the initial
state by any sequence of verb calls), the engine is in combat mode iff a
fighting enemy is present; the enter_combat effect (on a known enemy) sets
both mode = combat and the fighting enemy, and the enemy_killed handler sets
mode = investigation and clears the fighting enemy. -/
theorem reachable_combat_mode_iff_fighting_enemy {lvl : Level} {e0 e : Engine}
    (h0 : NewEngine lvl = some e0) (hr : ReachableFrom e0 e) :
    (e.mode = Combat ↔ e.fightingEnemy.isSome = true) ∧
    (∀ eff : Effect, eff.effectType = EffectEnterCombat →
      (e.level.GetEnemy? eff.enemyName).isSome = true →
      ∃ note, e.runEffect eff =
        some ({ e with mode := Combat, fightingEnemy := some eff.enemyName }, note)) ∧
    e.handleEnemyKilled.1.mode = Investigation ∧
    e.handleEnemyKilled.1.fightingEnemy = none := by
  refine ⟨(reachable_EngineInv hr (NewEngine_EngineInv h0)).1, ?_, rfl, rfl⟩
  intro eff h1 h2
  obtain ⟨en, hen⟩ := Option.isSome_iff_exists.mp h2
  exact ⟨some EngineStateChangeEnterCombat, by simp [Engine.runEffect, h1, hen]⟩

/-- C2: for every reachable engine state, the level is failed exactly when the
player is dead, and once the completion state is terminal (complete or failed)
every verb call returns an error with the engine state unchanged. -/
theorem terminal_state_freezes_verbs {lvl : Level} {e0 e : Engine}
    (h0 : NewEngine lvl = some e0) (hr : ReachableFrom e0 e) :
    (e.levelCompletionState = LevelCompletionStateFailed ↔
      e.player.health = HealthDead) ∧
    ((e.levelCompletionState = LevelCompletionStateComplete ∨
        e.levelCompletionState = LevelCompletionStateFailed) →
      ∀ v : Verb, ∃ msg, e.applyVerb v = VOut.err e msg) := by
  have hi := reachable_EngineInv hr (NewEngine_EngineInv h0)
  exact ⟨hi.2.1, fun ht => applyVerb_terminal hi ht⟩

/-! Concrete demonstration levels used by the witnesses. -/

def demoRoomA : Room :=
  { name := "a", description := "room a", initialDescription := "",
    connections := [], items := [], visited := false }

def demoLvl : Level :=
  { name := "demo", floors := [{ name := "f", description := "", rooms := [demoRoomA] }],
    doors := [], enemies := [], triggers := [], winCondition := none, comboItems := [] }

def demoE0 : Engine :=
  { level := demoLvl
    player := { inventory := [], health := HealthFine, ammo := [] }
    currentFloorName := "f", currentRoomName := "a"
    fightingEnemy := none
    levelCompletionState := LevelCompletionStateInProgress
    mode := Investigation
    validationDisabled := false
    minimapData := [] }

/-- C1 witness at the demo level's initial state. -/
theorem reachable_combat_mode_iff_fighting_enemy_witness :
    NewEngine demoLvl = some demoE0 ∧
    (demoE0.mode = Combat ↔ demoE0.fightingEnemy.isSome = true) :=
  ⟨rfl, (@reachable_combat_mode_iff_fighting_enemy demoLvl demoE0 demoE0 rfl
    Relation.ReflTransGen.refl).1⟩

/-- A two-room demo level whose win condition fires on entering room b. -/
def demo2Lvl : Level :=
  { name := "demo2"
    floors := [{ name := "f", description := "", rooms :=
      [ { name := "a", description := "room a", initialDescription := "",
          connections := [{ doorName := "d", location := "north", description := "" }],
          items := [], visited := false },
        { name := "b", description := "room b", initialDescription := "",
          connections := [{ doorName := "d", location := "south", description := "" }],
          items := [], visited := false } ] }]
    doors := [{ name := "d", roomA := "a", roomB := "b", lock := none,
                stairwell := false, latch := none, traversed := false, tried := false }]
    enemies := [], triggers := []
    winCondition := some { event := EventRoomEntered, enemyName := "", roomName := "b", itemName := "" }
    comboItems := [] }

def demo2E0 : Engine :=
  { level := demo2Lvl
    player := { inventory := [], health := HealthFine, ammo := [] }
    currentFloorName := "f", currentRoomName := "a"
    fightingEnemy := none
    levelCompletionState := LevelCompletionStateInProgress
    mode := Investigation
    validationDisabled := false
    minimapData := [("d", { locked := none, hidden := false })] }

/-- The state after traversing door d in demo2: the level is complete. -/
def demo2E1 : Engine :=
  { level := { name := "demo2"
               floors := [{ name := "f", description := "", rooms :=
                 [ { name := "a", description := "room a", initialDescription := "",
                     connections := [{ doorName := "d", location := "north", description := "" }],
                     items := [], visited := false },
                   { name := "b", description := "room b", initialDescription := "",
                     connections := [{ doorName := "d", location := "south", description := "" }],
                     items := [], visited := true } ] }]
               doors := [{ name := "d", roomA := "a", roomB := "b", lock := none,
                           stairwell := false, latch := none, traversed := true, tried := true }]
               enemies := [], triggers := []
               winCondition := some { event := EventRoomEntered, enemyName := "", roomName := "b", itemName := "" }
               comboItems := [] }
    player := { inventory := [], health := HealthFine, ammo := [] }
    currentFloorName := "f", currentRoomName := "b"
    fightingEnemy := none
    levelCompletionState := LevelCompletionStateComplete
    mode := Investigation
    validationDisabled := false
    minimapData := [("d", { locked := some false, hidden := false })] }

/-- C2 witness: in demo2, traversing door d reaches a complete (terminal)
state, at which observe returns an error with the state unchanged. -/
theorem terminal_state_freezes_verbs_witness :
    NewEngine demo2Lvl = some demo2E0 ∧
    demo2E0.applyVerb (Verb.traverse "d") = VOut.ok demo2E1 ∧
    demo2E1.levelCompletionState = LevelCompletionStateComplete ∧
    (∃ msg, demo2E1.applyVerb Verb.observe = VOut.err demo2E1 msg) :=
  ⟨rfl, rfl, rfl,
    (@terminal_state_freezes_verbs demo2Lvl demo2E0 demo2E1 rfl
        (Relation.ReflTransGen.tail Relation.ReflTransGen.refl
          ⟨Verb.traverse "d", Or.inl rfl⟩)).2 (Or.inl rfl) Verb.observe⟩

theorem GetEnemy?_modifyEnemy {l : Level} {en : String} {enemy : Enemy}
    (h : l.GetEnemy? en = some enemy) :
    (l.modifyEnemy en Enemy.InflictDamage).GetEnemy? en = some enemy.InflictDamage := by
  unfold Level.GetEnemy? Level.modifyEnemy at *
  exact find?_modifyFirstBy h (by simpa [Enemy.InflictDamage] using List.find?_some h)

/-- C8: for a known enemy and any rng value r in [0,1): a battle round is won
exactly when r < damage; damage 0 always loses the round (the player's health
drops one step), damage 1 always wins it (the enemy's HP decreases by 1), and
unarmed combat ("", "fists", "hands") runs the round with fixed damage 1/2. -/
theorem battle_round_rng_semantics {e : Engine} {en : String} {enemy : Enemy} {r : ℚ}
    (hr0 : 0 ≤ r) (hr1 : r < 1)
    (hen : e.level.GetEnemy? en = some enemy) :
    (∀ d e2 res, e.battleRound en d r = Out.ok e2 res → res.wonRound = decide (r < d)) ∧
    (∀ e2 res, e.battleRound en 0 r = Out.ok e2 res →
      res.wonRound = false ∧ e.player.InflictDamage = some e2.player ∧
      e2.level = e.level) ∧
    (∀ e2 res, e.battleRound en 1 r = Out.ok e2 res →
      res.wonRound = true ∧
      e2.level.GetEnemy? en = some { enemy with hp := enemy.hp - 1 } ∧
      e2.player = e.player) ∧
    (∀ w en2, e.fightingEnemy = some en2 →
      (w = "" ∨ w = "fists" ∨ w = "hands") →
      e.battleInternal w r = e.battleRound en2 ((1 : ℚ)/2) r) := by
  refine ⟨?_, ?_, ?_, ?_⟩
  · intro d e2 res h
    unfold Engine.battleRound at h
    rw [hen] at h
    simp only [] at h
    split at h
    · next hlt => cases h; simp [hlt]
    · next hlt =>
      split at h
      · exact Out.noConfusion h
      · cases h; simp [hlt]
  · intro e2 res h
    unfold Engine.battleRound at h
    rw [hen] at h
    simp only [] at h
    rw [if_neg (not_lt.mpr hr0)] at h
    split at h
    · exact Out.noConfusion h
    · next p2 hp2 => cases h; exact ⟨rfl, hp2, rfl⟩
  · intro e2 res h
    unfold Engine.battleRound at h
    rw [hen] at h
    simp only [] at h
    rw [if_pos hr1] at h
    cases h
    exact ⟨rfl, GetEnemy?_modifyEnemy hen, rfl⟩
  · intro w en2 hfe hw
    unfold Engine.battleInternal
    rw [hfe]
    rcases hw with h | h | h
    all_goals simp [h]

def rat8 : Enemy := { name := "rat", description := "a rat", hp := 2 }

def e8 : Engine :=
  { level := { name := "arena"
               floors := [{ name := "f", description := "", rooms :=
                 [{ name := "a", description := "", initialDescription := "",
                    connections := [], items := [], visited := true }] }]
               doors := [], enemies := [rat8], triggers := [], winCondition := none
               comboItems := [] }
    player := { inventory := [], health := HealthFine, ammo := [] }
    currentFloorName := "f", currentRoomName := "a"
    fightingEnemy := some "rat"
    levelCompletionState := LevelCompletionStateInProgress
    mode := Combat
    validationDisabled := false
    minimapData := [] }

/-- C8 witness: in the arena, a damage-1 round at r = 1/2 is won and
decrements the rat's HP. -/
theorem battle_round_rng_semantics_witness :
    (0 ≤ (1 : ℚ)/2 ∧ (1 : ℚ)/2 < 1 ∧ e8.level.GetEnemy? "rat" = some rat8) ∧
    (∀ e2 res, e8.battleRound "rat" 1 ((1 : ℚ)/2) = Out.ok e2 res →
      res.wonRound = true ∧
      e2.level.GetEnemy? "rat" = some { rat8 with hp := rat8.hp - 1 } ∧
      e2.player = e8.player) :=
  ⟨⟨by norm_num, by norm_num, rfl⟩,
    (@battle_round_rng_semantics e8 "rat" rat8 ((1 : ℚ)/2)
      (by norm_num) (by norm_num) rfl).2.2.1⟩

theorem name_setContainer (it : Item) (c : Option Container) :
    (it.setContainer c).name = it.name := by cases it; rfl

theorem container_setContainer (it : Item) (c : Option Container) :
    (it.setContainer c).container = c := by cases it; rfl

theorem locked_setSearched (c : Container) (b : Bool) :
    (c.setSearched b).locked = c.locked := by cases c; rfl

theorem contains_setSearched (c : Container) (b : Bool) :
    (c.setSearched b).contains = c.contains := by cases c; rfl

theorem searched_setSearched (c : Container) (b : Bool) :
    (c.setSearched b).searched = b := by cases c; rfl

theorem IsLocked_setSearched (c : Container) (b : Bool) :
    (c.setSearched b).IsLocked = c.IsLocked := by cases c; rfl

theorem find?_setFirstItem {l : List Item} {n : String} {a x : Item}
    (h : l.find? (fun it => it.name == n) = some a) (hx : x.name = n) :
    (setFirstItem n x l).find? (fun it => it.name == n) = some x := by
  induction l with
  | nil => simp at h
  | cons b rest ih =>
      by_cases hb : b.name = n
      · simp [setFirstItem, hb, List.find?_cons, hx]
      · have hb2 : (b.name == n) = false := by simpa using hb
        simp only [List.find?_cons, hb2, cond_false] at h
        simp [setFirstItem, hb, List.find?_cons, hb2, ih h]

/-- An unlocked container searches successfully: it is marked searched and its
contents are returned without being removed. -/
theorem Search_unlocked {c : Container} (h : ∀ l, c.locked = some l → l.locked = false) :
    c.Search = Except.ok (c.setSearched true, c.contains) := by
  unfold Container.Search
  cases hcl : c.locked with
  | none => rfl
  | some l => simp [h l hcl]

/-- C7: searching an unlocked container in the current room succeeds, marks it
searched without removing its contents, and an immediately repeated search
succeeds with the same contained item report. -/
theorem search_idempotent {e : Engine} {room : Room} {n : String} {it : Item}
    {c : Container}
    (hroom : e.currentRoom? = some room)
    (hit : room.GetItem n = some it)
    (hc : it.container = some c)
    (hulk : ∀ l, c.locked = some l → l.locked = false) :
    ∃ e1 v1 e2 v2, e.searchInternal n = Out.ok e1 v1 ∧
      e1.searchInternal n = Out.ok e2 v2 ∧
      v1.containedItemInfo = v2.containedItemInfo ∧
      v1.containedItemInfo = c.contains.map createItemInfo ∧
      ∃ room1 it1 c1, e1.currentRoom? = some room1 ∧ room1.GetItem n = some it1 ∧
        it1.container = some c1 ∧ c1.searched = true ∧ c1.contains = c.contains := by
  have hit2 : room.items.find? (fun x => x.name == n) = some it := hit
  have hnameit : it.name = n := by simpa using List.find?_some hit2
  have hIL : c.IsLocked = false := by
    unfold Container.IsLocked
    cases hcl : c.locked with
    | none => simp
    | some l => simp [hulk l hcl]
  have h1 : e.searchInternal n = Out.ok
      (e.modifyCurrentRoom (fun r =>
        { r with items := setFirstItem n (it.setContainer (some (c.setSearched true))) r.items }))
      { containerName := n, containedItemInfo := c.contains.map createItemInfo,
        unlocked := false } := by
    simp [Engine.searchInternal, hroom, hit, hc, hIL, finishSearch, Search_unlocked hulk]
  have hroom1 := @currentRoom?_modifyCurrentRoom e (fun r =>
    { r with items := setFirstItem n (it.setContainer (some (c.setSearched true))) r.items })
    room hroom rfl
  have hit1 : ({ room with items := (setFirstItem n
      (it.setContainer (some (c.setSearched true))) room.items) } : Room).GetItem n =
      some (it.setContainer (some (c.setSearched true))) := by
    show (setFirstItem n (it.setContainer (some (c.setSearched true))) room.items).find?
      (fun x => x.name == n) = _
    exact find?_setFirstItem hit2 (by rw [name_setContainer]; exact hnameit)
  have hc1 : (it.setContainer (some (c.setSearched true))).container =
      some (c.setSearched true) := container_setContainer it _
  have hulk1 : ∀ l, (c.setSearched true).locked = some l → l.locked = false := by
    rw [locked_setSearched]; exact hulk
  have hIL1 : (c.setSearched true).IsLocked = false := by
    rw [IsLocked_setSearched]; exact hIL
  have h2 : (e.modifyCurrentRoom (fun r =>
      { r with items := setFirstItem n (it.setContainer (some (c.setSearched true))) r.items })).searchInternal n =
      Out.ok
        ((e.modifyCurrentRoom (fun r =>
          { r with items := setFirstItem n (it.setContainer (some (c.setSearched true))) r.items })).modifyCurrentRoom (fun r =>
            { r with items := setFirstItem n ((it.setContainer (some (c.setSearched true))).setContainer (some ((c.setSearched true).setSearched true))) r.items }))
        { containerName := n,
          containedItemInfo := (c.setSearched true).contains.map createItemInfo,
          unlocked := false } := by
    simp [Engine.searchInternal, hroom1, hit1, hc1, hIL1, finishSearch,
      Search_unlocked hulk1]
  exact ⟨_, _, _, _, h1, h2, by rw [contains_setSearched], rfl, _, _, _,
    hroom1, hit1, hc1, searched_setSearched c true, contains_setSearched c true⟩

def coinItem : Item := .mk "coin" "a coin" "" "" true false none none none none none none

def boxC : Container := .mk (some coinItem) false none

def boxItem : Item := .mk "box" "a box" "" "" false false none (some boxC) none none none none

def roomC7 : Room :=
  { name := "a", description := "", initialDescription := "",
    connections := [], items := [boxItem], visited := true }

def eC7 : Engine :=
  { level := { name := "searchdemo"
               floors := [{ name := "f", description := "", rooms := [roomC7] }]
               doors := [], enemies := [], triggers := [], winCondition := none
               comboItems := [] }
    player := { inventory := [], health := HealthFine, ammo := [] }
    currentFloorName := "f", currentRoomName := "a"
    fightingEnemy := none
    levelCompletionState := LevelCompletionStateInProgress
    mode := Investigation
    validationDisabled := false
    minimapData := [] }

/-- C7 witness: searching the unlocked box twice reports the coin both times. -/
theorem search_idempotent_witness :
    ∃ e1 v1 e2 v2, eC7.searchInternal "box" = Out.ok e1 v1 ∧
      e1.searchInternal "box" = Out.ok e2 v2 ∧
      v1.containedItemInfo = v2.containedItemInfo ∧
      v1.containedItemInfo = boxC.contains.map createItemInfo ∧
      ∃ room1 it1 c1, e1.currentRoom? = some room1 ∧ room1.GetItem "box" = some it1 ∧
        it1.container = some c1 ∧ c1.searched = true ∧ c1.contains = boxC.contains :=
  @search_idempotent eC7 roomC7 "box" boxItem boxC rfl rfl rfl
    (fun l h => by simp [boxC, Container.locked] at h)

/-- C10 (amended): a failed combine leaves the engine unchanged; a successful
combine rewrites the inventory to the first-occurrence removals of the two
input names followed by the combo output, which removes exactly two items only
when the input names are distinct (combining an item with itself removes a
single copy). -/
theorem combine_inventory_effects (e : Engine) (a b : String) :
    (∀ e' m, e.combineInternal a b = Out.err e' m → e' = e) ∧
    (∀ e' v, e.combineInternal a b = Out.ok e' v →
      ∃ out, e.level.CombineItems a b = Except.ok out ∧
        e'.player.inventory =
          removeFirstItem b (removeFirstItem a e.player.inventory) ++ [out] ∧
        e'.player.ammo = e.player.ammo ∧ e'.level = e.level) ∧
    (a ≠ b →
      ∀ e' v, e.combineInternal a b = Out.ok e' v →
        e'.player.inventory.length + 1 = e.player.inventory.length) := by
  refine ⟨?_, ?_, ?_⟩
  · intro e' m h
    unfold Engine.combineInternal at h
    repeat' split at h
    all_goals try exact Out.noConfusion h
    all_goals cases h
    all_goals rfl
  · intro e' v h
    unfold Engine.combineInternal at h
    repeat' split at h
    all_goals try exact Out.noConfusion h
    cases h
    next hcomb => exact ⟨_, hcomb, rfl, rfl, rfl⟩
  · intro hab e' v h
    unfold Engine.combineInternal at h
    repeat' split at h
    all_goals try exact Out.noConfusion h
    cases h
    have hga2 : ∃ x, e.player.inventory.find? (fun q => q.name == a) = some x :=
      ⟨_, by assumption⟩
    have hgb2 : ∃ x, e.player.inventory.find? (fun q => q.name == b) = some x :=
      ⟨_, by assumption⟩
    obtain ⟨itA, hga2⟩ := hga2
    obtain ⟨itB, hgb2⟩ := hgb2
    have hgb3 : (removeFirstItem a e.player.inventory).find?
        (fun q => q.name == b) = some itB := by
      rw [find?_removeFirstItem_ne (fun hx => hab hx.symm)]
      exact hgb2
    have h1 := length_removeFirstItem_of_found hgb3
    have h2 := length_removeFirstItem_of_found hga2
    simp only [List.length_append, List.length_cons, List.length_nil]
    omega

def xItem : Item := .mk "x" "an x" "" "" true false none none none none none none

def yItem : Item := .mk "y" "a y" "" "" true false none none none none none none

def zItem : Item := .mk "z" "a z" "" "" true false none none none none none none

/-- An engine whose player holds one x while the level combines x with x. -/
def eC10 : Engine :=
  { level := { name := "combodemo"
               floors := [{ name := "f", description := "", rooms :=
                 [{ name := "a", description := "", initialDescription := "",
                    connections := [], items := [], visited := true }] }]
               doors := [], enemies := [], triggers := [], winCondition := none
               comboItems := [{ inputItemAName := "x", inputItemBName := "x",
                                outputItem := yItem }] }
    player := { inventory := [xItem], health := HealthFine, ammo := [] }
    currentFloorName := "f", currentRoomName := "a"
    fightingEnemy := none
    levelCompletionState := LevelCompletionStateInProgress
    mode := Investigation
    validationDisabled := false
    minimapData := [] }

/-- C10 counterexample: combine("x","x") with a single x in inventory
succeeds, but only one item is removed before the output is appended — the
claimed removal of exactly the two input items is impossible here. -/
theorem combine_claim_counterexample :
    eC10.player.inventory = [xItem] ∧
    (∃ e' v, eC10.combineInternal "x" "x" = Out.ok e' v ∧
      e'.player.inventory = [yItem] ∧
      e'.player.inventory.length + 2 ≠ eC10.player.inventory.length + 1) :=
  ⟨rfl, _, _, rfl, rfl, by decide⟩

/-- Same level with a z added so a two-input combo (x, z → y) can run. -/
def eC10b : Engine :=
  { level := { name := "combodemo2"
               floors := [{ name := "f", description := "", rooms :=
                 [{ name := "a", description := "", initialDescription := "",
                    connections := [], items := [], visited := true }] }]
               doors := [], enemies := [], triggers := [], winCondition := none
               comboItems := [{ inputItemAName := "x", inputItemBName := "z",
                                outputItem := yItem }] }
    player := { inventory := [xItem, zItem], health := HealthFine, ammo := [] }
    currentFloorName := "f", currentRoomName := "a"
    fightingEnemy := none
    levelCompletionState := LevelCompletionStateInProgress
    mode := Investigation
    validationDisabled := false
    minimapData := [] }

/-- C10 witness: combining x and z in eC10b removes both inputs and appends
the output. -/
theorem combine_inventory_effects_witness :
    (∀ e' v, eC10b.combineInternal "x" "z" = Out.ok e' v →
      ∃ out, eC10b.level.CombineItems "x" "z" = Except.ok out ∧
        e'.player.inventory =
          removeFirstItem "z" (removeFirstItem "x" eC10b.player.inventory) ++ [out] ∧
        e'.player.ammo = eC10b.player.ammo ∧ e'.level = eC10b.level) ∧
    (∀ e' v, eC10b.combineInternal "x" "z" = Out.ok e' v →
      e'.player.inventory.length + 1 = eC10b.player.inventory.length) :=
  ⟨(combine_inventory_effects eC10b "x" "z").2.1,
   (combine_inventory_effects eC10b "x" "z").2.2 (by decide)⟩

/-- C6: unlock never mutates the engine on a failed attempt (wrong key, not a
key, already unlocked: the error return carries the engine unchanged, so the
key stays in inventory and the target lock is untouched), and on a successful
key unlock of a container or a door the named key is removed from the
player's inventory. -/
theorem unlock_key_consumed_only_on_success (e : Engine) (k t : String) :
    (∀ e' m, e.unlockInternal k t = Out.err e' m → e' = e) ∧
    (∀ room item c, e.currentRoom? = some room → room.GetItem t = some item →
      item.container = some c → c.HasCodeLock = false →
      ∀ e' v, e.unlockInternal k t = Out.ok e' v →
        e'.player.inventory = removeFirstItem k e.player.inventory ∧
        v.unlocked = true) ∧
    (∀ room conn door, e.currentRoom? = some room → room.GetItem t = none →
      room.GetConnection t = some conn →
      e.level.GetDoor? conn.doorName = some door → door.HasCodeLock = false →
      ∀ e' v, e.unlockInternal k t = Out.ok e' v →
        e'.player.inventory = removeFirstItem k e.player.inventory ∧
        v.unlocked = true) := by
  refine ⟨?_, ?_, ?_⟩
  · intro e' m h
    unfold Engine.unlockInternal at h
    try simp only [] at h
    repeat' split at h
    all_goals try exact Out.noConfusion h
    all_goals cases h
    all_goals rfl
  · intro room item c hroom hti hci hcode e' v h
    unfold Engine.unlockInternal at h
    rw [hroom] at h
    simp only [] at h
    rw [hti] at h
    simp only [] at h
    rw [hci] at h
    simp only [hcode, Bool.false_eq_true, if_false] at h
    repeat' split at h
    all_goals try exact Out.noConfusion h
    cases h
    exact ⟨rfl, rfl⟩
  · intro room conn door hroom hti hconn hdoor hcode e' v h
    unfold Engine.unlockInternal Engine.findDoorByName at h
    rw [hroom] at h
    simp only [] at h
    rw [hti] at h
    simp only [] at h
    rw [hconn] at h
    simp only [] at h
    rw [hdoor] at h
    simp only [hcode, Bool.false_eq_true, if_false] at h
    repeat' split at h
    all_goals try exact Out.noConfusion h
    cases h
    exact ⟨rfl, rfl⟩

def keyItem : Item := .mk "key" "a key" "" "" true true none none none none none none

def chestC : Container :=
  .mk (some coinItem) false (some { locked := true, keyName := "key", code := "" })

def chestItem : Item :=
  .mk "chest" "a chest" "" "" false false none (some chestC) none none none none

def eC6 : Engine :=
  { level := { name := "unlockdemo"
               floors := [{ name := "f", description := "", rooms :=
                 [{ name := "a", description := "", initialDescription := "",
                    connections := [], items := [chestItem], visited := true }] }]
               doors := [], enemies := [], triggers := [], winCondition := none
               comboItems := [] }
    player := { inventory := [keyItem], health := HealthFine, ammo := [] }
    currentFloorName := "f", currentRoomName := "a"
    fightingEnemy := none
    levelCompletionState := LevelCompletionStateInProgress
    mode := Investigation
    validationDisabled := false
    minimapData := [] }

/-- C6 witness: unlocking the chest with the key consumes the key; a wrong-key
attempt leaves the engine unchanged. -/
theorem unlock_key_consumed_only_on_success_witness :
    (∃ e' v, eC6.unlockInternal "key" "chest" = Out.ok e' v ∧
      e'.player.inventory = removeFirstItem "key" eC6.player.inventory ∧
      v.unlocked = true) ∧
    (∀ e' m, eC6.unlockInternal "wrongkey" "chest" = Out.err e' m → e' = eC6) := by
  refine ⟨⟨_, _, rfl, ?_⟩, (unlock_key_consumed_only_on_success eC6 "wrongkey" "chest").1⟩
  exact (unlock_key_consumed_only_on_success eC6 "key" "chest").2.1 _ _ _
    rfl rfl rfl rfl _ _ rfl

theorem ammoGet_ammoSet (m : List (String × Int)) (w : String) (v : Int) :
    ammoGet (ammoSet m w v) w = v := by
  induction m with
  | nil => simp [ammoSet, ammoGet]
  | cons q rest ih =>
      by_cases hq : q.1 = w
      · simp [ammoSet, hq, ammoGet]
      · have hq2 : (q.1 == w) = false := by simpa using hq
        simp only [ammoSet, if_neg hq]
        simp only [ammoGet, List.find?_cons, hq2, cond_false] at ih ⊢
        exact ih

/-- What a hit of the searched-container scan guarantees: the containing item
has a searched container holding exactly the found inner item. -/
theorem findContainedIn_spec {n : String} {items : List Item} {cit inner : Item}
    (h : findContainedIn n items = some (cit, inner)) :
    ∃ c, cit.container = some c ∧ c.searched = true ∧ c.contains = some inner := by
  induction items with
  | nil => simp [findContainedIn] at h
  | cons it rest ih =>
      unfold findContainedIn at h
      repeat' split at h
      all_goals try exact ih h
      cases h
      exact ⟨_, by assumption, by assumption, by assumption⟩

/-- C5: when take succeeds on an ammo box — whether the box lies in the room
or inside a searched container — no item is appended to the player's
inventory, and the player's ammo count for the box's weapon name grows by
exactly the box's quantity. -/
theorem take_ammo_box_transfers (e : Engine) (n : String) :
    (∀ room item ab a, e.currentRoom? = some room → room.GetItem n = some item →
      item.concealer = none → item.ammoBox = some ab → ab.ammo = some a →
      ∀ e' v, e.takeInternal n = Out.ok e' v →
        e'.player.inventory = e.player.inventory ∧
        ammoGet e'.player.ammo ab.weaponName =
          ammoGet e.player.ammo ab.weaponName + a.quantity) ∧
    (∀ room cit inner ab a, e.currentRoom? = some room → room.GetItem n = none →
      findContainedIn n room.items = some (cit, inner) →
      inner.ammoBox = some ab → ab.ammo = some a →
      ∀ e' v, e.takeInternal n = Out.ok e' v →
        e'.player.inventory = e.player.inventory ∧
        ammoGet e'.player.ammo ab.weaponName =
          ammoGet e.player.ammo ab.weaponName + a.quantity) := by
  constructor
  · intro room item ab a hroom hti hcz hab ha e' v h
    unfold Engine.takeInternal at h
    rw [hroom] at h
    simp only [] at h
    rw [hti] at h
    simp only [Item.IsConcealer, hcz, Option.isSome_none, Bool.false_and,
      Bool.false_eq_true, if_false] at h
    split at h
    · exact Out.noConfusion h
    · unfold handleAmmoTransfer at h
      rw [hab] at h
      simp only [] at h
      rw [ha] at h
      simp only [Item.IsAmmoBox, hab, Option.isSome_some, Bool.and_self, if_true] at h
      cases h
      exact ⟨rfl, ammoGet_ammoSet _ _ _⟩
  · intro room cit inner ab a hroom hti hfc hab ha e' v h
    obtain ⟨c, hc, hcs, hcc⟩ := findContainedIn_spec hfc
    unfold Engine.takeInternal at h
    rw [hroom] at h
    simp only [] at h
    rw [hti] at h
    simp only [] at h
    rw [hfc] at h
    simp only [] at h
    split at h
    · exact Out.noConfusion h
    · rw [hc] at h
      simp only [] at h
      unfold Container.RemoveItem at h
      rw [hcc] at h
      simp only [] at h
      unfold handleAmmoTransfer at h
      rw [hab] at h
      simp only [] at h
      rw [ha] at h
      simp only [Item.IsAmmoBox, hab, Option.isSome_some, Bool.and_self, if_true] at h
      cases h
      exact ⟨rfl, ammoGet_ammoSet _ _ _⟩

def shellsBox : Item :=
  .mk "shells" "shotgun shells" "" "" true false none none none
    (some { weaponName := "shotgun", ammo := some { quantity := 2 } }) none none

def eC5 : Engine :=
  { level := { name := "ammodemo"
               floors := [{ name := "f", description := "", rooms :=
                 [{ name := "a", description := "", initialDescription := "",
                    connections := [], items := [shellsBox], visited := true }] }]
               doors := [], enemies := [], triggers := [], winCondition := none
               comboItems := [] }
    player := { inventory := [], health := HealthFine, ammo := [] }
    currentFloorName := "f", currentRoomName := "a"
    fightingEnemy := none
    levelCompletionState := LevelCompletionStateInProgress
    mode := Investigation
    validationDisabled := false
    minimapData := [] }

/-- C5 witness: taking the shells adds 2 shotgun rounds and no inventory item. -/
theorem take_ammo_box_transfers_witness :
    ∃ e' v, eC5.takeInternal "shells" = Out.ok e' v ∧
      e'.player.inventory = eC5.player.inventory ∧
      ammoGet e'.player.ammo "shotgun" = ammoGet eC5.player.ammo "shotgun" + 2 := by
  refine ⟨_, _, rfl, ?_⟩
  exact (take_ammo_box_transfers eC5 "shells").1 _ _ _ _ rfl rfl rfl rfl rfl _ _ rfl

/-- loader.WinConditionData: the win_condition object of a level document. -/
structure WinConditionData where
  event : String
  roomName : String
deriving DecidableEq, Repr

/-- LoadGame's win-condition translation: the switch maps only the legacy
spelling "enter_room" to the room_entered engine event; any other kind leaves
the event type at the empty zero value. -/
def loadWinCondition (d : WinConditionData) : Event :=
  { event := if d.event = "enter_room" then EventRoomEntered else ""
    enemyName := "", roomName := d.roomName, itemName := "" }

/-- C4 (amended): the loader maps only "enter_room" to the room_entered
engine event; every other win-condition kind (including "room_entered" and
"enemy_killed") is left as the empty event type, and such a win condition
never completes the level. -/
theorem loader_win_condition_event_kinds (d : WinConditionData) :
    (d.event = "enter_room" → loadWinCondition d =
      { event := EventRoomEntered, enemyName := "", roomName := d.roomName,
        itemName := "" }) ∧
    (d.event ≠ "enter_room" → (loadWinCondition d).event = "" ∧
      ∀ (e : Engine) (ev : Event), e.level.winCondition = some (loadWinCondition d) →
        e.processWinCondition ev = (e, none)) := by
  constructor
  · intro h
    simp [loadWinCondition, h]
  · intro h
    refine ⟨by simp [loadWinCondition, h], ?_⟩
    intro e ev hwc
    unfold Engine.processWinCondition
    rw [hwc]
    simp [loadWinCondition, h, EventRoomEntered, EventEnemyKilled]

/-- C4 witness: the legacy spelling is normalized to room_entered. -/
theorem loader_win_condition_event_kinds_witness :
    loadWinCondition { event := "enter_room", roomName := "exit" } =
      { event := EventRoomEntered, enemyName := "", roomName := "exit",
        itemName := "" } :=
  (loader_win_condition_event_kinds { event := "enter_room", roomName := "exit" }).1 rfl

/-- An engine whose win condition came from a "room_entered" document. -/
def eC4 : Engine :=
  { level := { name := "windemo"
               floors := [{ name := "f", description := "", rooms :=
                 [{ name := "b", description := "", initialDescription := "",
                    connections := [], items := [], visited := true }] }]
               doors := [], enemies := [], triggers := []
               winCondition := some (loadWinCondition { event := "room_entered", roomName := "b" })
               comboItems := [] }
    player := { inventory := [], health := HealthFine, ammo := [] }
    currentFloorName := "f", currentRoomName := "b"
    fightingEnemy := none
    levelCompletionState := LevelCompletionStateInProgress
    mode := Investigation
    validationDisabled := false
    minimapData := [] }

/-- C4 counterexample: "room_entered" and "enemy_killed" are NOT accepted by
the loader switch — they produce the empty event type, and the resulting win
condition never fires, even on entering the named room. -/
theorem loader_win_condition_counterexample :
    (loadWinCondition { event := "room_entered", roomName := "b" }).event ≠
      EventRoomEntered ∧
    (loadWinCondition { event := "enemy_killed", roomName := "" }).event ≠
      EventEnemyKilled ∧
    eC4.processWinCondition
      { event := EventRoomEntered, enemyName := "", roomName := "b", itemName := "" } =
      (eC4, none) := by
  refine ⟨?_, ?_, rfl⟩
  · show ("" : String) ≠ EventRoomEntered
    decide
  · show ("" : String) ≠ EventEnemyKilled
    decide

theorem find?_modifyFirstBy_cases {p q : α → Bool} {f : α → α} {l : List α} {a : α}
    (hf : ∀ x, q (f x) = q x)
    (h : (modifyFirstBy p f l).find? q = some a) :
    ∃ b, l.find? q = some b ∧ (a = b ∨ a = f b) := by
  induction l with
  | nil => simp [modifyFirstBy] at h
  | cons x rest ih =>
      by_cases hp : p x = true
      · simp only [modifyFirstBy, if_pos hp] at h
        by_cases hq : q x = true
        · rw [List.find?_cons_of_pos _ (show q (f x) = true by rw [hf]; exact hq)] at h
          injection h with h2
          exact ⟨x, List.find?_cons_of_pos _ hq, Or.inr h2.symm⟩
        · have hqf : ¬ q (f x) = true := by rw [hf]; exact hq
          rw [List.find?_cons_of_neg _ hqf] at h
          exact ⟨a, by rw [List.find?_cons_of_neg _ hq]; exact h, Or.inl rfl⟩
      · simp only [modifyFirstBy, if_neg hp] at h
        by_cases hq : q x = true
        · rw [List.find?_cons_of_pos _ hq] at h
          injection h with h2
          exact ⟨x, List.find?_cons_of_pos _ hq, Or.inl h2.symm⟩
        · rw [List.find?_cons_of_neg _ hq] at h
          obtain ⟨b, hb, hab⟩ := ih h
          exact ⟨b, by rw [List.find?_cons_of_neg _ hq]; exact hb, hab⟩

theorem GetDoor?_modifyDoor_cases {l : Level} {m n : String} {f : Door → Door} {dd : Door}
    (hf : ∀ x, (f x).name = x.name)
    (h : (l.modifyDoor m f).GetDoor? n = some dd) :
    ∃ b, l.GetDoor? n = some b ∧ (dd = b ∨ dd = f b) := by
  unfold Level.GetDoor? Level.modifyDoor at *
  exact find?_modifyFirstBy_cases (fun x => by simp [hf x]) h

theorem IsLocked_mark_tried (d : Door) :
    ({ d with tried := true } : Door).IsLocked = d.IsLocked := rfl

theorem name_Unlatch (d : Door) : d.Unlatch.name = d.name := by
  unfold Door.Unlatch
  split
  all_goals rfl

theorem observeInternal_doors {e e' : Engine} {v : observeResultInternal}
    (h : e.observeInternal = Out.ok e' v) : e'.level.doors = e.level.doors := by
  unfold Engine.observeInternal at h
  repeat' split at h
  all_goals try exact Out.noConfusion h
  all_goals simp only [] at h
  all_goals cases h
  all_goals rfl

theorem observeInternal_ne_err (e e' : Engine) (m : String) :
    e.observeInternal ≠ Out.err e' m := by
  unfold Engine.observeInternal
  intro h
  repeat' split at h
  all_goals exact Out.noConfusion h

theorem GetDoor?_congr_doors {l l2 : Level} (h : l2.doors = l.doors) (n : String) :
    l2.GetDoor? n = l.GetDoor? n := by
  unfold Level.GetDoor?
  rw [h]

/-- Marking a door traversed (and the minimap updates around it) cannot
re-latch any door. -/
theorem markReveal_unlatched {e2 e4 : Engine} {door1 : Door} {n : String}
    (h : Engine.traverseMarkAndReveal e2 door1 = some e4)
    (hp : ∀ dd, e2.level.GetDoor? n = some dd → dd.IsLatched = false) :
    ∀ dd, e4.level.GetDoor? n = some dd → dd.IsLatched = false := by
  unfold Engine.traverseMarkAndReveal at h
  split at h
  · split at h
    · exact Option.noConfusion h
    · next ex hex =>
      injection h with h2
      subst h2
      intro dd hdd
      have hexl : ex.level =
          (e2.level.modifyDoor door1.name (fun dx => { dx with traversed := true })) := by
        unfold Engine.updateMinimapDataForCurrenRoom at hex
        repeat' split at hex
        all_goals try exact Option.noConfusion hex
        injection hex with h3
        subst h3
        rfl
      have hdd2 : (e2.level.modifyDoor door1.name
          (fun dx => { dx with traversed := true })).GetDoor? n = some dd := by
        rw [← hexl]
        exact hdd
      obtain ⟨b, hb, hab⟩ := @GetDoor?_modifyDoor_cases e2.level door1.name n
        (fun dx => { dx with traversed := true }) dd (fun x => rfl) hdd2
      rcases hab with h4 | h4
      · rw [h4]; exact hp b hb
      · rw [h4]; exact hp b hb
  · injection h with h2
    subst h2
    exact hp

/-- C3 (amended): traversing a latched door that is NOT otherwise locked:
when the latch's locked-from side is the player's current room, any completed
traverse succeeds reporting unlatched = true with the door left unlatched (a
malformed level can still panic); from the other side, traverse fails with
"this door is latched from the other side". A locked latched door instead
fails with the lock error first, which is why the lock precondition is
required. -/
theorem traverse_latched_door {e : Engine} {room : Room} {conn : Connection}
    {d : Door} {la : Latch} {dest : String}
    (hroom : e.currentRoom? = some room)
    (hconn : room.GetConnection dest = some conn)
    (hdoor : e.level.GetDoor? conn.doorName = some d)
    (hlatch : d.latch = some la) (hl : la.locked = true)
    (hlock : d.IsLocked = false) :
    (la.lockedFrom ≠ e.currentRoomName →
      e.traverseInternal dest =
        Out.err
          { e with level := e.level.modifyDoor d.name (fun d0 => { d0 with tried := true }) }
          "this door is latched from the other side") ∧
    (la.lockedFrom = e.currentRoomName →
      (∃ e' v, e.traverseInternal dest = Out.ok e' v ∧ v.unlatched = true ∧
        ∀ dd, e'.level.GetDoor? d.name = some dd → dd.IsLatched = false) ∨
      e.traverseInternal dest = Out.halt) := by
  have hdn : d.name = conn.doorName := by
    have := List.find?_some (show e.level.doors.find? (fun q => q.name == conn.doorName) = some d from hdoor)
    simpa using this
  have hred : e.traverseInternal dest =
      Engine.traverseAfterLocks
        { e with level := e.level.modifyDoor d.name (fun d0 => { d0 with tried := true }) }
        { d with tried := true } false := by
    unfold Engine.traverseInternal Engine.findDoorByName
    rw [hroom]
    simp only []
    rw [hconn]
    simp only []
    rw [hdoor]
    simp only []
    simp only [IsLocked_mark_tried, hlock, Bool.false_eq_true, if_false]
  have hlat : ({ d with tried := true } : Door).IsLatched = true := by
    simp [Door.IsLatched, hlatch, hl]
  constructor
  · intro hne
    rw [hred]
    unfold Engine.traverseAfterLocks Engine.traverseLatchStep
    have hcu : ({ d with tried := true } : Door).CanUnlatch e.currentRoomName = false := by
      simp [Door.CanUnlatch, hlatch, hne]
    simp [hlat, hcu]
  · intro heq
    rw [hred]
    have hcu : ({ d with tried := true } : Door).CanUnlatch e.currentRoomName = true := by
      simp [Door.CanUnlatch, hlatch, heq]
    unfold Engine.traverseAfterLocks Engine.traverseLatchStep
    simp only [hlat, hcu, if_true]
    have hdoor2 : e.level.GetDoor? d.name = some d := by rw [hdn]; exact hdoor
    have h1 : ((e.level.modifyDoor d.name (fun d0 => { d0 with tried := true }))).GetDoor? d.name =
        some ({ d with tried := true }) :=
      GetDoor?_modifyDoor hdoor2 rfl
    have h2 : ((e.level.modifyDoor d.name (fun d0 => { d0 with tried := true })).modifyDoor
          ({ d with tried := true } : Door).name
          (fun _ => ({ d with tried := true } : Door).Unlatch)).GetDoor? d.name =
        some (({ d with tried := true } : Door).Unlatch) :=
      @GetDoor?_modifyDoor _ d.name (fun _ => ({ d with tried := true } : Door).Unlatch)
        ({ d with tried := true } : Door) h1 (name_Unlatch _)
    have hIsL : (({ d with tried := true } : Door).Unlatch).IsLatched = false := by
      simp [Door.Unlatch, Door.IsLatched, hlatch]
    have hp2 : ∀ dd, ((e.level.modifyDoor d.name (fun d0 => { d0 with tried := true })).modifyDoor
          ({ d with tried := true } : Door).name
          (fun _ => ({ d with tried := true } : Door).Unlatch)).GetDoor? d.name = some dd →
        dd.IsLatched = false := by
      intro dd hdd
      rw [h2] at hdd
      injection hdd with h3
      rw [← h3]
      exact hIsL
    split
    · exact Or.inr rfl
    · split
      · exact Or.inr rfl
      · split
        · exact Or.inr rfl
        · next e4 hmr =>
          split
          · exact Or.inr rfl
          · next e5 msg hobs => exact absurd hobs (observeInternal_ne_err _ _ _)
          · next e5 obs hobs =>
            refine Or.inl ⟨e5, _, rfl, rfl, ?_⟩
            intro dd hdd
            refine markReveal_unlatched hmr hp2 dd ?_
            rw [← GetDoor?_congr_doors (observeInternal_doors hobs) d.name]
            exact hdd

def dlDoor : Door :=
  { name := "dl", roomA := "a", roomB := "b", lock := none, stairwell := false,
    latch := some { locked := true, lockedFrom := "a" }, traversed := false,
    tried := false }

def roomD3a : Room :=
  { name := "a", description := "room a", initialDescription := "",
    connections := [{ doorName := "dl", location := "north", description := "" }],
    items := [], visited := true }

def roomD3b : Room :=
  { name := "b", description := "room b", initialDescription := "",
    connections := [{ doorName := "dl", location := "south", description := "" }],
    items := [], visited := false }

def lvlD3 : Level :=
  { name := "latchdemo"
    floors := [{ name := "f", description := "", rooms := [roomD3a, roomD3b] }]
    doors := [dlDoor], enemies := [], triggers := [], winCondition := none
    comboItems := [] }

def eD3 : Engine :=
  { level := lvlD3
    player := { inventory := [], health := HealthFine, ammo := [] }
    currentFloorName := "f", currentRoomName := "a"
    fightingEnemy := none
    levelCompletionState := LevelCompletionStateInProgress
    mode := Investigation
    validationDisabled := false
    minimapData := [("dl", { locked := none, hidden := true })] }

def eD3b : Engine :=
  { level := lvlD3
    player := { inventory := [], health := HealthFine, ammo := [] }
    currentFloorName := "f", currentRoomName := "b"
    fightingEnemy := none
    levelCompletionState := LevelCompletionStateInProgress
    mode := Investigation
    validationDisabled := false
    minimapData := [("dl", { locked := none, hidden := true })] }

/-- C3 witness: from room a (the locked-from side) the latched door traverses
successfully with unlatched = true; from room b it fails with the latch
error. -/
theorem traverse_latched_door_witness :
    ((∃ e' v, eD3.traverseInternal "dl" = Out.ok e' v ∧ v.unlatched = true ∧
        ∀ dd, e'.level.GetDoor? "dl" = some dd → dd.IsLatched = false) ∨
      eD3.traverseInternal "dl" = Out.halt) ∧
    (∃ e2 v2, eD3.traverseInternal "dl" = Out.ok e2 v2 ∧ v2.unlatched = true) ∧
    eD3b.traverseInternal "dl" =
      Out.err
        { eD3b with level := eD3b.level.modifyDoor dlDoor.name (fun d0 => { d0 with tried := true }) }
        "this door is latched from the other side" :=
  ⟨(@traverse_latched_door eD3 roomD3a
      { doorName := "dl", location := "north", description := "" } dlDoor
      { locked := true, lockedFrom := "a" } "dl" rfl rfl rfl rfl rfl rfl).2 rfl,
   ⟨_, _, rfl, rfl⟩,
   (@traverse_latched_door eD3b roomD3b
      { doorName := "dl", location := "south", description := "" } dlDoor
      { locked := true, lockedFrom := "a" } "dl" rfl rfl rfl rfl rfl rfl).1
     (by decide)⟩

def dlLockedDoor : Door :=
  { name := "dl", roomA := "a", roomB := "b",
    lock := some { locked := true, keyName := "", code := "1234" },
    stairwell := false,
    latch := some { locked := true, lockedFrom := "a" }, traversed := false,
    tried := false }

def eD3c : Engine :=
  { level := { name := "latchlockdemo"
               floors := [{ name := "f", description := "", rooms := [roomD3a, roomD3b] }]
               doors := [dlLockedDoor], enemies := [], triggers := []
               winCondition := none, comboItems := [] }
    player := { inventory := [], health := HealthFine, ammo := [] }
    currentFloorName := "f", currentRoomName := "a"
    fightingEnemy := none
    levelCompletionState := LevelCompletionStateInProgress
    mode := Investigation
    validationDisabled := false
    minimapData := [("dl", { locked := none, hidden := true })] }

/-- C3 counterexample to the claim as stated: the door is latched with
locked_from equal to the player's current room, yet traverse does not succeed —
the door also carries a code lock, and the lock check fires first. -/
theorem traverse_latched_claim_counterexample :
    eD3c.currentRoomName = "a" ∧
    eD3c.level.GetDoor? "dl" = some dlLockedDoor ∧
    dlLockedDoor.latch = some { locked := true, lockedFrom := "a" } ∧
    (∀ e' v, eD3c.traverseInternal "dl" ≠ Out.ok e' v) ∧
    (∃ e', eD3c.traverseInternal "dl" =
      Out.err e' "the dl is locked, it requires a code") := by
  refine ⟨rfl, rfl, rfl, ?_, ⟨_, rfl⟩⟩
  intro e' v h
  obtain ⟨ex, he⟩ : ∃ ex, eD3c.traverseInternal "dl" =
      Out.err ex "the dl is locked, it requires a code" := ⟨_, rfl⟩
  rw [he] at h
  exact Out.noConfusion h

/-! The concealment well-formedness invariant for C9: every concealer that is
not yet uncovered holds a hidden item, recursively through containers,
concealers and fixtures. -/

mutual

def itemConcealOk : Item → Bool
  | .mk _ _ _ _ _ _ _ c cz _ _ fx =>
      optContainerOk c && optConcealerOk cz && optFixtureOk fx

def optContainerOk : Option Container → Bool
  | none => true
  | some (.mk contains _ _) => optItemOk contains

def optConcealerOk : Option Concealer → Bool
  | none => true
  | some (.mk hidden uncovered) => (uncovered || hidden.isSome) && optItemOk hidden

def optFixtureOk : Option Fixture → Bool
  | none => true
  | some (.mk _ produces) => optItemOk produces

def optItemOk : Option Item → Bool
  | none => true
  | some it => itemConcealOk it

end

def roomConcealOk (r : Room) : Bool := r.items.all itemConcealOk

def levelConcealOk (l : Level) : Bool :=
  l.floors.all (fun f => f.rooms.all roomConcealOk)

theorem levelConcealOk_floors_congr {l l2 : Level} (h : l2.floors = l.floors) :
    levelConcealOk l2 = levelConcealOk l := by
  unfold levelConcealOk
  rw [h]

theorem levelConcealOk_modifyRoom {l : Level} {fn rn : String} {f : Room → Room}
    (h : levelConcealOk l = true)
    (hf : ∀ r, roomConcealOk r = true → roomConcealOk (f r) = true) :
    levelConcealOk (l.modifyRoom fn rn f) = true := by
  unfold levelConcealOk Level.modifyRoom at *
  exact all_modifyFirstBy h (fun fl hfl => all_modifyFirstBy hfl hf)

theorem concealOk_currentRoom {e : Engine} {room : Room}
    (hc : levelConcealOk e.level = true) (h : e.currentRoom? = some room) :
    roomConcealOk room = true := by
  unfold Engine.currentRoom? Level.GetRoom? at h
  cases hfl : e.level.GetFloor? e.currentFloorName with
  | none => rw [hfl] at h; exact Option.noConfusion h
  | some f =>
      rw [hfl] at h
      simp only [] at h
      unfold Level.GetFloor? at hfl
      have hfm := List.mem_of_find?_eq_some hfl
      have hrm := List.mem_of_find?_eq_some h
      unfold levelConcealOk at hc
      rw [List.all_eq_true] at hc
      have h2 := hc f hfm
      rw [List.all_eq_true] at h2
      exact h2 room hrm

theorem concealOk_item {room : Room} {n : String} {it : Item}
    (hr : roomConcealOk room = true) (h : room.GetItem n = some it) :
    itemConcealOk it = true := by
  unfold roomConcealOk at hr
  rw [List.all_eq_true] at hr
  exact hr it (List.mem_of_find?_eq_some h)

theorem itemConcealOk_parts {it : Item} (h : itemConcealOk it = true) :
    optContainerOk it.container = true ∧ optConcealerOk it.concealer = true ∧
    optFixtureOk it.fixture = true := by
  cases it with
  | mk n d l dt p k w c cz ab hi fx =>
      simp only [itemConcealOk, Bool.and_eq_true] at h
      exact ⟨h.1.1, h.1.2, h.2⟩

theorem itemConcealOk_build {it : Item} {c : Option Container} {cz : Option Concealer}
    {fx : Option Fixture} (hc : optContainerOk c = true) (hz : optConcealerOk cz = true)
    (hx : optFixtureOk fx = true) :
    itemConcealOk (((it.setContainer c).setConcealer cz).setFixture fx) = true := by
  cases it with
  | mk n d l dt p k w c0 cz0 ab hi fx0 =>
      simp only [Item.setContainer, Item.setConcealer, Item.setFixture, itemConcealOk,
        Bool.and_eq_true]
      exact ⟨⟨hc, hz⟩, hx⟩

theorem setContainer_concealOk {it : Item} {c : Container}
    (h : itemConcealOk it = true) (hc : optItemOk c.contains = true) :
    itemConcealOk (it.setContainer (some c)) = true := by
  cases it with
  | mk n d l dt p k w c0 cz0 ab hi fx0 =>
      simp only [itemConcealOk, Bool.and_eq_true] at h
      cases c with
      | mk cc cs cl =>
          simp only [Container.contains] at hc
          simp only [Item.setContainer, itemConcealOk, optContainerOk, Bool.and_eq_true]
          exact ⟨⟨hc, h.1.2⟩, h.2⟩

theorem setConcealer_concealOk {it : Item} {cz : Option Concealer}
    (h : itemConcealOk it = true) (hz : optConcealerOk cz = true) :
    itemConcealOk (it.setConcealer cz) = true := by
  cases it with
  | mk n d l dt p k w c0 cz0 ab hi fx0 =>
      simp only [itemConcealOk, Bool.and_eq_true] at h
      simp only [Item.setConcealer, itemConcealOk, Bool.and_eq_true]
      exact ⟨⟨h.1.1, hz⟩, h.2⟩

theorem setFixture_concealOk {it : Item} {fx : Fixture}
    (h : itemConcealOk it = true) (hx : optItemOk fx.produces = true) :
    itemConcealOk (it.setFixture (some fx)) = true := by
  cases it with
  | mk n d l dt p k w c0 cz0 ab hi fx0 =>
      simp only [itemConcealOk, Bool.and_eq_true] at h
      cases fx with
      | mk fr fp =>
          simp only [Fixture.produces] at hx
          simp only [Item.setFixture, itemConcealOk, optFixtureOk, Bool.and_eq_true]
          exact ⟨h.1, hx⟩

theorem uncoverInternal_concealOk_err {e e' : Engine} {n : String} {m : String}
    (hc : levelConcealOk e.level = true) (h : e.uncoverInternal n = Out.err e' m) :
    levelConcealOk e'.level = true ∧ e' = e := by
  unfold Engine.uncoverInternal at h
  repeat' split at h
  all_goals try exact Out.noConfusion h
  all_goals cases h
  all_goals exact ⟨hc, rfl⟩

theorem uncoverInternal_concealOk_ok {e e' : Engine} {n : String} {v : uncoverResultInternal}
    (hc : levelConcealOk e.level = true) (h : e.uncoverInternal n = Out.ok e' v) :
    levelConcealOk e'.level = true := by
  unfold Engine.uncoverInternal at h
  cases hroom : e.currentRoom? with
  | none => rw [hroom] at h; exact Out.noConfusion h
  | some room =>
  rw [hroom] at h
  simp only [] at h
  cases hitem : room.GetItem n with
  | none => rw [hitem] at h; exact Out.noConfusion h
  | some citem =>
  rw [hitem] at h
  simp only [] at h
  cases hcz : citem.concealer with
  | none => rw [hcz] at h; exact Out.noConfusion h
  | some cz =>
  rw [hcz] at h
  simp only [] at h
  split at h
  · exact Out.noConfusion h
  · cases hrev : cz.Reveal.2 with
    | none => rw [hrev] at h; exact Out.noConfusion h
    | some revealed =>
    rw [hrev] at h
    simp only [] at h
    cases h
    have hritem := concealOk_item (concealOk_currentRoom hc hroom) hitem
    have hparts := itemConcealOk_parts hritem
    have hrevOk : itemConcealOk revealed = true := by
      have h2 := hparts.2.1
      rw [hcz] at h2
      cases cz with
      | mk hid unc =>
          simp only [optConcealerOk, Bool.and_eq_true] at h2
          simp only [Concealer.Reveal, Concealer.hidden] at hrev
          have h3 := h2.2
          rw [hrev] at h3
          simpa [optItemOk] using h3
    have hnewOk : itemConcealOk (citem.setConcealer (some cz.Reveal.1)) = true := by
      refine setConcealer_concealOk hritem ?_
      simp [Concealer.Reveal, optConcealerOk, optItemOk]
    have hf : ∀ r, roomConcealOk r = true →
        roomConcealOk { r with items := (setFirstItem n (citem.setConcealer (some cz.Reveal.1)) r.items ++ [revealed]) } = true := by
      intro r hr
      unfold roomConcealOk at *
      rw [List.all_append]
      simp only [Bool.and_eq_true]
      exact ⟨all_setFirstItem hr hnewOk, by simp [hrevOk]⟩
    exact levelConcealOk_modifyRoom hc hf

theorem levelConcealOk_same_floors {l l2 : Level} (h : l2.floors = l.floors)
    (hc : levelConcealOk l = true) : levelConcealOk l2 = true := by
  rw [levelConcealOk_floors_congr h]
  exact hc

theorem contains_setLocked (c : Container) (lk : Option Lock) :
    (c.setLocked lk).contains = c.contains := by cases c; rfl

theorem optContainerOk_some (c : Container) :
    optContainerOk (some c) = optItemOk c.contains := by cases c; rfl

theorem UnlockWithKey_contains {c c2 : Container} {k : String}
    (h : c.UnlockWithKey k = Except.ok c2) : c2.contains = c.contains := by
  unfold Container.UnlockWithKey at h
  repeat' split at h
  all_goals try exact Except.noConfusion h
  injection h with h2
  rw [← h2]
  exact contains_setLocked _ _

theorem UnlockWithCode_contains {c c2 : Container} {k : String}
    (h : c.UnlockWithCode k = Except.ok c2) : c2.contains = c.contains := by
  unfold Container.UnlockWithCode at h
  repeat' split at h
  all_goals try exact Except.noConfusion h
  injection h with h2
  rw [← h2]
  exact contains_setLocked _ _

theorem unlockInternal_concealOk_err {e e' : Engine} {k t m : String}
    (hc : levelConcealOk e.level = true) (h : e.unlockInternal k t = Out.err e' m) :
    levelConcealOk e'.level = true ∧ e' = e := by
  unfold Engine.unlockInternal at h
  try simp only [] at h
  repeat' split at h
  all_goals try exact Out.noConfusion h
  all_goals cases h
  all_goals exact ⟨hc, rfl⟩

theorem unlockInternal_concealOk_ok {e e' : Engine} {k t : String} {v : unlockResultInternal}
    (hc : levelConcealOk e.level = true) (h : e.unlockInternal k t = Out.ok e' v) :
    levelConcealOk e'.level = true := by
  unfold Engine.unlockInternal at h
  cases hroom : e.currentRoom? with
  | none => rw [hroom] at h; exact Out.noConfusion h
  | some room =>
  rw [hroom] at h
  simp only [] at h
  cases hitem : room.GetItem t with
  | some item =>
      rw [hitem] at h
      simp only [] at h
      cases hcon : item.container with
      | none => rw [hcon] at h; exact Out.noConfusion h
      | some c =>
      rw [hcon] at h
      simp only [] at h
      have hok : ∀ c2 : Container, c2.contains = c.contains →
          ∀ r, roomConcealOk r = true →
            roomConcealOk { r with items := setFirstItem t (item.setContainer (some c2)) r.items } = true := by
        intro c2 hc2 r hr
        have hitemOk := concealOk_item (concealOk_currentRoom hc hroom) hitem
        have hnew : itemConcealOk (item.setContainer (some c2)) = true := by
          refine setContainer_concealOk hitemOk ?_
          rw [hc2]
          have hp := (itemConcealOk_parts hitemOk).1
          rw [hcon, optContainerOk_some] at hp
          exact hp
        unfold roomConcealOk at *
        exact all_setFirstItem hr hnew
      split at h
      · split at h
        · exact Out.noConfusion h
        · next c2 hc2 =>
          cases h
          exact levelConcealOk_modifyRoom hc (hok c2 (UnlockWithCode_contains hc2))
      · split at h
        · exact Out.noConfusion h
        · split at h
          · exact Out.noConfusion h
          · next c2 hc2 =>
            cases h
            exact levelConcealOk_modifyRoom hc (hok c2 (UnlockWithKey_contains hc2))
  | none =>
      rw [hitem] at h
      simp only [] at h
      repeat' split at h
      all_goals try exact Out.noConfusion h
      all_goals cases h
      all_goals exact levelConcealOk_same_floors rfl hc

theorem Search_contains {c res1 : Container} {r2 : Option Item}
    (h : c.Search = Except.ok (res1, r2)) : res1.contains = c.contains := by
  unfold Container.Search at h
  repeat' split at h
  all_goals try exact Except.noConfusion h
  all_goals injection h with h2
  all_goals injection h2 with h3 h4
  all_goals rw [← h3]
  all_goals exact contains_setSearched _ _

theorem finishSearch_concealOk {e : Engine} {n : String} {containerItem : Item}
    {c : Container} {u : Bool}
    (hc : levelConcealOk e.level = true)
    (hitemOk : itemConcealOk containerItem = true)
    (hcon : containerItem.container = some c) :
    (∀ e' v, finishSearch e n containerItem c u = Out.ok e' v →
      levelConcealOk e'.level = true) ∧
    (∀ e' m, finishSearch e n containerItem c u = Out.err e' m →
      levelConcealOk e'.level = true ∧ e' = e) := by
  constructor
  · intro e' v h
    unfold finishSearch at h
    cases hs : c.Search with
    | error m => rw [hs] at h; exact Out.noConfusion h
    | ok res =>
        rw [hs] at h
        simp only [] at h
        cases h
        have hres1 : res.1.contains = c.contains := Search_contains (by
          rw [hs])
        have hnew : itemConcealOk (containerItem.setContainer (some res.1)) = true := by
          refine setContainer_concealOk hitemOk ?_
          rw [hres1]
          have hp := (itemConcealOk_parts hitemOk).1
          rw [hcon, optContainerOk_some] at hp
          exact hp
        have hf : ∀ r, roomConcealOk r = true →
            roomConcealOk { r with items := setFirstItem n (containerItem.setContainer (some res.1)) r.items } = true := by
          intro r hr
          unfold roomConcealOk at *
          exact all_setFirstItem hr hnew
        exact levelConcealOk_modifyRoom hc hf
  · intro e' m h
    unfold finishSearch at h
    repeat' split at h
    all_goals try exact Out.noConfusion h
    cases h
    exact ⟨hc, rfl⟩

theorem searchInternal_concealOk {e : Engine} {n : String}
    (hc : levelConcealOk e.level = true) :
    (∀ e' v, e.searchInternal n = Out.ok e' v → levelConcealOk e'.level = true) ∧
    (∀ e' m, e.searchInternal n = Out.err e' m → levelConcealOk e'.level = true) := by
  have main : ∀ o : Out searchResultInternal,
      (o = e.searchInternal n) →
      (∀ e' v, o = Out.ok e' v → levelConcealOk e'.level = true) ∧
      (∀ e' m, o = Out.err e' m → levelConcealOk e'.level = true) := by
    intro o ho
    unfold Engine.searchInternal at ho
    cases hroom : e.currentRoom? with
    | none =>
        rw [hroom] at ho
        subst ho
        exact ⟨fun e' v h => Out.noConfusion h, fun e' m h => Out.noConfusion h⟩
    | some room =>
    rw [hroom] at ho
    simp only [] at ho
    cases hitem : room.GetItem n with
    | none =>
        rw [hitem] at ho
        subst ho
        refine ⟨fun e' v h => Out.noConfusion h, fun e' m h => ?_⟩
        injection h with h2 h3
        rw [← h2]
        exact hc
    | some containerItem =>
    rw [hitem] at ho
    simp only [] at ho
    cases hcon : containerItem.container with
    | none =>
        rw [hcon] at ho
        subst ho
        refine ⟨fun e' v h => Out.noConfusion h, fun e' m h => ?_⟩
        injection h with h2 h3
        rw [← h2]
        exact hc
    | some c =>
    rw [hcon] at ho
    simp only [] at ho
    have hitemOk := concealOk_item (concealOk_currentRoom hc hroom) hitem
    split at ho
    · -- auto-unlock path
      cases hl : c.locked with
      | none =>
          rw [hl] at ho
          subst ho
          exact ⟨fun e' v h => Out.noConfusion h, fun e' m h => Out.noConfusion h⟩
      | some lk =>
      rw [hl] at ho
      simp only [] at ho
      cases hu : e.unlockInternal lk.keyName containerItem.name with
      | err e2 m2 =>
          rw [hu] at ho
          subst ho
          exact ⟨fun e' v h => Out.noConfusion h, fun e' m h => Out.noConfusion h⟩
      | halt =>
          rw [hu] at ho
          subst ho
          exact ⟨fun e' v h => Out.noConfusion h, fun e' m h => Out.noConfusion h⟩
      | ok e2 v2 =>
      rw [hu] at ho
      simp only [] at ho
      have hc2 := unlockInternal_concealOk_ok hc hu
      cases hroom2 : e2.currentRoom? with
      | none =>
          rw [hroom2] at ho
          subst ho
          exact ⟨fun e' v h => Out.noConfusion h, fun e' m h => Out.noConfusion h⟩
      | some room2 =>
      rw [hroom2] at ho
      simp only [] at ho
      cases hitem2 : room2.GetItem n with
      | none =>
          rw [hitem2] at ho
          subst ho
          exact ⟨fun e' v h => Out.noConfusion h, fun e' m h => Out.noConfusion h⟩
      | some ci2 =>
      rw [hitem2] at ho
      simp only [] at ho
      cases hcon2 : ci2.container with
      | none =>
          rw [hcon2] at ho
          subst ho
          exact ⟨fun e' v h => Out.noConfusion h, fun e' m h => Out.noConfusion h⟩
      | some cc2 =>
      rw [hcon2] at ho
      simp only [] at ho
      subst ho
      have hi2 := concealOk_item (concealOk_currentRoom hc2 hroom2) hitem2
      have hfs := @finishSearch_concealOk e2 n ci2 cc2 true hc2 hi2 hcon2
      exact ⟨fun e' v h => hfs.1 e' v h, fun e' m h => (hfs.2 e' m h).1⟩
    · subst ho
      have hfs := @finishSearch_concealOk e n containerItem c false hc hitemOk hcon
      exact ⟨fun e' v h => hfs.1 e' v h, fun e' m h => (hfs.2 e' m h).1⟩
  exact ⟨fun e' v h => (main _ h.symm).1 e' v rfl, fun e' m h => (main _ h.symm).2 e' m rfl⟩

theorem setContains_contains (c : Container) (x : Option Item) :
    (c.setContains x).contains = x := by cases c; rfl

theorem RemoveItem_contains {c : Container} {removed : Container × Item}
    (h : c.RemoveItem = Except.ok removed) : removed.1.contains = none := by
  unfold Container.RemoveItem at h
  split at h
  · exact Except.noConfusion h
  · injection h with h2
    rw [← h2]
    exact setContains_contains _ _

theorem findContainedIn_mem {n : String} {items : List Item} {p : Item × Item}
    (h : findContainedIn n items = some p) : p.1 ∈ items := by
  induction items with
  | nil => simp [findContainedIn] at h
  | cons it rest ih =>
      unfold findContainedIn at h
      repeat' split at h
      all_goals try exact List.mem_cons_of_mem _ (ih h)
      injection h with h2
      rw [← h2]
      exact List.mem_cons_self _ _

theorem takeInternal_concealOk {e : Engine} {n : String}
    (hc : levelConcealOk e.level = true) :
    (∀ e' v, e.takeInternal n = Out.ok e' v → levelConcealOk e'.level = true) ∧
    (∀ e' m, e.takeInternal n = Out.err e' m → levelConcealOk e'.level = true) := by
  have main : ∀ o : Out takeResultInternal,
      (o = e.takeInternal n) →
      (∀ e' v, o = Out.ok e' v → levelConcealOk e'.level = true) ∧
      (∀ e' m, o = Out.err e' m → levelConcealOk e'.level = true) := by
    intro o ho
    unfold Engine.takeInternal at ho
    cases hroom : e.currentRoom? with
    | none =>
        rw [hroom] at ho
        subst ho
        exact ⟨fun e' v h => Out.noConfusion h, fun e' m h => Out.noConfusion h⟩
    | some room =>
    rw [hroom] at ho
    simp only [] at ho
    cases hitem : room.GetItem n with
    | some item =>
        rw [hitem] at ho
        simp only [] at ho
        split at ho
        · -- concealer redirect
          cases hu : e.uncoverInternal n with
          | err e2 m2 =>
              rw [hu] at ho
              subst ho
              refine ⟨fun e' v h => Out.noConfusion h, fun e' m h => ?_⟩
              injection h with h2 h3
              rw [← h2]
              exact (uncoverInternal_concealOk_err hc hu).1
          | halt =>
              rw [hu] at ho
              subst ho
              exact ⟨fun e' v h => Out.noConfusion h, fun e' m h => Out.noConfusion h⟩
          | ok e2 r =>
              rw [hu] at ho
              subst ho
              refine ⟨fun e' v h => ?_, fun e' m h => Out.noConfusion h⟩
              injection h with h2 h3
              rw [← h2]
              exact uncoverInternal_concealOk_ok hc hu
        · split at ho
          · subst ho
            refine ⟨fun e' v h => Out.noConfusion h, fun e' m h => ?_⟩
            injection h with h2 h3
            rw [← h2]
            exact hc
          · cases hat : handleAmmoTransfer e.player item with
            | none =>
                rw [hat] at ho
                subst ho
                exact ⟨fun e' v h => Out.noConfusion h, fun e' m h => Out.noConfusion h⟩
            | some pr =>
            rw [hat] at ho
            simp only [] at ho
            have hrm : ∀ p2 : Player, levelConcealOk
                ((({ e with player := p2 } : Engine).modifyCurrentRoom
                  (fun r => { r with items := removeFirstItem pr.2.1.name r.items })).level) = true := by
              intro p2
              have hf : ∀ r, roomConcealOk r = true →
                  roomConcealOk { r with items := removeFirstItem pr.2.1.name r.items } = true := by
                intro r hr
                unfold roomConcealOk at *
                exact all_removeFirstItem hr
              exact levelConcealOk_modifyRoom hc hf
            obtain ⟨p2, item2, handled⟩ := pr
            split at ho
            · subst ho
              refine ⟨fun e' v h => ?_, fun e' m h => Out.noConfusion h⟩
              injection h with h2 h3
              rw [← h2]
              exact hrm p2
            · subst ho
              refine ⟨fun e' v h => ?_, fun e' m h => Out.noConfusion h⟩
              injection h with h2 h3
              rw [← h2]
              exact hrm p2
    | none =>
        rw [hitem] at ho
        simp only [] at ho
        cases hfc : findContainedIn n room.items with
        | none =>
            rw [hfc] at ho
            subst ho
            refine ⟨fun e' v h => Out.noConfusion h, fun e' m h => ?_⟩
            injection h with h2 h3
            rw [← h2]
            exact hc
        | some found =>
        rw [hfc] at ho
        simp only [] at ho
        split at ho
        · subst ho
          refine ⟨fun e' v h => Out.noConfusion h, fun e' m h => ?_⟩
          injection h with h2 h3
          rw [← h2]
          exact hc
        · cases hcon : found.1.container with
          | none =>
              rw [hcon] at ho
              subst ho
              exact ⟨fun e' v h => Out.noConfusion h, fun e' m h => Out.noConfusion h⟩
          | some c =>
          rw [hcon] at ho
          simp only [] at ho
          cases hrem : c.RemoveItem with
          | error m2 =>
              rw [hrem] at ho
              subst ho
              refine ⟨fun e' v h => Out.noConfusion h, fun e' m h => ?_⟩
              injection h with h2 h3
              rw [← h2]
              exact hc
          | ok removed =>
          rw [hrem] at ho
          simp only [] at ho
          have hcontOk : itemConcealOk found.1 = true := by
            have hr := concealOk_currentRoom hc hroom
            unfold roomConcealOk at hr
            rw [List.all_eq_true] at hr
            exact hr found.1 (findContainedIn_mem hfc)
          have hnew : itemConcealOk (found.1.setContainer (some removed.1)) = true := by
            refine setContainer_concealOk hcontOk ?_
            rw [RemoveItem_contains hrem]
            rfl
          have he2 : levelConcealOk
              ((e.modifyCurrentRoom (fun r =>
                { r with items := setFirstItem found.1.name (found.1.setContainer (some removed.1)) r.items })).level) = true := by
            have hf : ∀ r, roomConcealOk r = true →
                roomConcealOk { r with items := setFirstItem found.1.name (found.1.setContainer (some removed.1)) r.items } = true := by
              intro r hr
              unfold roomConcealOk at *
              exact all_setFirstItem hr hnew
            exact levelConcealOk_modifyRoom hc hf
          cases hat : handleAmmoTransfer (e.modifyCurrentRoom (fun r =>
              { r with items := setFirstItem found.1.name (found.1.setContainer (some removed.1)) r.items })).player removed.2 with
          | none =>
              rw [hat] at ho
              subst ho
              exact ⟨fun e' v h => Out.noConfusion h, fun e' m h => Out.noConfusion h⟩
          | some pr2 =>
          rw [hat] at ho
          simp only [] at ho
          obtain ⟨p2, removed2, handled⟩ := pr2
          split at ho
          · subst ho
            refine ⟨fun e' v h => ?_, fun e' m h => Out.noConfusion h⟩
            injection h with h2 h3
            rw [← h2]
            exact he2
          · subst ho
            refine ⟨fun e' v h => ?_, fun e' m h => Out.noConfusion h⟩
            injection h with h2 h3
            rw [← h2]
            exact he2
  exact ⟨fun e' v h => (main _ h.symm).1 e' v rfl, fun e' m h => (main _ h.symm).2 e' m rfl⟩

theorem inspectInternal_engine {e e' : Engine} {n : String} :
    (∀ v, e.inspectInternal n = Out.ok e' v → e' = e) ∧
    (∀ m, e.inspectInternal n = Out.err e' m → e' = e) := by
  constructor
  all_goals intro x h
  all_goals unfold Engine.inspectInternal at h
  all_goals repeat' split at h
  all_goals try exact Out.noConfusion h
  all_goals cases h
  all_goals rfl

theorem observeInternal_concealOk {e e' : Engine} {v : observeResultInternal}
    (hc : levelConcealOk e.level = true) (h : e.observeInternal = Out.ok e' v) :
    levelConcealOk e'.level = true := by
  unfold Engine.observeInternal at h
  repeat' split at h
  all_goals try exact Out.noConfusion h
  all_goals simp only [] at h
  all_goals cases h
  all_goals exact levelConcealOk_modifyRoom hc (fun r hr => hr)

theorem healInternal_level {e e' : Engine} {n : String} :
    (∀ v, e.healInternal n = Out.ok e' v → e'.level = e.level) ∧
    (∀ m, e.healInternal n = Out.err e' m → e' = e) := by
  constructor
  all_goals intro x h
  all_goals unfold Engine.healInternal at h
  all_goals try simp only [] at h
  all_goals repeat' split at h
  all_goals try exact Out.noConfusion h
  all_goals cases h
  all_goals rfl

theorem combineInternal_level {e e' : Engine} {a b : String} :
    (∀ v, e.combineInternal a b = Out.ok e' v → e'.level = e.level) ∧
    (∀ m, e.combineInternal a b = Out.err e' m → e' = e) := by
  constructor
  all_goals intro x h
  all_goals unfold Engine.combineInternal at h
  all_goals repeat' split at h
  all_goals try exact Out.noConfusion h
  all_goals cases h
  all_goals rfl

theorem produces_setRequiredItems (f : Fixture) (r : List (String × Bool)) :
    (f.setRequiredItems r).produces = f.produces := by cases f; rfl

theorem UseItem_produces {f : Fixture} {i : String} {used : Fixture × Option Item}
    (h : f.UseItem i = Except.ok used) : used.1.produces = f.produces := by
  unfold Fixture.UseItem at h
  try simp only [] at h
  repeat' split at h
  all_goals try exact Except.noConfusion h
  all_goals injection h with h2
  all_goals rw [← h2]
  all_goals exact produces_setRequiredItems _ _

theorem battleInternal_concealOk {e : Engine} {w : String} {r : ℚ}
    (hc : levelConcealOk e.level = true) :
    (∀ e' v, e.battleInternal w r = Out.ok e' v → levelConcealOk e'.level = true) ∧
    (∀ e' m, e.battleInternal w r = Out.err e' m → levelConcealOk e'.level = true) := by
  constructor
  all_goals intro e' x h
  all_goals unfold Engine.battleInternal Engine.battleRound at h
  all_goals try simp only [] at h
  all_goals repeat' split at h
  all_goals try exact Out.noConfusion h
  all_goals cases h
  all_goals exact levelConcealOk_same_floors rfl hc

theorem markReveal_floors {e2 e4 : Engine} {d : Door}
    (h : Engine.traverseMarkAndReveal e2 d = some e4) :
    e4.level.floors = e2.level.floors := by
  unfold Engine.traverseMarkAndReveal at h
  split at h
  · split at h
    · exact Option.noConfusion h
    · next ex hex =>
      injection h with h2
      subst h2
      have hexl : ex.level =
          (e2.level.modifyDoor d.name (fun dx => { dx with traversed := true })) := by
        unfold Engine.updateMinimapDataForCurrenRoom at hex
        repeat' split at hex
        all_goals try exact Option.noConfusion hex
        injection hex with h3
        subst h3
        rfl
      show ex.level.floors = e2.level.floors
      rw [hexl]
      rfl
  · injection h with h2
    subst h2
    rfl

theorem latchStep_floors {e e1 : Engine} {d0 d1 : Door} {b : Bool}
    (h : e.traverseLatchStep d0 = Except.ok (e1, d1, b)) :
    e1.level.floors = e.level.floors := by
  unfold Engine.traverseLatchStep at h
  repeat' split at h
  all_goals try exact Except.noConfusion h
  all_goals injection h with h2
  all_goals injection h2 with h3 h4
  all_goals rw [← h3]
  all_goals rfl

theorem traverseAfterLocks_concealOk {e : Engine} {door0 : Door} {u : Bool}
    (hc : levelConcealOk e.level = true) :
    (∀ e' v, e.traverseAfterLocks door0 u = Out.ok e' v → levelConcealOk e'.level = true) ∧
    (∀ e' m, e.traverseAfterLocks door0 u = Out.err e' m → levelConcealOk e'.level = true) := by
  have main : ∀ o : Out traverseResultInternal,
      (o = e.traverseAfterLocks door0 u) →
      (∀ e' v, o = Out.ok e' v → levelConcealOk e'.level = true) ∧
      (∀ e' m, o = Out.err e' m → levelConcealOk e'.level = true) := by
    intro o ho
    unfold Engine.traverseAfterLocks at ho
    cases hls : e.traverseLatchStep door0 with
    | error msg =>
        rw [hls] at ho
        subst ho
        refine ⟨fun e' v h => Out.noConfusion h, fun e' m h => ?_⟩
        injection h with h2 h3
        rw [← h2]
        exact hc
    | ok trip =>
    rw [hls] at ho
    simp only [] at ho
    obtain ⟨e1, door1, unlatched⟩ := trip
    have hc1 : levelConcealOk e1.level = true :=
      levelConcealOk_same_floors (latchStep_floors hls) hc
    cases hdf : (if door1.stairwell then
        e1.level.floors.find? (fun fl => fl.rooms.any (fun r =>
          r.name == (if door1.roomA = e1.currentRoomName then door1.roomB else door1.roomA)))
      else e1.level.GetFloor? e1.currentFloorName) with
    | none =>
        rw [hdf] at ho
        subst ho
        exact ⟨fun e' v h => Out.noConfusion h, fun e' m h => Out.noConfusion h⟩
    | some destFloor =>
    rw [hdf] at ho
    simp only [] at ho
    cases hdr : e1.level.GetRoom? destFloor.name
        (if door1.roomA = e1.currentRoomName then door1.roomB else door1.roomA) with
    | none =>
        rw [hdr] at ho
        subst ho
        exact ⟨fun e' v h => Out.noConfusion h, fun e' m h => Out.noConfusion h⟩
    | some destRoom =>
    rw [hdr] at ho
    simp only [] at ho
    cases hmr : Engine.traverseMarkAndReveal
        { e1 with
          currentRoomName := (if door1.roomA = e1.currentRoomName then door1.roomB else door1.roomA)
          currentFloorName := destFloor.name } door1 with
    | none =>
        rw [hmr] at ho
        subst ho
        exact ⟨fun e' v h => Out.noConfusion h, fun e' m h => Out.noConfusion h⟩
    | some e4 =>
    rw [hmr] at ho
    simp only [] at ho
    have hc4 : levelConcealOk e4.level = true :=
      levelConcealOk_same_floors (markReveal_floors hmr) hc1
    cases hob : e4.observeInternal with
    | halt =>
        rw [hob] at ho
        subst ho
        exact ⟨fun e' v h => Out.noConfusion h, fun e' m h => Out.noConfusion h⟩
    | err e5 msg =>
        rw [hob] at ho
        subst ho
        exact absurd hob (observeInternal_ne_err _ _ _)
    | ok e5 obs =>
        rw [hob] at ho
        subst ho
        refine ⟨fun e' v h => ?_, fun e' m h => Out.noConfusion h⟩
        injection h with h2 h3
        rw [← h2]
        exact observeInternal_concealOk hc4 hob
  exact ⟨fun e' v h => (main _ h.symm).1 e' v rfl, fun e' m h => (main _ h.symm).2 e' m rfl⟩

theorem useInternal_concealOk {e : Engine} {i t : String}
    (hc : levelConcealOk e.level = true) :
    (∀ e' v, e.useInternal i t = Out.ok e' v → levelConcealOk e'.level = true) ∧
    (∀ e' m, e.useInternal i t = Out.err e' m → levelConcealOk e'.level = true) := by
  have main : ∀ o : Out useResultInternal,
      (o = e.useInternal i t) →
      (∀ e' v, o = Out.ok e' v → levelConcealOk e'.level = true) ∧
      (∀ e' m, o = Out.err e' m → levelConcealOk e'.level = true) := by
    intro o ho
    unfold Engine.useInternal at ho
    cases hgi : e.player.GetItem i with
    | none =>
        rw [hgi] at ho
        subst ho
        refine ⟨fun e' v h => Out.noConfusion h, fun e' m h => ?_⟩
        injection h with h2 h3
        rw [← h2]
        exact hc
    | some used0 =>
    rw [hgi] at ho
    simp only [] at ho
    cases hroom : e.currentRoom? with
    | none =>
        rw [hroom] at ho
        subst ho
        exact ⟨fun e' v h => Out.noConfusion h, fun e' m h => Out.noConfusion h⟩
    | some room =>
    rw [hroom] at ho
    simp only [] at ho
    cases hti : room.GetItem t with
    | none =>
        rw [hti] at ho
        subst ho
        refine ⟨fun e' v h => Out.noConfusion h, fun e' m h => ?_⟩
        injection h with h2 h3
        rw [← h2]
        exact hc
    | some tf =>
    rw [hti] at ho
    simp only [] at ho
    cases hfx : tf.fixture with
    | none =>
        rw [hfx] at ho
        subst ho
        refine ⟨fun e' v h => Out.noConfusion h, fun e' m h => ?_⟩
        injection h with h2 h3
        rw [← h2]
        exact hc
    | some fx =>
    rw [hfx] at ho
    simp only [] at ho
    cases hui : fx.UseItem i with
    | error msg =>
        rw [hui] at ho
        subst ho
        refine ⟨fun e' v h => Out.noConfusion h, fun e' m h => ?_⟩
        injection h with h2 h3
        rw [← h2]
        exact hc
    | ok used =>
    rw [hui] at ho
    simp only [] at ho
    have htfOk := concealOk_item (concealOk_currentRoom hc hroom) hti
    have hnew : itemConcealOk (tf.setFixture (some used.1)) = true := by
      refine setFixture_concealOk htfOk ?_
      rw [UseItem_produces hui]
      have hp := (itemConcealOk_parts htfOk).2.2
      rw [hfx] at hp
      cases fx with
      | mk fr fp => simpa [optFixtureOk, Fixture.produces] using hp
    have he2 : levelConcealOk
        ((e.modifyCurrentRoom (fun rm =>
          { rm with items := setFirstItem t (tf.setFixture (some used.1)) rm.items })).level) = true := by
      have hf : ∀ r, roomConcealOk r = true →
          roomConcealOk { r with items := setFirstItem t (tf.setFixture (some used.1)) r.items } = true := by
        intro r hr
        unfold roomConcealOk at *
        exact all_setFirstItem hr hnew
      exact levelConcealOk_modifyRoom hc hf
    cases hu2 : used.2 with
    | some prod =>
        rw [hu2] at ho
        subst ho
        refine ⟨fun e' v h => ?_, fun e' m h => Out.noConfusion h⟩
        injection h with h2 h3
        rw [← h2]
        exact he2
    | none =>
        rw [hu2] at ho
        subst ho
        refine ⟨fun e' v h => ?_, fun e' m h => Out.noConfusion h⟩
        injection h with h2 h3
        rw [← h2]
        exact he2
  exact ⟨fun e' v h => (main _ h.symm).1 e' v rfl, fun e' m h => (main _ h.symm).2 e' m rfl⟩

theorem traverseInternal_concealOk {e : Engine} {dest : String}
    (hc : levelConcealOk e.level = true) :
    (∀ e' v, e.traverseInternal dest = Out.ok e' v → levelConcealOk e'.level = true) ∧
    (∀ e' m, e.traverseInternal dest = Out.err e' m → levelConcealOk e'.level = true) := by
  have main : ∀ o : Out traverseResultInternal,
      (o = e.traverseInternal dest) →
      (∀ e' v, o = Out.ok e' v → levelConcealOk e'.level = true) ∧
      (∀ e' m, o = Out.err e' m → levelConcealOk e'.level = true) := by
    intro o ho
    unfold Engine.traverseInternal at ho
    cases hroom : e.currentRoom? with
    | none =>
        rw [hroom] at ho
        subst ho
        exact ⟨fun e' v h => Out.noConfusion h, fun e' m h => Out.noConfusion h⟩
    | some room =>
    rw [hroom] at ho
    simp only [] at ho
    cases hfd : (match e.findDoorByName room dest with
        | .ok d => Except.ok d
        | .error _ =>
            match e.findDoorByLocation room dest with
            | .ok d => Except.ok d
            | .error _ => Except.error
                ("no door named " ++ dest ++ " or no door to the " ++ dest)) with
    | error msg =>
        rw [hfd] at ho
        subst ho
        refine ⟨fun e' v h => Out.noConfusion h, fun e' m h => ?_⟩
        injection h with h2 h3
        rw [← h2]
        exact hc
    | ok od =>
    rw [hfd] at ho
    try simp only [] at ho
    cases od with
    | none =>
        subst ho
        exact ⟨fun e' v h => Out.noConfusion h, fun e' m h => Out.noConfusion h⟩
    | some door0 =>
    try simp only [] at ho
    have hc1 : levelConcealOk
        (({ e with level := e.level.modifyDoor door0.name (fun d => { d with tried := true }) } : Engine).level) = true :=
      levelConcealOk_same_floors rfl hc
    split at ho
    · -- locked
      have hc2 : levelConcealOk
          ((({ e with level := e.level.modifyDoor door0.name (fun d => { d with tried := true }) } : Engine).updateMinimapForDoor door0.name true).level) = true :=
        levelConcealOk_same_floors rfl hc
      split at ho
      · -- key lock
        cases hlk : ({ door0 with tried := true } : Door).lock with
        | none =>
            rw [hlk] at ho
            subst ho
            exact ⟨fun e' v h => Out.noConfusion h, fun e' m h => Out.noConfusion h⟩
        | some lk =>
        rw [hlk] at ho
        simp only [] at ho
        split at ho
        · cases hu : (({ e with level := e.level.modifyDoor door0.name (fun d => { d with tried := true }) } : Engine).updateMinimapForDoor door0.name true).unlockInternal lk.keyName door0.name with
          | err e2 m2 =>
              rw [hu] at ho
              subst ho
              exact ⟨fun e' v h => Out.noConfusion h, fun e' m h => Out.noConfusion h⟩
          | halt =>
              rw [hu] at ho
              subst ho
              exact ⟨fun e' v h => Out.noConfusion h, fun e' m h => Out.noConfusion h⟩
          | ok e3 v3 =>
          rw [hu] at ho
          simp only [] at ho
          have hc3 : levelConcealOk e3.level = true :=
            unlockInternal_concealOk_ok hc2 hu
          cases hgd : e3.level.GetDoor? door0.name with
          | none =>
              rw [hgd] at ho
              subst ho
              exact ⟨fun e' v h => Out.noConfusion h, fun e' m h => Out.noConfusion h⟩
          | some door2 =>
          rw [hgd] at ho
          simp only [] at ho
          split at ho
          · subst ho
            refine ⟨fun e' v h => Out.noConfusion h, fun e' m h => ?_⟩
            injection h with h2 h3
            rw [← h2]
            exact hc3
          · subst ho
            have hal := @traverseAfterLocks_concealOk _ door2 true hc3
            exact ⟨fun e' v h => hal.1 e' v h, fun e' m h => hal.2 e' m h⟩
        · subst ho
          refine ⟨fun e' v h => Out.noConfusion h, fun e' m h => ?_⟩
          injection h with h2 h3
          rw [← h2]
          exact hc2
      · split at ho
        · subst ho
          refine ⟨fun e' v h => Out.noConfusion h, fun e' m h => ?_⟩
          injection h with h2 h3
          rw [← h2]
          exact hc2
        · subst ho
          have hal := @traverseAfterLocks_concealOk _ { door0 with tried := true } false hc2
          exact ⟨fun e' v h => hal.1 e' v h, fun e' m h => hal.2 e' m h⟩
    · subst ho
      have hal := @traverseAfterLocks_concealOk _ { door0 with tried := true } false hc1
      exact ⟨fun e' v h => hal.1 e' v h, fun e' m h => hal.2 e' m h⟩
  exact ⟨fun e' v h => (main _ h.symm).1 e' v rfl, fun e' m h => (main _ h.symm).2 e' m rfl⟩

/-- Any verb step preserves the concealment invariant of the level. -/
theorem step_concealOk {e e' : Engine} (h : Step e e')
    (hc : levelConcealOk e.level = true) : levelConcealOk e'.level = true := by
  obtain ⟨v, hv⟩ := h
  cases v with
  | observe =>
      rcases hv with h | ⟨m, h⟩
      · obtain ⟨v2, hb⟩ := toVOut_ok h
        unfold Engine.Observe at hb
        split at hb
        · split at hb
          · exact Out.noConfusion hb
          · exact Out.noConfusion hb
          · exact observeInternal_concealOk hc hb
        · exact observeInternal_concealOk hc hb
      · have hb := toVOut_err h
        unfold Engine.Observe at hb
        split at hb
        · split at hb
          · exact Out.noConfusion hb
          · cases hb; exact hc
          · exact absurd hb (observeInternal_ne_err _ _ _)
        · exact absurd hb (observeInternal_ne_err _ _ _)
  | inspect n =>
      rcases hv with h | ⟨m, h⟩
      · obtain ⟨v2, hb⟩ := toVOut_ok h
        unfold Engine.Inspect at hb
        split at hb
        · exact Out.noConfusion hb
        · exact Out.noConfusion hb
        · rw [inspectInternal_engine.1 _ hb]; exact hc
      · have hb := toVOut_err h
        unfold Engine.Inspect at hb
        split at hb
        · exact Out.noConfusion hb
        · cases hb; exact hc
        · rw [inspectInternal_engine.2 _ hb]; exact hc
  | uncover n =>
      rcases hv with h | ⟨m, h⟩
      · obtain ⟨v2, hb⟩ := toVOut_ok h
        unfold Engine.Uncover at hb
        split at hb
        · exact Out.noConfusion hb
        · exact Out.noConfusion hb
        · exact uncoverInternal_concealOk_ok hc hb
      · have hb := toVOut_err h
        unfold Engine.Uncover at hb
        split at hb
        · exact Out.noConfusion hb
        · cases hb; exact hc
        · exact (uncoverInternal_concealOk_err hc hb).1
  | unlock k t =>
      rcases hv with h | ⟨m, h⟩
      · obtain ⟨v2, hb⟩ := toVOut_ok h
        unfold Engine.Unlock at hb
        split at hb
        · exact Out.noConfusion hb
        · exact Out.noConfusion hb
        · exact unlockInternal_concealOk_ok hc hb
      · have hb := toVOut_err h
        unfold Engine.Unlock at hb
        split at hb
        · exact Out.noConfusion hb
        · cases hb; exact hc
        · exact (unlockInternal_concealOk_err hc hb).1
  | search n =>
      rcases hv with h | ⟨m, h⟩
      · obtain ⟨v2, hb⟩ := toVOut_ok h
        unfold Engine.Search at hb
        split at hb
        · exact Out.noConfusion hb
        · exact Out.noConfusion hb
        · exact (searchInternal_concealOk hc).1 _ _ hb
      · have hb := toVOut_err h
        unfold Engine.Search at hb
        split at hb
        · exact Out.noConfusion hb
        · cases hb; exact hc
        · exact (searchInternal_concealOk hc).2 _ _ hb
  | take n =>
      rcases hv with h | ⟨m, h⟩
      · obtain ⟨v2, hb⟩ := toVOut_ok h
        unfold Engine.Take at hb
        split at hb
        · exact Out.noConfusion hb
        · exact Out.noConfusion hb
        · split at hb
          · exact Out.noConfusion hb
          · exact Out.noConfusion hb
          · next e2 tr hti =>
            split at hb
            · exact Out.noConfusion hb
            · next res hev =>
              cases hb
              rw [(handleEvent_props hev).2.1]
              exact (takeInternal_concealOk hc).1 _ _ hti
      · have hb := toVOut_err h
        unfold Engine.Take at hb
        split at hb
        · exact Out.noConfusion hb
        · cases hb; exact hc
        · split at hb
          · exact Out.noConfusion hb
          · next e2 m2 hti =>
            cases hb
            exact (takeInternal_concealOk hc).2 _ _ hti
          · split at hb
            · exact Out.noConfusion hb
            · exact Out.noConfusion hb
  | inventory =>
      rcases hv with h | ⟨m, h⟩
      · obtain ⟨v2, hb⟩ := toVOut_ok h
        unfold Engine.Inventory at hb
        split at hb
        · split at hb
          · exact Out.noConfusion hb
          · exact Out.noConfusion hb
          · unfold Engine.inventoryInternal at hb
            cases hb
            exact hc
        · unfold Engine.inventoryInternal at hb
          cases hb
          exact hc
      · have hb := toVOut_err h
        unfold Engine.Inventory at hb
        split at hb
        · split at hb
          · exact Out.noConfusion hb
          · cases hb; exact hc
          · simp [Engine.inventoryInternal] at hb
        · simp [Engine.inventoryInternal] at hb
  | heal n =>
      rcases hv with h | ⟨m, h⟩
      · obtain ⟨v2, hb⟩ := toVOut_ok h
        unfold Engine.Heal at hb
        split at hb
        · exact Out.noConfusion hb
        · exact Out.noConfusion hb
        · rw [healInternal_level.1 _ hb]; exact hc
      · have hb := toVOut_err h
        unfold Engine.Heal at hb
        split at hb
        · exact Out.noConfusion hb
        · cases hb; exact hc
        · rw [healInternal_level.2 _ hb]; exact hc
  | traverse d =>
      rcases hv with h | ⟨m, h⟩
      · obtain ⟨v2, hb⟩ := toVOut_ok h
        unfold Engine.Traverse at hb
        split at hb
        · exact Out.noConfusion hb
        · exact Out.noConfusion hb
        · split at hb
          · exact Out.noConfusion hb
          · exact Out.noConfusion hb
          · next e2 tr hti =>
            split at hb
            · exact Out.noConfusion hb
            · next res hev =>
              cases hb
              rw [(handleEvent_props hev).2.1]
              exact (traverseInternal_concealOk hc).1 _ _ hti
      · have hb := toVOut_err h
        unfold Engine.Traverse at hb
        split at hb
        · exact Out.noConfusion hb
        · cases hb; exact hc
        · split at hb
          · exact Out.noConfusion hb
          · next e2 m2 hti =>
            cases hb
            exact (traverseInternal_concealOk hc).2 _ _ hti
          · split at hb
            · exact Out.noConfusion hb
            · exact Out.noConfusion hb
  | battle w r =>
      rcases hv with h | ⟨m, h⟩
      · obtain ⟨v2, hb⟩ := toVOut_ok h
        unfold Engine.Battle at hb
        split at hb
        · exact Out.noConfusion hb
        · exact Out.noConfusion hb
        · split at hb
          · exact Out.noConfusion hb
          · exact Out.noConfusion hb
          · next e2 br hbi =>
            have hc2 := (battleInternal_concealOk hc).1 _ _ hbi
            split at hb
            · exact Out.noConfusion hb
            · next e3 note1 hif =>
              have hc3 : levelConcealOk e3.level = true := by
                split at hif
                · rw [(handleEvent_props hif).2.1]
                  exact hc2
                · cases hif
                  exact hc2
              split at hb
              · split at hb
                · exact Out.noConfusion hb
                · next e4 note2 hpk =>
                  cases hb
                  rw [(handleEvent_props hpk).2.1]
                  exact hc3
              · cases hb
                exact hc3
      · have hb := toVOut_err h
        unfold Engine.Battle at hb
        split at hb
        · exact Out.noConfusion hb
        · cases hb; exact hc
        · split at hb
          · exact Out.noConfusion hb
          · next e2 m2 hbi =>
            cases hb
            exact (battleInternal_concealOk hc).2 _ _ hbi
          · split at hb
            · exact Out.noConfusion hb
            · split at hb
              · split at hb
                · exact Out.noConfusion hb
                · exact Out.noConfusion hb
              · exact Out.noConfusion hb
  | combine a b =>
      rcases hv with h | ⟨m, h⟩
      · obtain ⟨v2, hb⟩ := toVOut_ok h
        unfold Engine.Combine at hb
        split at hb
        · exact Out.noConfusion hb
        · exact Out.noConfusion hb
        · rw [combineInternal_level.1 _ hb]; exact hc
      · have hb := toVOut_err h
        unfold Engine.Combine at hb
        split at hb
        · exact Out.noConfusion hb
        · cases hb; exact hc
        · rw [combineInternal_level.2 _ hb]; exact hc
  | use i t =>
      rcases hv with h | ⟨m, h⟩
      · obtain ⟨v2, hb⟩ := toVOut_ok h
        unfold Engine.Use at hb
        split at hb
        · exact Out.noConfusion hb
        · exact Out.noConfusion hb
        · exact (useInternal_concealOk hc).1 _ _ hb
      · have hb := toVOut_err h
        unfold Engine.Use at hb
        split at hb
        · exact Out.noConfusion hb
        · cases hb; exact hc
        · exact (useInternal_concealOk hc).2 _ _ hb
  | minimap =>
      rcases hv with h | ⟨m, h⟩
      · obtain ⟨v2, hb⟩ := toVOut_ok h
        unfold Engine.Minimap at hb
        split at hb
        · split at hb
          · exact Out.noConfusion hb
          · exact Out.noConfusion hb
          · unfold Engine.minimapInternal at hb
            split at hb
            · exact Out.noConfusion hb
            · cases hb; exact hc
        · unfold Engine.minimapInternal at hb
          split at hb
          · exact Out.noConfusion hb
          · cases hb; exact hc
      · have hb := toVOut_err h
        unfold Engine.Minimap at hb
        split at hb
        · split at hb
          · exact Out.noConfusion hb
          · cases hb; exact hc
          · unfold Engine.minimapInternal at hb
            split at hb
            · exact Out.noConfusion hb
            · exact Out.noConfusion hb
        · unfold Engine.minimapInternal at hb
          split at hb
          · exact Out.noConfusion hb
          · exact Out.noConfusion hb

/-! The loader's item documents and createItem (part_001): recursive creation
of an item with its nested contained, concealed and produced items. -/

mutual

inductive ItemData : Type where
  | mk (name description location detail : String)
       (portable key : Bool)
       (weaponDamage : ℚ) (ammo : Int) (weaponName : String)
       (healthEffect : String) (code : String)
       (conceals : Option ItemData)
       (contains : Option ContainerContents)
       (fixture : Option FixtureData) : ItemData

inductive ContainerContents : Type where
  | mk (item : Option ItemData) (empty : Bool) : ContainerContents

inductive FixtureData : Type where
  | mk (requiredItems : List String) (produces : Option ItemData) : FixtureData

end

mutual

/-- loader.createItem: builds the capabilities from the document fields, then
validates the initial state. A concealer is built only from a conceals
document, with the recursively created item as its hidden item. -/
def createItem : ItemData → Except String Item
  | .mk name desc loc det portable key wd am wn he code conceals contains fixture =>
      match createContains contains with
      | .error m => .error m
      | .ok cont =>
          match createConceals conceals with
          | .error m => .error m
          | .ok cz =>
              match createFixture fixture with
              | .error m => .error m
              | .ok fx =>
                  let isW : Bool := wd > 0
                  let isH : Bool := he ≠ ""
                  let isAB : Bool := wn ≠ "" && am > 0
                  let it : Item := .mk name desc loc det
                    (portable || key || isW || isH || isAB) key
                    (if isW then
                       some { damage := wd,
                              ammo := (if am > 0 then some { quantity := am } else none) }
                     else none)
                    (match cont with
                     | none => none
                     | some contents => some (.mk contents false
                         (if code ≠ "" then some { locked := true, keyName := "", code := code } else none)))
                    cz
                    (if isAB then some { weaponName := wn, ammo := some { quantity := am } } else none)
                    (if isH then
                       some { healthEffect := (if he = "weak" then HealthBoostWeak
                         else if he = "strong" then HealthBoostStrong else "") }
                     else none)
                    fx
                  match it.ValidateInitialState with
                  | .error m => .error m
                  | .ok _ => .ok it

def createContains : Option ContainerContents → Except String (Option (Option Item))
  | none => .ok none
  | some (.mk citem empty) =>
      if empty then .ok (some none)
      else
        match citem with
        | none => .ok (some none)
        | some cd =>
            match createItem cd with
            | .error m => .error m
            | .ok it => .ok (some (some it))

def createConceals : Option ItemData → Except String (Option Concealer)
  | none => .ok none
  | some cd =>
      match createItem cd with
      | .error m => .error m
      | .ok hidden => .ok (some (.mk (some hidden) false))

def createFixture : Option FixtureData → Except String (Option Fixture)
  | none => .ok none
  | some (.mk req prod) =>
      match prod with
      | none => .ok (some (.mk (req.map (fun s => (s, false))) none))
      | some pd =>
          match createItem pd with
          | .error m => .error m
          | .ok it => .ok (some (.mk (req.map (fun s => (s, false))) (some it)))

end

mutual

theorem createItem_concealOk : ∀ {d : ItemData} {it : Item},
    createItem d = Except.ok it → itemConcealOk it = true
  | .mk name desc loc det portable key wd am wn he code conceals contains fixture, it => by
      intro h
      unfold createItem at h
      cases hcc : createContains contains with
      | error m => rw [hcc] at h; exact Except.noConfusion h
      | ok cont =>
      rw [hcc] at h
      simp only [] at h
      cases hcz : createConceals conceals with
      | error m => rw [hcz] at h; exact Except.noConfusion h
      | ok cz =>
      rw [hcz] at h
      simp only [] at h
      cases hfx : createFixture fixture with
      | error m => rw [hfx] at h; exact Except.noConfusion h
      | ok fx =>
      rw [hfx] at h
      simp only [] at h
      split at h
      · exact Except.noConfusion h
      · injection h with h2
        rw [← h2]
        simp only [itemConcealOk, Bool.and_eq_true]
        refine ⟨⟨?_, createConceals_concealOk hcz⟩, createFixture_concealOk hfx⟩
        cases cont with
        | none => rfl
        | some contents =>
            simp only [optContainerOk]
            exact createContains_concealOk hcc contents rfl

theorem createContains_concealOk : ∀ {cc : Option ContainerContents}
    {cont : Option (Option Item)},
    createContains cc = Except.ok cont →
    ∀ contents, cont = some contents → optItemOk contents = true
  | none, cont => by
      intro h contents h2
      injection h with h3
      rw [← h3] at h2
      exact Option.noConfusion h2
  | some (.mk citem empty), cont => by
      intro h contents h2
      unfold createContains at h
      split at h
      · injection h with h3
        rw [← h3] at h2
        injection h2 with h4
        rw [← h4]
        rfl
      · cases citem with
        | none =>
            injection h with h3
            rw [← h3] at h2
            injection h2 with h4
            rw [← h4]
            rfl
        | some cd =>
            simp only [] at h
            cases hci : createItem cd with
            | error m => rw [hci] at h; exact Except.noConfusion h
            | ok it =>
                rw [hci] at h
                simp only [] at h
                injection h with h3
                rw [← h3] at h2
                injection h2 with h4
                rw [← h4]
                simp only [optItemOk]
                exact createItem_concealOk hci

theorem createConceals_concealOk : ∀ {cd : Option ItemData} {cz : Option Concealer},
    createConceals cd = Except.ok cz → optConcealerOk cz = true
  | none, cz => by
      intro h
      injection h with h2
      rw [← h2]
      rfl
  | some d, cz => by
      intro h
      unfold createConceals at h
      cases hci : createItem d with
      | error m => rw [hci] at h; exact Except.noConfusion h
      | ok hidden =>
          rw [hci] at h
          simp only [] at h
          injection h with h2
          rw [← h2]
          simp only [optConcealerOk, optItemOk, Option.isSome_some, Bool.or_true,
            Bool.true_and]
          exact createItem_concealOk hci

theorem createFixture_concealOk : ∀ {fd : Option FixtureData} {fx : Option Fixture},
    createFixture fd = Except.ok fx → optFixtureOk fx = true
  | none, fx => by
      intro h
      injection h with h2
      rw [← h2]
      rfl
  | some (.mk req prod), fx => by
      intro h
      unfold createFixture at h
      cases prod with
      | none =>
          simp only [] at h
          injection h with h2
          rw [← h2]
          rfl
      | some pd =>
          simp only [] at h
          cases hci : createItem pd with
          | error m => rw [hci] at h; exact Except.noConfusion h
          | ok it =>
              rw [hci] at h
              simp only [] at h
              injection h with h2
              rw [← h2]
              simp only [optFixtureOk, optItemOk]
              exact createItem_concealOk hci

end

theorem reachable_concealOk {e0 e : Engine} (hr : ReachableFrom e0 e)
    (hc : levelConcealOk e0.level = true) : levelConcealOk e.level = true := by
  induction hr with
  | refl => exact hc
  | tail _ hstep ih => exact step_concealOk hstep ih

theorem NewEngine_level {lvl : Level} {e0 : Engine} (h : NewEngine lvl = some e0) :
    e0.level = lvl := by
  unfold NewEngine at h
  repeat' split at h
  all_goals try exact Option.noConfusion h
  unfold Engine.initializeMinimapData Engine.updateMinimapDataForCurrenRoom at h
  repeat' split at h
  all_goals try exact Option.noConfusion h
  injection h with h2
  rw [← h2]

theorem createConceals_shape {cd : Option ItemData} {cz : Concealer}
    (h : createConceals cd = Except.ok (some cz)) :
    cz.uncovered = false ∧ cz.hidden.isSome = true := by
  cases cd with
  | none =>
      injection h with h2
      exact Option.noConfusion h2
  | some d =>
      unfold createConceals at h
      split at h
      · exact Except.noConfusion h
      · injection h with h2
        injection h2 with h3
        rw [← h3]
        exact ⟨rfl, rfl⟩

theorem createItem_concealer {d : ItemData} {it : Item} {cz : Concealer}
    (h : createItem d = Except.ok it) (hcz : it.concealer = some cz) :
    cz.uncovered = false ∧ cz.hidden.isSome = true := by
  cases d with
  | mk name desc loc det portable key wd am wn he code conceals contains fixture =>
      unfold createItem at h
      cases hcc : createContains contains with
      | error m => rw [hcc] at h; exact Except.noConfusion h
      | ok cont =>
      rw [hcc] at h
      simp only [] at h
      cases hcs : createConceals conceals with
      | error m => rw [hcs] at h; exact Except.noConfusion h
      | ok cz0 =>
      rw [hcs] at h
      simp only [] at h
      cases hfx : createFixture fixture with
      | error m => rw [hfx] at h; exact Except.noConfusion h
      | ok fx =>
      rw [hfx] at h
      simp only [] at h
      split at h
      · exact Except.noConfusion h
      · injection h with h2
        rw [← h2] at hcz
        simp only [Item.concealer] at hcz
        rw [hcz] at hcs
        exact createConceals_shape hcs

/-- On an invariant-satisfying state, uncovering a present, not-yet-uncovered
concealer never dereferences a missing hidden item: the hidden item is
present and the uncover succeeds. -/
theorem uncover_safe {e : Engine} {room : Room} {n : String} {it : Item} {cz : Concealer}
    (hc : levelConcealOk e.level = true)
    (hroom : e.currentRoom? = some room)
    (hit : room.GetItem n = some it)
    (hcz : it.concealer = some cz)
    (hunc : cz.uncovered = false) :
    cz.hidden.isSome = true ∧ ∃ e' v, e.uncoverInternal n = Out.ok e' v := by
  have hio := concealOk_item (concealOk_currentRoom hc hroom) hit
  have hzo := (itemConcealOk_parts hio).2.1
  rw [hcz] at hzo
  have hhid : cz.hidden.isSome = true := by
    cases cz with
    | mk hid unc =>
        simp only [optConcealerOk, Bool.and_eq_true, Bool.or_eq_true] at hzo
        rcases hzo.1 with h1 | h1
        · exact absurd (hunc ▸ h1 : (false : Bool) = true) (by decide)
        · exact h1
  refine ⟨hhid, ?_⟩
  obtain ⟨hid, hhid2⟩ := Option.isSome_iff_exists.mp hhid
  have hr2 : cz.Reveal.2 = some hid := hhid2
  unfold Engine.uncoverInternal
  rw [hroom]
  simp only []
  rw [hit]
  simp only []
  rw [hcz]
  simp only []
  rw [hunc]
  simp only [Bool.false_eq_true, if_false]
  rw [hr2]
  simp only []
  exact ⟨_, _, rfl⟩

/-- C9: the loader creates a Concealer capability only with a hidden item
present (and loader-created items satisfy the concealment invariant); the
invariant is preserved at every reachable state, so a not-yet-uncovered
concealer always holds a hidden item, and both uncover and the
take-on-concealer delegation succeed without dereferencing a missing hidden
item. -/
theorem concealer_safety {lvl : Level} {e0 e : Engine}
    (h0 : NewEngine lvl = some e0) (hc0 : levelConcealOk lvl = true)
    (hr : ReachableFrom e0 e) :
    (∀ d it cz, createItem d = Except.ok it → it.concealer = some cz →
      cz.uncovered = false ∧ cz.hidden.isSome = true ∧ itemConcealOk it = true) ∧
    levelConcealOk e.level = true ∧
    (∀ room n it cz, e.currentRoom? = some room → room.GetItem n = some it →
      it.concealer = some cz → cz.uncovered = false →
      cz.hidden.isSome = true ∧ (∃ e' v, e.uncoverInternal n = Out.ok e' v) ∧
      (∃ e2 v2, e.takeInternal n = Out.ok e2 v2)) := by
  have hce : levelConcealOk e.level = true := by
    refine reachable_concealOk hr ?_
    rw [NewEngine_level h0]
    exact hc0
  refine ⟨?_, hce, ?_⟩
  · intro d it cz h hcz
    obtain ⟨h1, h2⟩ := createItem_concealer h hcz
    exact ⟨h1, h2, createItem_concealOk h⟩
  · intro room n it cz hroom hit hcz hunc
    obtain ⟨hhid, e2, r, huv⟩ := uncover_safe hce hroom hit hcz hunc
    refine ⟨hhid, ⟨e2, r, huv⟩, ?_⟩
    unfold Engine.takeInternal
    rw [hroom]
    simp only []
    rw [hit]
    simp only []
    have hcond : (it.IsConcealer && !(match it.concealer with
        | some c => c.uncovered
        | none => false)) = true := by
      simp [Item.IsConcealer, hcz, hunc]
    rw [hcond]
    simp only [if_true]
    rw [huv]
    simp only []
    exact ⟨_, _, rfl⟩

def rugCz : Concealer := .mk (some coinItem) false

def rugItem : Item := .mk "rug" "a rug" "" "" false false none none (some rugCz) none none none

def lvlC9 : Level :=
  { name := "concealdemo"
    floors := [{ name := "f", description := "", rooms :=
      [{ name := "a", description := "", initialDescription := "",
         connections := [], items := [rugItem], visited := false }] }]
    doors := [], enemies := [], triggers := [], winCondition := none
    comboItems := [] }

def eC9 : Engine :=
  { level := lvlC9
    player := { inventory := [], health := HealthFine, ammo := [] }
    currentFloorName := "f", currentRoomName := "a"
    fightingEnemy := none
    levelCompletionState := LevelCompletionStateInProgress
    mode := Investigation
    validationDisabled := false
    minimapData := [] }

/-- C9 witness: in the conceal demo, the rug's concealer holds the coin and
uncovering (or taking) the rug succeeds. -/
theorem concealer_safety_witness :
    NewEngine lvlC9 = some eC9 ∧ levelConcealOk lvlC9 = true ∧
    (rugCz.hidden.isSome = true ∧
      (∃ e' v, eC9.uncoverInternal "rug" = Out.ok e' v) ∧
      (∃ e2 v2, eC9.takeInternal "rug" = Out.ok e2 v2)) :=
  ⟨rfl, rfl,
    (@concealer_safety lvlC9 eC9 eC9 rfl rfl Relation.ReflTransGen.refl).2.2
      _ "rug" _ _ rfl rfl rfl rfl⟩
